import Mathlib

/-!
# libsai: the virtual file system of the SAI container

A shallow embedding of `src/libsai/sai.cpp`: the two cluster ciphers, the
cluster checksum, the one-slot table cache behind `GetCluster`, and the
operations `Mount`, `GetEntry` and `Read` of `VirtualFileSystem`.

Machine integers are natural numbers with the wrap-around written out
(`% 2 ^ 32` for `uint32_t`, `% 2 ^ 64` for `size_t`).  A cluster in memory is
the list of its 32-bit words (the `u32` view of the union); the `u8` view is
the little-endian byte view of the same words.
-/

namespace sai

/-! ## Constants -/

/-- Modelled from the spec: `FileSystemCluster::ClusterSize` is declared in
`sai.hpp`, which is not part of the sources; the specification fixes the
cluster at 512 bytes. -/
def ClusterSize : Nat := 512

/-- The table `VirtualCluster::DecryptionKey[1024]`, copied from the source and
held in its rows of eight. -/
def DecryptionKey : List (List Nat) := [
  [0x9913D29E,0x83F58D3D,0xD0BE1526,0x86442EB7,0x7EC69BFB,0x89D75F64,0xFB51B239,0xFF097C56],
  [0xA206EF1E,0x973D668D,0xC383770D,0x1CB4CCEB,0x36F7108B,0x40336BCD,0x84D123BD,0xAFEF5DF3],
  [0x90326747,0xCBFFA8DD,0x25B94703,0xD7C5A4BA,0xE40A17A0,0xEADAE6F2,0x6B738250,0x76ECF24A],
  [0x6F2746CC,0x9BF95E24,0x1ECA68C5,0xE71C5929,0x7817E56C,0x2F99C471,0x395A32B9,0x61438343],
  [0x5E3E4F88,0x80A9332C,0x1879C69F,0x7A03D354,0x12E89720,0xF980448E,0x03643576,0x963C1D7B],
  [0xBBED01D6,0xC512A6B1,0x51CB492B,0x44BADEC9,0xB2D54BC1,0x4E7C2893,0x1531C9A3,0x43A32CA5],
  [0x55B25A87,0x70D9FA79,0xEF5B4AE3,0x8AE7F495,0x923A8505,0x1D92650C,0xC94A9A5C,0x27D4BB14],
  [0x1372A9F7,0x0C19A7FE,0x64FA1A53,0xF1A2EB6D,0x9FEB910F,0x4CE10C4E,0x20825601,0x7DFC98C4],
  [0xA046C808,0x8E90E7BE,0x601DE357,0xF360F37C,0x00CD6F77,0xCC6AB9D4,0x24CC4E78,0xAB1E0BFC],
  [0x6A8BC585,0xFD70ABF0,0xD4A75261,0x1ABF5834,0x45DCFE17,0x5F67E136,0x948FD915,0x65AD9EF5],
  [0x81AB20E9,0xD36EAF42,0x0F7F45C7,0x1BAE72D9,0xBE116AC6,0xDF58B4D5,0x3F0B960E,0xC2613F98],
  [0xB065F8B0,0x6259F975,0xC49AEE84,0x29718963,0x0B6D991D,0x09CF7A37,0x692A6DF8,0x67B68B02],
  [0x2E10DBC2,0x6C34E93C,0xA84B50A1,0xAC6FC0BB,0x5CA6184C,0x34E46183,0x42B379A9,0x79883AB6],
  [0x08750921,0x35AF2B19,0xF7AA886A,0x49F281D3,0xA1768059,0x14568CFD,0x8B3625F6,0x3E1B2D9D],
  [0xF60E14CE,0x1157270A,0xDB5C7EB3,0x738A0AFA,0x19C248E5,0x590CBD62,0x7B37C312,0xFC00B148],
  [0xD808CF07,0xD6BD1C82,0xBD50F1D8,0x91DEA3B8,0xFA86B340,0xF5DF2A80,0x9A7BEA6E,0x1720B8F1],
  [0xED94A56B,0xBF02BE28,0x0D419FA8,0x073B4DBC,0x829E3144,0x029F43E1,0x71E6D51F,0xA9381F09],
  [0x583075E0,0xE398D789,0xF0E31106,0x75073EB5,0x5704863E,0x6EF1043B,0xBC407F33,0x8DBCFB25],
  [0x886C8F22,0x5AF4DD7A,0x2CEACA35,0x8FC969DC,0x9DB8D6B4,0xC65EDC2F,0xE60F9316,0x0A84519A],
  [0x3A294011,0xDCF3063F,0x41621623,0x228CB75B,0x28E9D166,0xAE631B7F,0x06D8C267,0xDA693C94],
  [0x54A5E860,0x7C2170F4,0xF2E294CB,0x5B77A0F9,0xB91522A6,0xEC549500,0x10DD78A7,0x3823E458],
  [0x77D3635A,0x018E3069,0xE039D055,0xD5C341BF,0x9C2400EA,0x85C0A1D1,0x66059C86,0x0416FF1A],
  [0xE27E05C8,0xB19C4C2D,0xFE4DF58F,0xD2F0CE2A,0x32E013C0,0xEED637D7,0xE9FEC1E8,0xA4890DCA],
  [0xF4180313,0x7291738C,0xE1B053A2,0x9801267E,0x2DA15BDB,0xADC4DA4F,0xCF95D474,0xC0265781],
  [0x1F226CED,0xA7472952,0x3C5F0273,0xC152BA68,0xDD66F09B,0x93C7EDCF,0x4F147404,0x3193425D],
  [0x26B5768A,0x0E683B2E,0x952FDF30,0x2A6BAE46,0xA3559270,0xB781D897,0xEB4ECB51,0xDE49394D],
  [0x483F629C,0x2153845E,0xB40D64E2,0x47DB0ED0,0x302D8E4B,0x4BF8125F,0x2BD2B0AC,0x3DC836EC],
  [0xC7871965,0xB64C5CDE,0x9EA8BC27,0xD1853490,0x3B42EC6F,0x63A4FD91,0xAA289D18,0x4D2B1E49],
  [0xB8A060AD,0xB5F6C799,0x6D1F7D1C,0xBA8DAAE6,0xE51A0FC3,0xD94890E7,0x167DF6D2,0x879BCD41],
  [0x5096AC1B,0x05ACB5DA,0x375D24EE,0x7F2EB6AA,0xA535F738,0xCAD0AD10,0xF8456E3A,0x23FD5492],
  [0xB3745532,0x53C1A272,0x469DFCDF,0xE897BF7D,0xA6BBE2AE,0x68CE38AF,0x5D783D0B,0x524F21E4],
  [0x4A257B31,0xCE7A07B2,0x562CE045,0x33B708A4,0x8CEE8AEF,0xC8FB71FF,0x74E52FAB,0xCDB18796],
  [0xD1FD71B9,0xA16841D9,0xAA60C5E0,0x2BD8C98E,0x7B3DF482,0xC238D7FA,0x7CB07208,0xB9C9EACE],
  [0xBA89B0C3,0x2514E692,0x79FA9D58,0x35B577F2,0x3B7DC791,0x98BD0EC1,0x92B38905,0xC842B626],
  [0x1A36BB98,0x28FE1E5B,0x5D0E2BA8,0x76E1D3A1,0x30DB461A,0x7595F81B,0x38EEB344,0x1C56950A],
  [0x9C2B6E22,0xFBC109FD,0xAED01C77,0x9A7CA842,0x4E748FBB,0xFD318EA2,0xC90B5B1F,0xE76FDC2E],
  [0x74847696,0x0C345899,0x8CD37802,0x632DB41D,0x435A1829,0x510A2C31,0x679CE8F8,0xA21EF07E],
  [0x5EF0635A,0xFE8DA5F5,0x2F05BF66,0x8A336849,0xBC271A8B,0xEF108B46,0x05934B9C,0xA871AE3C],
  [0xB60CDFAA,0x114414BA,0x95DA54A0,0xD05B8655,0x50CE8D6F,0x73FF992A,0xBBC45F79,0x3EBF56AD],
  [0xC499B87B,0xC3DD4514,0x34F93E8A,0x87E86C48,0x2E1BA161,0x62F83147,0x914B3AEB,0x5A8FE2BC],
  [0xA92FDDF7,0xB8648CD5,0x7E65C4B6,0xDBC71941,0x41D12AB3,0xCF79476B,0xF3D9F576,0x776A05CA],
  [0xE91670DB,0xF94D215D,0xB298A900,0x6628B1D2,0xD978A423,0x59BC5A19,0x9B2EADB5,0x860D15C0],
  [0x04839451,0x65302E37,0x4F1AB752,0x6EF383E3,0xAF26C1AE,0x31EC1635,0xD6EDA06D,0x6B590C4C],
  [0x99E31790,0xE6F452C9,0x08BBD41C,0xCD29ECFC,0x0FCF00A4,0xB1901F9D,0xC537C8AF,0x40ABFD70],
  [0x887E26DE,0xDCF51BD3,0x2D3961C7,0xA3BA43CD,0x89C25D0B,0xF61C239E,0xF2519374,0x52ACBD83],
  [0x946DC011,0x33924EDD,0x2CE936E9,0x42083909,0x3D11A7E1,0xCBF6D8B1,0x54AFBAC2,0xA53592C6],
  [0xD2A5E06C,0xB3C56B81,0xCCE6CE39,0xDDE07563,0x3FCA98D0,0x475E35CF,0x0D8E97C5,0x375033C8],
  [0xC109C3A6,0xDE002575,0x53DF2257,0x5CA94FE6,0x4C7A6917,0x6C430FB0,0xB5734293,0xEA23F71E],
  [0xFFA7047A,0x7A54AA56,0xBDC84920,0x6A1FD9FB,0x16CC0340,0x908A068D,0x4A7029AC,0x03137F87],
  [0x02BE4C04,0x39C69EF0,0x569767E4,0x4D763FAB,0x24D67CD6,0x9D06CF32,0xBE4AC6EA,0x78E75071],
  [0xAD9F5572,0x23078295,0xCAD49A84,0x20B8D280,0x1945EF34,0x823AFB54,0x859E3407,0x0B178836],
  [0x0AB738F4,0xE032E3A7,0xF4A853CC,0x27621D97,0x22673B53,0xB7A68143,0xF572F930,0x6418B96A],
  [0x069D4D65,0xAB20FAB4,0xED91EE85,0x9712D178,0x176B2013,0x4955F2D4,0xDA04967C,0x81EB1062],
  [0x1F6ECA03,0x01F27A67,0x93B162FE,0x3ACB3289,0xE5B28A24,0xF7A460D1,0x8D630D18,0x451DE433],
  [0x00A1598F,0x3696BCF3,0x296CA2E8,0xBFCDF6EC,0xC6FB01A5,0xAC027E3D,0x7FD70B6E,0xA4E4A610],
  [0x4B0F874B,0x074657EF,0xB040ABD8,0xE8B4EB4F,0xC04E852D,0xE39ABE3B,0x0E49372C,0x13246A01],
  [0xF83E4064,0xF0B65CF6,0x8BE50259,0x68C0E5B2,0x8E257D60,0xA682B50D,0x71E2D594,0x1E809C0C],
  [0x9E3CFE86,0xC75FDB15,0x2A58274A,0x21D52D3A,0x3219F368,0x837F6F27,0x58EAB23F,0x698651DC],
  [0x558C743E,0x1869E945,0x1B9BD088,0x9F22DE0F,0xD8EFCD50,0x1075AC9B,0x2603648C,0x80772FBF],
  [0xD481FF21,0xEBAE9B5C,0x6F48E15F,0x60DC124D,0x5FAD0825,0xFCDE9F12,0xE1C391F1,0xE4614438],
  [0x5785907D,0x15F1DAEE,0x845311E7,0xB4943D73,0xD387CB2B,0xF13BFC0E,0x44D2CCDA,0x093FE72F],
  [0xEEA073B8,0xCE2184E5,0x48AA0AED,0xE288139F,0xD72A487F,0x1D7BAFE2,0x8F4FA3CB,0x7D8B6D28],
  [0x61B92869,0x72A266DF,0x14FC30FF,0xA04C65D7,0x12F75EF9,0x705724BD,0xA7157B06,0xFA5C075E],
  [0xDF66EDBE,0x5BA3C24E,0x6D524AC4,0xD541F19A,0xEC5D3CB7,0x4601D616,0x3C2C79A9,0x964780A3],
  [0x021CF107,0xE9253648,0x8AFBA619,0x8CF31842,0xBF40F860,0xA672F03E,0xFA2756AC,0x927B2E7E],
  [0x1E37D3C4,0x7C3A0524,0x4F284D1B,0xD8A31E9D,0xBA73B6E6,0xF399710D,0xBD8B1937,0x70FFE130],
  [0x056DAA4A,0xDC509CA1,0x07358DFF,0xDF30A2DC,0x67E7349F,0x49532C31,0x2393EBAA,0xE54DF202],
  [0x3A2C7EC9,0x98AB13EF,0x7FA52975,0x83E4792E,0x7485DA08,0x4A1823A8,0x77812011,0x8710BB89],
  [0x9B4E0C68,0x64125D8E,0x5F174A0E,0x33EA50E7,0xA5E168B0,0x1BD9B944,0x6D7D8FE0,0xEE66B84C],
  [0xF0DB530C,0xF8B06B72,0x97ED7DF8,0x126E0122,0x364BED23,0xA103B75C,0x3BC844FA,0xD0946501],
  [0x4E2F70F1,0x79A6F413,0x60B9E977,0xC1582F10,0x759B286A,0xE723EEF5,0x8BAC4B39,0xB074B188],
  [0xCC528E64,0x698700EE,0x44F9E5BB,0x7E336153,0xE2413AFD,0x91DCE2BE,0xFDCE9EC1,0xCAB2DE4F],
  [0x46C5A486,0xA0D630DB,0x1FCD5FCA,0xEA110891,0x3F20C6F9,0xE8F1B25D,0x6EFD10C8,0x889027AF],
  [0xF284AF3F,0x89EE9A61,0x58AF1421,0xE41B9269,0x260C6D71,0x5079D96E,0xD959E465,0x519CD72C],
  [0x73B64F5A,0x40BE5535,0x78386CBC,0x0A1A02CF,0xDBC126B6,0xAD02BC8D,0x22A85BC5,0xA28ABEC3],
  [0x5C643952,0xE35BC9AD,0xCBDACA63,0x4CA076A4,0x4B6121CB,0x9500BF7D,0x6F8E32BF,0xC06587E5],
  [0x21FAEF46,0x9C2AD2F6,0x7691D4A2,0xB13E4687,0xC7460AD6,0xDDFE54D5,0x81F516F3,0xC60D7438],
  [0xB9CB3BC7,0xC4770D94,0xF4571240,0x06862A50,0x30D343D3,0x5ACF52B2,0xACF4E68A,0x0FC2A59B],
  [0xB70AEACD,0x53AA5E80,0xCF624E8F,0xF1214CEB,0x936072DF,0x62193F18,0xF5491CDA,0x5D476958],
  [0xDA7A852D,0x5B053E12,0xC5A9F6D0,0xABD4A7D1,0xD25E6E82,0xA4D17314,0x2E148C4E,0x6B9F6399],
  [0xBC26DB47,0x8296DDCE,0x3E71D616,0x350E4083,0x2063F503,0x167833F2,0x115CDC5E,0x4208E715],
  [0x03A49B66,0x43A724BA,0xA3B71B8C,0x107584AE,0xC24AE0C6,0xB3FC6273,0x280F3795,0x1392C5D4],
  [0xD5BAC762,0xB46B5A3B,0xC9480B8B,0xC39783FC,0x17F2935B,0x9DB482F4,0xA7E9CC09,0x553F4734],
  [0x8DB5C3A3,0x7195EC7A,0xA8518A9A,0x0CE6CB2A,0x14D50976,0x99C077A5,0x012E1733,0x94EC3D7C],
  [0x3D825805,0x0E80A920,0x1D39D1AB,0xFCD85126,0x3C7F3C79,0x7A43780B,0xB26815D9,0xAF1F7F1C],
  [0xBB8D7C81,0xAAE5250F,0x34BC670A,0x1929C8D2,0xD6AE9FC0,0x1AE07506,0x416F3155,0x9EB38698],
  [0x8F22CF29,0x04E8065F,0xE07CFBDE,0x2AEF90E8,0x6CAD049C,0x4DC3A8CC,0x597E3596,0x08562B92],
  [0x52A21D6F,0xB6C9881D,0xFBD75784,0xF613FC32,0x54C6F757,0x66E2D57B,0xCD69FE9E,0x478CA13D],
  [0x2F5F6428,0x8E55913C,0xF9091185,0x0089E8B3,0x1C6A48BD,0x3844946D,0x24CC8B6B,0x6524AC2B],
  [0xD1F6A0F0,0x32980E51,0x8634CE17,0xED67417F,0x250BAEB9,0x84D2FD1A,0xEC6C4593,0x29D0C0B1],
  [0xEBDF42A9,0x0D3DCD45,0x72BF963A,0x27F0B590,0x159D5978,0x3104ABD7,0x903B1F27,0x9F886A56],
  [0x80540FA6,0x18F8AD1F,0xEF5A9870,0x85016FC2,0xC8362D41,0x6376C497,0xE1A15C67,0x6ABD806C],
  [0x569AC1E2,0xFE5D1AF7,0x61CADF59,0xCE063874,0xD4F722DD,0x37DEC2EC,0xAE70BDEA,0x0B2D99B4],
  [0x39B895FE,0x091E9DFB,0xA9150754,0x7D1D7A36,0x9A07B41E,0x5E8FE3B5,0xD34503A0,0xBE2BFAB7],
  [0x5742D0A7,0x48DDBA25,0x7BE3604D,0x2D4C66E9,0xB831FFB8,0xF7BBA343,0x451697E4,0x2C4FD84B],
  [0x96B17B00,0xB5C789E3,0xFFEBF9ED,0xD7C4B349,0xDE3281D8,0x689E4904,0xE683F32F,0x2B3CB0E1],
  [0x2F8E651D,0x7211B4E4,0xF635A101,0xDBB81A38,0x8E4981F0,0x11BE1949,0xF672E5FC,0xD9F082FA],
  [0x11DC51AC,0xF92BC969,0x24081B1B,0xE3963FE6,0x7F7D39A5,0x5E9FFFCB,0x38100F7A,0xEB2E02CC],
  [0xEC89C7DA,0x9AC5811B,0x707484A3,0x18B0460A,0x5C617FCC,0x93FCF2CC,0x0C100C16,0x02581227],
  [0x1B7FF709,0xB244CD40,0x57D96DF6,0xF1C80701,0xC1CBF60E,0x05FB770C,0x49F5C965,0x824F54B3],
  [0x5CBCB083,0x1EAE61D1,0x7C68643A,0x22B36D41,0x18BB8748,0xB0CA2BD7,0xC6C2CF89,0xCFBB2E5C],
  [0x863A2245,0xCBA7869C,0x0D8405A9,0x5C0DFAC0,0x00BAE703,0xEC963296,0xADBDA550,0x94A2FFEF],
  [0x0EF91FEC,0x213DA239,0x8561D716,0xCB6596DD,0x1CFEB477,0x752F6328,0xDB1D2C74,0x05BD83C0],
  [0xD1159AD8,0xAEAA1BAF,0x174CBEB0,0x4028FDC1,0xB7B6D68C,0x66A7868A,0xEAFF6A57,0xBF2EDFA7],
  [0x00000000,0x00000000,0x00401004,0x3F500401,0xFFFFFFFF,0x0048121A,0x0048122E,0xFFFFFFFF],
  [0x0048126B,0x0048127F,0xFFFFFFFF,0x004813DD,0x004813F1,0x00000000,0xFFFFFFFF,0x00482384],
  [0x00482398,0xFFFFFFFF,0x00482400,0x00482414,0xFFFFFFFF,0x004852DE,0x004852F2,0x00000000],
  [0x0048464A,0x0048465E,0x00000000,0x00484731,0x00484745,0xFFFFFFFF,0x00484134,0x0048414A],
  [0xFFFFFFFF,0x004841C2,0x004841D8,0xFFFFFFFF,0x00485702,0x00485718,0xFFFFFFFF,0x004857BA],
  [0x004857D0,0xFFFFFFFF,0x00485A3B,0x00485A51,0xFFFFFFFF,0x00485AE1,0x00485AF7,0xFFFFFFFF],
  [0x00485C04,0x00485C18,0xFFFFFFFF,0x00485C6C,0x00485C80,0xFFFFFFFF,0x00485D3D,0x00485D53],
  [0xFFFFFFFF,0x00485E2F,0x00485E45,0x00000000,0xFFFFFFFF,0x00487CE2,0x00487CF6,0x00000000],
  [0x00000001,0x00000001,0x00000003,0x00000004,0x00000001,0x00000002,0x00000001,0x00000003],
  [0x00000001,0x00000004,0x00000001,0x00000006,0x00000001,0x00000008,0x00000001,0x0000000C],
  [0x00000001,0x00000010,0x00000001,0x00000018,0x00000001,0x00000020,0x00000000,0x00000000],
  [0xFFFFFFFF,0x004880E0,0x004880F4,0x00000000,0xFFFFFFFF,0x0048846A,0x0048847E,0x00000000],
  [0xFFFFFFFF,0x00488565,0x00488579,0x00000000,0xFFFFFFFF,0x00488607,0x0048861B,0x00000000],
  [0xFFFFFFFF,0x0048916F,0x00489183,0xFFFFFFFF,0x004894E7,0x004894FB,0xFFFFFFFF,0x0048C4E9],
  [0x0048C4FD,0xFFFFFFFF,0x0048C5A4,0x0048C5B8,0xFFFFFFFF,0x00489F43,0x00489F57,0xFFFFFFFF],
  [0x0048B5D5,0x0048B5E9,0xFFFFFFFF,0x0048A846,0x0048A85A,0xFFFFFFFF,0x0048AF0A,0x0048AF1E],
  [0xFFFFFFFF,0x0048B810,0x0048B824,0xFFFFFFFF,0x0048D753,0x0048D767,0xFFFFFFFF,0x0048CBBF],
  [0x0048CBD3,0xFFFFFFFF,0x0048C8E6,0x0048C8FA,0xFFFFFFFF,0x0048D056,0x0048D06A,0xFFFFFFFF],
  [0x0048D0EC,0x0048D100,0xFFFFFFFF,0x0048CCCF,0x0048CCE3,0xFFFFFFFF,0x0048C820,0x0048C834],
  [0xFFFFFFFF,0x0048D858,0x0048D86C,0x00000000,0xFFFFFFFF,0x0048DF89,0x0048DF9D,0x00000000],
  [0x00000000,0x40300000,0x00000000,0x3FA00000,0xFFFFFFFF,0x0048E369,0x0048E37D,0x00000000],
  [0xFFFFFFFF,0x0048E4AF,0x0048E4C2,0x00000000,0xFFFFFFFF,0x0048E73E,0x0048E752,0x00000000],
  [0xFFFFFFFF,0x0048EBCB,0x0048EBDF,0x00000000,0x00000000,0xBFF00000,0x00000000,0x40990000],
  [0xFFFFFFFF,0x0048F03B,0x0048F04F,0x00000000,0xFFFFFFFF,0x0048F0F7,0x0048F10B,0x00000000]]

/-- The table read `DecryptionKey[i]`: entry `i % 8` of row `i / 8`. -/
def keyAt (i : Nat) : Nat := (DecryptionKey.getD (i / 8) []).getD (i % 8) 0

/-! ## The cluster ciphers and the checksum -/

/-- The key-stream word of `DecryptTable`: the sum of four table words, taken
from the most significant byte down, in `uint32_t` arithmetic. -/
def tableSum (s : Nat) : Nat :=
  (keyAt ((s >>> 24) &&& 0xFF) + keyAt ((s >>> 16) &&& 0xFF)
    + keyAt ((s >>> 8) &&& 0xFF) + keyAt (s &&& 0xFF)) % 2 ^ 32

/-- The key-stream word of `DecryptData`: the sum of four table words, taken
from the least significant byte up, in `uint32_t` arithmetic. -/
def dataSum (k : Nat) : Nat :=
  (keyAt (k &&& 0xFF) + keyAt ((k >>> 8) &&& 0xFF)
    + keyAt ((k >>> 16) &&& 0xFF) + keyAt ((k >>> 24) &&& 0xFF)) % 2 ^ 32

/-- The expression `(X << 16) | (X >> 16)` on a `uint32_t`. -/
def swap16 (X : Nat) : Nat := ((X <<< 16) % 2 ^ 32) ||| (X >>> 16)

/-- The loop of `VirtualCluster::DecryptTable`; the first argument is the
running `ClusterNumber`, the second the words not yet processed. -/
def decryptTableLoop : Nat → List Nat → List Nat
  | _, [] => []
  | ClusterNumber, CurCipher :: rest =>
    swap16 (ClusterNumber ^^^ CurCipher ^^^ tableSum ClusterNumber)
      :: decryptTableLoop CurCipher rest

/-- The method `VirtualCluster::DecryptTable(uint32_t ClusterNumber)` on the
words of the cluster: the argument is converted to `uint32_t` and masked with
`~0x1FF` before the loop. -/
def DecryptTable (ClusterNumber : Nat) (u32 : List Nat) : List Nat :=
  decryptTableLoop ((ClusterNumber % 2 ^ 32) &&& 0xFFFFFE00) u32

/-- The loop of `VirtualCluster::DecryptData`; the subtraction is that of
`uint32_t`. -/
def decryptDataLoop : Nat → List Nat → List Nat
  | _, [] => []
  | Key, CurCipher :: rest =>
    ((CurCipher + 2 ^ 32 - (Key ^^^ dataSum Key)) % 2 ^ 32)
      :: decryptDataLoop CurCipher rest

/-- The method `VirtualCluster::DecryptData(uint32_t Key)` on the words of the
cluster. -/
def DecryptData (Key : Nat) (u32 : List Nat) : List Nat :=
  decryptDataLoop Key u32

/-- The loop of `VirtualCluster::Checksum`: one step is
`Accumulate = (2 * Accumulate | (Accumulate >> 31)) ^ u32[i]`. -/
def checksumLoop : Nat → List Nat → Nat
  | Accumulate, [] => Accumulate
  | Accumulate, w :: rest =>
    checksumLoop ((((2 * Accumulate) % 2 ^ 32) ||| (Accumulate >>> 31)) ^^^ w) rest

/-- The method `VirtualCluster::Checksum(bool Table)`: the loop starts at word
1 for a table cluster and at word 0 otherwise. -/
def Checksum (u32 : List Nat) (Table : Bool) : Nat :=
  checksumLoop 0 (u32.drop (if Table then 1 else 0)) ||| 1

/-- A cluster in memory: `ClusterSize / 4` words of 32 bits. -/
def IsCluster (u32 : List Nat) : Prop :=
  u32.length = ClusterSize / 4 ∧ ∀ w ∈ u32, w < 2 ^ 32

instance (u32 : List Nat) : Decidable (IsCluster u32) := by
  unfold IsCluster; infer_instance

/-- The inverse of the data transform, as the specification words it:
`c_i = p_i + (k_i XOR sum k_i) mod 2^32`, `k_0 = key`, `k_(i+1) = c_i`. -/
def encryptData : Nat → List Nat → List Nat
  | _, [] => []
  | k, p :: rest =>
    ((p + (k ^^^ dataSum k)) % 2 ^ 32)
      :: encryptData ((p + (k ^^^ dataSum k)) % 2 ^ 32) rest

/-- The inverse of the table transform on a running state:
`c_i = swap16 p_i XOR s_i XOR sum s_i`, `s_(i+1) = c_i`. -/
def encryptTableLoop : Nat → List Nat → List Nat
  | _, [] => []
  | s, p :: rest =>
    (swap16 p ^^^ s ^^^ tableSum s)
      :: encryptTableLoop (swap16 p ^^^ s ^^^ tableSum s) rest

/-- The inverse of the table transform for cluster `n`: `s_0 = n & ~0x1FF`. -/
def encryptTable (n : Nat) (P : List Nat) : List Nat :=
  encryptTableLoop ((n % 2 ^ 32) &&& 0xFFFFFE00) P

/-! ## Byte and word views of a cluster -/

/-- The words held by a byte buffer, four bytes to a little-endian word. -/
def bytesToWords : List Nat → List Nat
  | b0 :: b1 :: b2 :: b3 :: rest =>
    (b0 + 256 * b1 + 65536 * b2 + 16777216 * b3) :: bytesToWords rest
  | _ => []

/-- The bytes of a word buffer, least significant byte first. -/
def wordsToBytes : List Nat → List Nat
  | [] => []
  | w :: rest =>
    (w % 256) :: (w / 256 % 256) :: (w / 65536 % 256) :: (w / 16777216 % 256)
      :: wordsToBytes rest

/-- The byte `u8[j]` of a cluster held as words. -/
def u8 (u32 : List Nat) (j : Nat) : Nat :=
  (wordsToBytes u32).getD j 0

/-! ## Directory entries and record layouts -/

/-- The enumeration `VirtualFileEntry::EntryType`; a type byte that is neither
tag is kept as `Other`. -/
inductive EntryType where
  | Folder
  | File
  | Other (tag : Nat)
  deriving DecidableEq, Repr

/-- The record `FATEntry` as the code reads it: `Name` is the C string held by
the name buffer. -/
structure FATEntry where
  Flags : Nat
  Name : List Char
  Type_ : EntryType
  Cluster : Nat
  Size : Nat
  TimeStamp : Nat
  deriving DecidableEq, Repr

/-- The two record views of a cluster, `TableEntries[i].Checksum` and
`FATEntries[i]`.  They are declared in `sai.hpp`, which is not part of the
sources, so every operation takes them as a parameter. -/
structure Layout where
  Checksum : List Nat → Nat → Nat
  FATEntries : List Nat → Nat → FATEntry

/-! ## The backing stream -/

/-- The state of the `std::ifstream` member `FileStream`: whether a file is
open, the `failbit`, and the bytes of the open file. -/
structure IfStream where
  isOpen : Bool
  failbit : Bool
  data : List Nat
  deriving DecidableEq, Repr

/-- The test `if( FileStream )`, that is `!fail()`. -/
def IfStream.good (s : IfStream) : Bool := !s.failbit

/-- The call `FileStream.close()`: closing a stream that has no open file
sets `failbit`. -/
def IfStream.closeFile (s : IfStream) : IfStream :=
  if s.isOpen then { s with isOpen := false } else { s with failbit := true }

/-- The call `FileStream.open(FileName, ...)`; `file` is what the name
resolves to, `none` when it cannot be opened.  Opening succeeds only on a
stream without an open file, and then clears the state flags. -/
def IfStream.openFile (s : IfStream) (file : Option (List Nat)) : IfStream :=
  if s.isOpen then { s with failbit := true }
  else
    match file with
    | none => { s with failbit := true }
    | some bytes => { isOpen := true, failbit := false, data := bytes }

/-- The pair `seekg(pos); read(buffer, ClusterSize)` into a cluster whose words
are `old`: a full read replaces the cluster; a short read replaces its first
bytes and sets `failbit`; on a stream that is not readable nothing is stored. -/
def IfStream.readCluster (s : IfStream) (pos : Nat) (old : List Nat) :
    IfStream × List Nat :=
  if s.isOpen && !s.failbit then
    if ((s.data.drop pos).take ClusterSize).length = ClusterSize then
      (s, bytesToWords ((s.data.drop pos).take ClusterSize))
    else
      ({ s with failbit := true },
        bytesToWords (((s.data.drop pos).take ClusterSize
          ++ (wordsToBytes old).drop ((s.data.drop pos).take ClusterSize).length).take
            ClusterSize))
  else ({ s with failbit := true }, old)

/-! ## The file system engine -/

/-- The data members of `VirtualFileSystem`. -/
structure VirtualFileSystem where
  FileStream : IfStream
  ClusterCount : Nat
  CacheTableNum : Nat
  CacheTable : List Nat
  CacheBuffer : List Nat
  deriving DecidableEq, Repr

/-- The method `VirtualFileSystem::GetCluster(ClusterNum, Cluster)`; `Cluster`
is the content of the output cluster before the call.  The result is the
returned flag, the engine after the call and the output cluster after it. -/
def GetCluster (L : Layout) (fs : VirtualFileSystem) (ClusterNum : Nat)
    (Cluster : List Nat) : Bool × VirtualFileSystem × List Nat :=
  if ClusterNum < fs.ClusterCount then
    if ClusterNum &&& 0x1FF ≠ 0 then
      let NearestTable := ClusterNum &&& 0xFFFFFFFFFFFFFE00
      if fs.CacheTableNum = NearestTable then
        let Key := L.Checksum fs.CacheTable (ClusterNum - NearestTable)
        let rd := fs.FileStream.readCluster (ClusterNum * ClusterSize % 2 ^ 64) Cluster
        (true, { fs with FileStream := rd.1 }, DecryptData Key rd.2)
      else
        let rt := fs.FileStream.readCluster (NearestTable * ClusterSize % 2 ^ 64) fs.CacheTable
        let Table := DecryptTable NearestTable rt.2
        let Key := L.Checksum Table (ClusterNum - NearestTable)
        let rd := rt.1.readCluster (ClusterNum * ClusterSize % 2 ^ 64) Cluster
        (true, { fs with FileStream := rd.1, CacheTable := Table }, DecryptData Key rd.2)
    else
      if ClusterNum = fs.CacheTableNum then (true, fs, fs.CacheTable)
      else
        let rt := fs.FileStream.readCluster (ClusterNum * ClusterSize % 2 ^ 64) fs.CacheTable
        let Table := DecryptTable ClusterNum rt.2
        (true,
          { fs with FileStream := rt.1, CacheTable := Table, CacheTableNum := ClusterNum },
          Table)
  else (false, fs, Cluster)

/-- The call `GetCluster(ClusterNum, CacheBuffer)`, whose output cluster is the
member `CacheBuffer`. -/
def GetClusterBuf (L : Layout) (fs : VirtualFileSystem) (ClusterNum : Nat) :
    Bool × VirtualFileSystem :=
  let r := GetCluster L fs ClusterNum fs.CacheBuffer
  (r.1, { r.2.1 with CacheBuffer := r.2.2 })

/-- The verification loop of `Mount`, entered at index `i` with `n` indices
left, so that `i + n` is `ClusterCount`. -/
def mountLoop (L : Layout) : Nat → Nat → VirtualFileSystem → Bool × VirtualFileSystem
  | 0, _, fs => (true, fs)
  | n + 1, i, fs =>
    let fs1 := (GetClusterBuf L fs i).2
    if i &&& 0x1FF ≠ 0 then
      if L.Checksum fs1.CacheTable (i &&& 0x1FF) ≠ Checksum fs1.CacheBuffer false then
        (false, { fs1 with FileStream := fs1.FileStream.closeFile })
      else mountLoop L n (i + 1) fs1
    else
      if L.Checksum fs1.CacheTable 0 ≠ Checksum fs1.CacheTable true then
        (false, { fs1 with FileStream := fs1.FileStream.closeFile })
      else mountLoop L n (i + 1) fs1

/-- The stream of `Mount` after `if( FileStream ) close();` and `open`. -/
def mountStream (s : IfStream) (file : Option (List Nat)) : IfStream :=
  (if s.good then s.closeFile else s).openFile file

/-- The method `VirtualFileSystem::Mount(FileName)`; `file` is the content of
the named file, `none` when it cannot be opened. -/
def Mount (L : Layout) (fs : VirtualFileSystem) (file : Option (List Nat)) :
    Bool × VirtualFileSystem :=
  let s := mountStream fs.FileStream file
  if s.good then
    let FileSize := s.data.length
    if FileSize &&& 0x1FF ≠ 0 then
      (false, { fs with FileStream := s.closeFile })
    else
      mountLoop L (FileSize / ClusterSize) 0
        { fs with FileStream := s, ClusterCount := FileSize / ClusterSize }
  else (false, { fs with FileStream := s })

/-- The method `VirtualFileSystem::GetClusterCount`. -/
def GetClusterCount (fs : VirtualFileSystem) : Nat := fs.ClusterCount

/-- The method `VirtualFileSystem::GetSize`, a `size_t` product. -/
def GetSize (fs : VirtualFileSystem) : Nat :=
  GetClusterCount fs * ClusterSize % 2 ^ 64

/-! ## The cache-less reference -/

/-- The 512 bytes of cluster `n` of a file, as words. -/
def rawCluster (bytes : List Nat) (n : Nat) : List Nat :=
  bytesToWords ((bytes.drop (n * ClusterSize)).take ClusterSize)

/-- The decrypted table cluster with index `t` of a file. -/
def refTable (bytes : List Nat) (t : Nat) : List Nat :=
  DecryptTable t (rawCluster bytes t)

/-- The cache-less reference for cluster `n`: a table cluster is the
table-decrypt of its raw bytes; a data cluster is the data-decrypt of its raw
bytes, keyed by the checksum of slot `n mod 512` of its decrypted table. -/
def refCluster (L : Layout) (bytes : List Nat) (n : Nat) : List Nat :=
  if n % 512 = 0 then refTable bytes n
  else DecryptData (L.Checksum (refTable bytes (n - n % 512)) (n % 512)) (rawCluster bytes n)

/-- A mounted engine: the stream is open and readable and `ClusterCount` is
the cluster count of the open file. -/
def Mounted (fs : VirtualFileSystem) : Prop :=
  fs.FileStream.isOpen = true ∧ fs.FileStream.failbit = false ∧
    fs.FileStream.data.length = fs.ClusterCount * ClusterSize ∧
    fs.ClusterCount * ClusterSize < 2 ^ 64

/-- The check `Mount` makes for cluster `i` of a file, on the reference
clusters: a data cluster's `Checksum(false)` against the checksum stored in
slot `i mod 512` of its table; a table cluster's entry-0 checksum against its
own `Checksum(true)`. -/
def ClusterVerified (L : Layout) (bytes : List Nat) (i : Nat) : Prop :=
  (i % 512 ≠ 0 →
      Checksum (DecryptData (L.Checksum (refTable bytes (i - i % 512)) (i % 512))
        (rawCluster bytes i)) false
        = L.Checksum (refTable bytes (i - i % 512)) (i % 512)) ∧
    (i % 512 = 0 → L.Checksum (refTable bytes i) 0 = Checksum (refTable bytes i) true)

instance (L : Layout) (bytes : List Nat) (i : Nat) : Decidable (ClusterVerified L bytes i) := by
  unfold ClusterVerified; infer_instance

/-- The `open` call of `Mount` succeeds for this engine and file. -/
def Opens (fs : VirtualFileSystem) (file : Option (List Nat)) : Prop :=
  (mountStream fs.FileStream file).good = true

/-! ## Read -/

/-- The call `memcpy(Destination + WritePoint, Cluster->u8 + from, len)` on the
memory behind `Destination`, addressed relative to it. -/
def memcpy (mem : Nat → Nat) (WritePoint : Nat) (u32 : List Nat) (src len : Nat) :
    Nat → Nat :=
  fun a => if WritePoint ≤ a ∧ a < WritePoint + len then u8 u32 (src + (a - WritePoint)) else mem a

/-- The loop `while( Size )` of `Read`.  Every pass copies at least one byte,
so `n` passes suffice for `Size ≤ n`; the arithmetic is that of `size_t`. -/
def readLoop (L : Layout) (Entry : FATEntry) :
    Nat → VirtualFileSystem → Nat → Nat → Nat → (Nat → Nat) → VirtualFileSystem × (Nat → Nat)
  | 0, fs, _, _, _, mem => (fs, mem)
  | n + 1, fs, Offset, Size, WritePoint, mem =>
    if Size = 0 then (fs, mem)
    else
      let CurCluster := Offset / ClusterSize
      let CurClusterOffset := Offset % ClusterSize
      let CurClusterSize := min Size (ClusterSize - CurClusterOffset)
      let fs1 := (GetClusterBuf L fs ((Entry.Cluster + CurCluster) % 2 ^ 64)).2
      readLoop L Entry n fs1 ((Offset + CurClusterSize) % 2 ^ 64) (Size - CurClusterSize)
        (WritePoint + CurClusterSize)
        (memcpy mem WritePoint fs1.CacheBuffer CurClusterOffset CurClusterSize)

/-- The method `VirtualFileSystem::Read(Entry, Offset, Size, Destination)`: the
returned flag, the engine after the call and the destination memory after it.
`Offset + Size` is a `size_t` sum. -/
def Read (L : Layout) (fs : VirtualFileSystem) (Entry : FATEntry) (Offset Size : Nat)
    (Destination : Nat → Nat) : Bool × VirtualFileSystem × (Nat → Nat) :=
  if fs.FileStream.good = true ∧ Entry.Cluster < fs.ClusterCount ∧ Entry.Type_ = EntryType.File
      ∧ (Offset + Size) % 2 ^ 64 ≤ Entry.Size then
    (true, readLoop L Entry Size fs Offset Size 0 Destination)
  else (false, fs, Destination)

/-- The engine before the `k`-th cluster read of a `Read` whose first cluster
is `first`: the clusters `first`, `first + 1`, ... are fetched in turn. -/
def readState (L : Layout) (fs : VirtualFileSystem) (first : Nat) : Nat → VirtualFileSystem
  | 0 => fs
  | k + 1 => (GetClusterBuf L (readState L fs first k) (first + k)).2

/-- The contents `GetCluster` yields at the `k`-th cluster read of a `Read`
whose first cluster is `first`. -/
def readYield (L : Layout) (fs : VirtualFileSystem) (first k : Nat) : List Nat :=
  (readState L fs first (k + 1)).CacheBuffer

/-! ## GetEntry -/

/-- The name tokens `strtok` yields for the delimiters `"./"`: the maximal runs
of other characters, in order.  `cur` is the run being read, reversed. -/
def tokensFrom : List Char → List Char → List (List Char)
  | [], cur => if cur = [] then [] else [cur.reverse]
  | c :: rest, cur =>
    if c = '.' ∨ c = '/' then
      if cur = [] then tokensFrom rest [] else cur.reverse :: tokensFrom rest []
    else tokensFrom rest (c :: cur)

/-- The name tokens of a path. -/
def tokens (Path : List Char) : List (List Char) := tokensFrom Path []

/-- The scan `while( CurEntry < 64 && FATEntries[CurEntry].Flags )` for one
token over one directory cluster, entered at `CurEntry` with `n` slots left
(`CurEntry + n = 64`): the first slot whose name compares equal to the token. -/
def scanSlots (L : Layout) (u32 : List Nat) (CurToken : List Char) : Nat → Nat → Option Nat
  | 0, _ => none
  | n + 1, CurEntry =>
    if (L.FATEntries u32 CurEntry).Flags = 0 then none
    else if CurToken = (L.FATEntries u32 CurEntry).Name then some CurEntry
    else scanSlots L u32 CurToken n (CurEntry + 1)

/-- The outcome of `GetEntry`: the returned flag, the output entry, the engine
after the call, and the `GetCluster` calls made, each with its index and the
content of `CacheBuffer` after it. -/
structure EntryResult where
  found : Bool
  Entry : FATEntry
  fs : VirtualFileSystem
  reads : List (Nat × List Nat)

/-- The loop of `GetEntry` from the point where `CacheBuffer` holds a directory
cluster and `CurToken` is the token to look up; `later` are the tokens `strtok`
yields afterwards.  A match restarts the scan at slot 0 of the next cluster. -/
def getEntryLoop (L : Layout) (Entry : FATEntry) :
    List (List Char) → List Char → VirtualFileSystem → List (Nat × List Nat) → EntryResult
  | later, CurToken, fs, reads =>
    match scanSlots L fs.CacheBuffer CurToken 64 0 with
    | none => ⟨false, Entry, fs, reads⟩
    | some CurEntry =>
      match later with
      | [] => ⟨true, L.FATEntries fs.CacheBuffer CurEntry, fs, reads⟩
      | next :: later1 =>
        if (L.FATEntries fs.CacheBuffer CurEntry).Type_ ≠ EntryType.Folder then
          ⟨false, Entry, fs, reads⟩
        else
          let fs1 := (GetClusterBuf L fs (L.FATEntries fs.CacheBuffer CurEntry).Cluster).2
          getEntryLoop L Entry later1 next fs1
            (reads ++ [((L.FATEntries fs.CacheBuffer CurEntry).Cluster, fs1.CacheBuffer)])

/-- The method `VirtualFileSystem::GetEntry(Path, Entry)`.  With no token,
`CurToken` is null: the result is `none` when the loop body is entered and
`strcmp` is called on it. -/
def GetEntry (L : Layout) (fs : VirtualFileSystem) (Path : List Char) (Entry : FATEntry) :
    Option EntryResult :=
  if fs.FileStream.good = true then
    let fs1 := (GetClusterBuf L fs 2).2
    match tokens Path with
    | [] =>
      if (L.FATEntries fs1.CacheBuffer 0).Flags ≠ 0 then none
      else some ⟨false, Entry, fs1, [(2, fs1.CacheBuffer)]⟩
    | CurToken :: later =>
      some (getEntryLoop L Entry later CurToken fs1 [(2, fs1.CacheBuffer)])
  else some ⟨false, Entry, fs, []⟩

/-- The populated slots of a directory cluster: the records before the first
zero-flags slot, at most 64. -/
def dirSlots (L : Layout) (u32 : List Nat) : List FATEntry :=
  ((List.range 64).map (L.FATEntries u32)).takeWhile (fun e => e.Flags ≠ 0)

/-- The reference resolution of a token sequence from directory cluster `c`
over the decrypted clusters `dir`: take the first populated slot whose name is
the token; the last token yields that slot, an earlier one must be a folder
and continues in its cluster. -/
def resolve (L : Layout) (dir : Nat → List Nat) : Nat → List (List Char) → Option FATEntry
  | _, [] => none
  | c, t :: rest =>
    match (dirSlots L (dir c)).find? (fun e => e.Name = t) with
    | none => none
    | some e =>
      if rest = [] then some e
      else if e.Type_ = EntryType.Folder then resolve L dir e.Cluster rest
      else none

/-- The state invariant of the engine: whenever a file is open, the engine is
mounted on it. -/
def Sound (fs : VirtualFileSystem) : Prop :=
  fs.FileStream.isOpen = true → Mounted fs

/-! ## The checksum as a rotate-xor fold -/

/-- The rotation of a 32-bit word by one bit to the left: bit 31 moves to bit
0 and every other bit moves one place up. -/
def rotateLeft1 (x : Nat) : Nat := 2 ^ 1 * (x % 2 ^ 31) + x / 2 ^ 31 % 2

/-- The fold `acc := rotateLeft1 acc XOR w` over a list of words. -/
def rotXorFold (acc : Nat) (ws : List Nat) : Nat :=
  ws.foldl (fun a w => rotateLeft1 a ^^^ w) acc

/-- The checksum as the specification words it: the fold over the words
`w_s .. w_127` from 0, `s = 1` for a table cluster and `s = 0` otherwise, with
bit 0 set at the end. -/
def foldChecksum (u32 : List Nat) (isTable : Bool) : Nat :=
  rotXorFold 0 (u32.drop (if isTable then 1 else 0)) ||| 1

/-! ## Time stamps -/

/-- The conversion of a `uint64_t` value to `time_t`, a signed 64-bit integer
in two's complement. -/
def toTimeT (u : Nat) : Int :=
  if u % 2 ^ 64 < 2 ^ 63 then ((u % 2 ^ 64 : Nat) : Int) else ((u % 2 ^ 64 : Nat) : Int) - 2 ^ 64

/-- The method `VirtualFileEntry::GetTimeStamp`: the division and the
subtraction are those of `unsigned long long`, the result is returned as
`time_t`. -/
def GetTimeStamp (Entry : FATEntry) : Int :=
  toTimeT ((Entry.TimeStamp / 10000000 + 2 ^ 64 - 11644473600) % 2 ^ 64)

/-! ## Iterate -/

/-- The callbacks of `FileSystemVisitor`. -/
inductive Callback where
  | VisitFile (Entry : FATEntry)
  | VisitFolderBegin (Entry : FATEntry)
  | VisitFolderEnd
  deriving DecidableEq, Repr

/-- How a directory walk ends: it returns; or the slot loop reads
`FATEntries[64]`, past the end of the cluster; or `GetCluster` stores nothing
in the local cluster, whose content is then indeterminate; or the recursion
budget of the model is used up. -/
inductive WalkEnd where
  | returned
  | overrun
  | unread
  | unfinished
  deriving DecidableEq, Repr

/-- The outcome of a directory walk: how it ends, the engine after it, the
visitor callbacks made, and the `GetCluster` calls made, each with its index
and the cluster it stored. -/
structure Walk where
  ending : WalkEnd
  fs : VirtualFileSystem
  calls : List Callback
  reads : List (Nat × List Nat)

/-- The loop `for( i = 0; CurCluster.FATEntries[i].Flags; i++ )` of
`VisitCluster` over the local cluster, entered at slot `i` with `n` slots of
the cluster left (`i + n = 64`); `visit` is the recursive call.  The loop has
no bound: with `n = 0` its condition reads slot 64. -/
def visitSlots (L : Layout) (visit : VirtualFileSystem → Nat → Walk) (CurCluster : List Nat) :
    Nat → Nat → Walk → Walk
  | 0, _, acc => { acc with ending := WalkEnd.overrun }
  | n + 1, i, acc =>
    if (L.FATEntries CurCluster i).Flags = 0 then acc
    else
      match (L.FATEntries CurCluster i).Type_ with
      | EntryType.File =>
        visitSlots L visit CurCluster n (i + 1)
          { acc with calls := acc.calls ++ [Callback.VisitFile (L.FATEntries CurCluster i)] }
      | EntryType.Folder =>
        if (visit acc.fs (L.FATEntries CurCluster i).Cluster).ending = WalkEnd.returned then
          visitSlots L visit CurCluster n (i + 1)
            { ending := WalkEnd.returned
              fs := (visit acc.fs (L.FATEntries CurCluster i).Cluster).fs
              calls := acc.calls ++ [Callback.VisitFolderBegin (L.FATEntries CurCluster i)]
                ++ (visit acc.fs (L.FATEntries CurCluster i).Cluster).calls
                ++ [Callback.VisitFolderEnd]
              reads := acc.reads ++ (visit acc.fs (L.FATEntries CurCluster i).Cluster).reads }
        else
          { ending := (visit acc.fs (L.FATEntries CurCluster i).Cluster).ending
            fs := (visit acc.fs (L.FATEntries CurCluster i).Cluster).fs
            calls := acc.calls ++ [Callback.VisitFolderBegin (L.FATEntries CurCluster i)]
              ++ (visit acc.fs (L.FATEntries CurCluster i).Cluster).calls
            reads := acc.reads ++ (visit acc.fs (L.FATEntries CurCluster i).Cluster).reads }
      | EntryType.Other _ => visitSlots L visit CurCluster n (i + 1) acc

/-- The method `VirtualFileSystem::VisitCluster(ClusterNumber, Visitor)`, with
a budget for the depth of the recursion.  The local `CurCluster` holds a
cluster only if `GetCluster` returns true and its reads succeed. -/
def VisitCluster (L : Layout) : Nat → VirtualFileSystem → Nat → Walk
  | 0, fs, _ => ⟨WalkEnd.unfinished, fs, [], []⟩
  | depth + 1, fs, ClusterNumber =>
    if (GetCluster L fs ClusterNumber []).1 = true
        ∧ (GetCluster L fs ClusterNumber []).2.1.FileStream.failbit = false then
      visitSlots L (VisitCluster L depth) (GetCluster L fs ClusterNumber []).2.2 64 0
        { ending := WalkEnd.returned
          fs := (GetCluster L fs ClusterNumber []).2.1
          calls := []
          reads := [(ClusterNumber, (GetCluster L fs ClusterNumber []).2.2)] }
    else ⟨WalkEnd.unread, (GetCluster L fs ClusterNumber []).2.1, [], []⟩

/-- The method `VirtualFileSystem::Iterate(Visitor)`, with a budget for the
depth of the recursion. -/
def Iterate (L : Layout) (depth : Nat) (fs : VirtualFileSystem) : Walk :=
  if fs.FileStream.good = true then VisitCluster L depth fs 2
  else ⟨WalkEnd.returned, fs, [], []⟩

/-- The callbacks for one directory slot, `sub` giving those of a folder's
cluster: a file yields `VisitFile`; a folder yields `VisitFolderBegin`, the
callbacks of its cluster, `VisitFolderEnd`. -/
def entryCalls (sub : Nat → List Callback) (e : FATEntry) : List Callback :=
  match e.Type_ with
  | EntryType.File => [Callback.VisitFile e]
  | EntryType.Folder =>
    [Callback.VisitFolderBegin e] ++ sub e.Cluster ++ [Callback.VisitFolderEnd]
  | EntryType.Other _ => []

/-- The reference `trace(c)` over the decrypted clusters `dir`, for a
directory tree of depth at most `d`: the concatenation of the callbacks of
the populated slots of cluster `c`, in slot order. -/
def trace (L : Layout) (dir : Nat → List Nat) : Nat → Nat → List Callback
  | 0, _ => []
  | d + 1, c => (dirSlots L (dir c)).flatMap (entryCalls (trace L dir d))

/-- The folder entries reachable from cluster `c` form a tree of depth at most
`d` over the decrypted clusters `dir`: `c` is a cluster of the container, it
has a zero-flags slot among its 64 slots, and the same holds below each of
its folder entries. -/
def treeWithin (L : Layout) (dir : Nat → List Nat) (count : Nat) : Nat → Nat → Bool
  | 0, _ => false
  | d + 1, c =>
    decide (c < count) && decide ((dirSlots L (dir c)).length < 64) &&
      (dirSlots L (dir c)).all
        (fun e => decide (e.Type_ ≠ EntryType.Folder) || treeWithin L dir count d e.Cluster)

/-- The cache invariant: `CacheTable` holds the table-decrypt of the raw
cluster numbered `CacheTableNum` of the stream. -/
def CacheCoherent (fs : VirtualFileSystem) : Prop :=
  fs.CacheTable = DecryptTable fs.CacheTableNum (rawCluster fs.FileStream.data fs.CacheTableNum)

/-- The cache serves the clusters of the first table: when the cached table
index is 0, the cached table is the decrypted table cluster 0 of the stream. -/
def FirstTableCoherent (fs : VirtualFileSystem) : Prop :=
  fs.CacheTableNum = 0 → fs.CacheTable = refTable fs.FileStream.data 0

/-! ## Sample data -/

/-- The cluster of 128 zero words. -/
def zeroCluster : List Nat := List.replicate (ClusterSize / 4) 0

/-- A record layout for the examples: table records of two words (checksum,
flags) and directory records of sixteen words (flags, 32 name bytes, a word
whose third byte is the type tag, `0x10` for a folder and `0x80` for a file,
then cluster, size and the two timestamp words). -/
def sampleLayout : Layout where
  Checksum := fun u32 i => u32.getD (2 * i) 0
  FATEntries := fun u32 i =>
    { Flags := u32.getD (16 * i) 0
      Name := (((wordsToBytes ((u32.drop (16 * i + 1)).take 8)).takeWhile
        (fun b => b ≠ 0)).map Char.ofNat)
      Type_ :=
        if u32.getD (16 * i + 9) 0 / 65536 % 256 = 0x10 then EntryType.Folder
        else if u32.getD (16 * i + 9) 0 / 65536 % 256 = 0x80 then EntryType.File
        else EntryType.Other (u32.getD (16 * i + 9) 0 / 65536 % 256)
      Cluster := u32.getD (16 * i + 10) 0
      Size := u32.getD (16 * i + 11) 0
      TimeStamp := u32.getD (16 * i + 12) 0 + 2 ^ 32 * u32.getD (16 * i + 13) 0 }

/-- A directory record of `sampleLayout` with a one-letter name. -/
def sampleRecord (name tag cluster size : Nat) : List Nat :=
  [1, name, 0, 0, 0, 0, 0, 0, 0, tag * 65536, cluster, size, 0, 0, 0, 0]

/-- The payload of the sample file: word `i` is `i`. -/
def sampleData : List Nat := List.range 128

/-- The sample root directory: file `a` in cluster 1 and folder `d` in
cluster 3. -/
def sampleRoot : List Nat :=
  sampleRecord 97 0x80 1 512 ++ sampleRecord 100 0x10 3 0 ++ List.replicate 96 0

/-- The sample folder `d`: file `b` in cluster 1. -/
def sampleSub : List Nat :=
  sampleRecord 98 0x80 1 512 ++ List.replicate 112 0

/-- The words 1 to 127 of the sample table cluster: the checksums of clusters
1, 2 and 3 in slots 1, 2 and 3. -/
def sampleTableBody : List Nat :=
  [0, Checksum sampleData false, 0, Checksum sampleRoot false, 0, Checksum sampleSub false, 0]
    ++ List.replicate 120 0

/-- The sample table cluster; word 0 is its own checksum. -/
def sampleTable : List Nat :=
  Checksum (0 :: sampleTableBody) true :: sampleTableBody

/-- A container of four clusters: the table, the payload, the root directory
and the folder `d`, each encrypted. -/
def sampleFile : List Nat :=
  wordsToBytes (encryptTable 0 sampleTable)
    ++ wordsToBytes (encryptData (Checksum sampleData false) sampleData)
    ++ wordsToBytes (encryptData (Checksum sampleRoot false) sampleRoot)
    ++ wordsToBytes (encryptData (Checksum sampleSub false) sampleSub)

/-- An engine as constructed: no file open and both clusters zero.  The
constructor leaves `ClusterCount` and `CacheTableNum` uninitialised; here they
hold 0 and 1. -/
def sampleEngine : VirtualFileSystem where
  FileStream := ⟨false, false, []⟩
  ClusterCount := 0
  CacheTableNum := 1
  CacheTable := zeroCluster
  CacheBuffer := zeroCluster

/-- The engine after `Mount` of the sample container. -/
def mountedEngine : VirtualFileSystem where
  FileStream := ⟨true, false, sampleFile⟩
  ClusterCount := 4
  CacheTableNum := 0
  CacheTable := sampleTable
  CacheBuffer := sampleSub

/-- The sample container with its table cluster overwritten by zero bytes. -/
def staleFile : List Nat := List.replicate 512 0 ++ sampleFile.drop 512

/-- A file of one cluster of zero bytes. -/
def zeroFile : List Nat := List.replicate 512 0

/-- The first record of the sample root directory: file `a`, cluster 1, 512
bytes. -/
def sampleEntry : FATEntry := ⟨1, ['a'], EntryType.File, 1, 512, 0⟩

/-- A file entry of 1024 bytes starting at the table cluster 0 of the sample
container. -/
def wideEntry : FATEntry := ⟨1, ['w'], EntryType.File, 0, 1024, 0⟩

/-- A file entry of 1024 bytes starting at the last cluster of the sample
container. -/
def lastEntry : FATEntry := ⟨1, ['z'], EntryType.File, 3, 1024, 0⟩

/-- A file of two clusters of zero bytes. -/
def zeroFile2 : List Nat := List.replicate 1024 0

/-- An entry stamped 1 January 1601, the Windows epoch. -/
def epochEntry : FATEntry := ⟨1, ['e'], EntryType.File, 1, 0, 0⟩

/-- The words 1 to 127 of the table cluster of the short container: the
checksum of cluster 1 in slot 1. -/
def shortTableBody : List Nat :=
  [0, Checksum sampleRoot false] ++ List.replicate 125 0

/-- The table cluster of the short container; word 0 is its own checksum. -/
def shortTable : List Nat :=
  Checksum (0 :: shortTableBody) true :: shortTableBody

/-- A container of two clusters: the table and, as cluster 1, a cluster with
the content of the sample root directory.  It has no cluster 2. -/
def shortFile : List Nat :=
  wordsToBytes (encryptTable 0 shortTable)
    ++ wordsToBytes (encryptData (Checksum sampleRoot false) sampleRoot)

/-- The engine after `Mount` of the short container. -/
def shortEngine : VirtualFileSystem where
  FileStream := ⟨true, false, shortFile⟩
  ClusterCount := 2
  CacheTableNum := 0
  CacheTable := shortTable
  CacheBuffer := sampleRoot

/-- The first three clusters of the sample container: the folder `d` of its
root directory points to cluster 3, which the file does not have. -/
def truncFile : List Nat := sampleFile.take 1536

/-- The engine after `Mount` of the truncated sample container. -/
def truncEngine : VirtualFileSystem where
  FileStream := ⟨true, false, truncFile⟩
  ClusterCount := 3
  CacheTableNum := 0
  CacheTable := sampleTable
  CacheBuffer := sampleRoot

/-- A file of 513 clusters: zero bytes, except that the first byte of cluster
512 is 1. -/
def bigFile : List Nat := List.replicate (512 * 512) 0 ++ (1 :: List.replicate 511 0)

/-- An engine on the file of 513 clusters whose cache holds the table cluster
512, the last table cluster, as after the verification scan of `Mount`. -/
def bigEngine : VirtualFileSystem where
  FileStream := ⟨true, false, bigFile⟩
  ClusterCount := 513
  CacheTableNum := 512
  CacheTable := DecryptTable 512 (rawCluster bigFile 512)
  CacheBuffer := zeroCluster

/-- A record layout with 64 directory records in a cluster, the slot count of
a 512-byte cluster: table records of two words (checksum, flags) and
directory records of two words (flags; a word holding a name letter in its
first byte, the type tag in its second and the cluster index above). -/
def denseLayout : Layout where
  Checksum := fun u32 i => u32.getD (2 * i) 0
  FATEntries := fun u32 i =>
    { Flags := u32.getD (2 * i) 0
      Name :=
        if u32.getD (2 * i + 1) 0 % 256 = 0 then []
        else [Char.ofNat (u32.getD (2 * i + 1) 0 % 256)]
      Type_ :=
        if u32.getD (2 * i + 1) 0 / 256 % 256 = 0x10 then EntryType.Folder
        else if u32.getD (2 * i + 1) 0 / 256 % 256 = 0x80 then EntryType.File
        else EntryType.Other (u32.getD (2 * i + 1) 0 / 256 % 256)
      Cluster := u32.getD (2 * i + 1) 0 / 65536
      Size := 0
      TimeStamp := 0 }

/-- A directory cluster of `denseLayout` with all 64 slots populated: each
holds a file named `a`. -/
def fullRoot : List Nat := (List.replicate 64 [1, 0x8061]).flatten

/-- The words 1 to 127 of the table cluster of the full-directory container. -/
def fullTableBody : List Nat :=
  [0, Checksum sampleData false, 0, Checksum fullRoot false] ++ List.replicate 123 0

/-- The table cluster of the full-directory container; word 0 is its own
checksum. -/
def fullTable : List Nat :=
  Checksum (0 :: fullTableBody) true :: fullTableBody

/-- A container of three clusters whose root directory has no zero-flags
slot. -/
def fullFile : List Nat :=
  wordsToBytes (encryptTable 0 fullTable)
    ++ wordsToBytes (encryptData (Checksum sampleData false) sampleData)
    ++ wordsToBytes (encryptData (Checksum fullRoot false) fullRoot)

/-- The engine after `Mount` of the full-directory container. -/
def fullEngine : VirtualFileSystem where
  FileStream := ⟨true, false, fullFile⟩
  ClusterCount := 3
  CacheTableNum := 0
  CacheTable := fullTable
  CacheBuffer := fullRoot

/-- An engine that mounted nothing yet, whose cached table index happens to
be 0 and whose cached table is all zero; the constructor leaves the index
unassigned, so 0 is one of its possible values. -/
def zeroNumEngine : VirtualFileSystem where
  FileStream := ⟨false, false, []⟩
  ClusterCount := 0
  CacheTableNum := 0
  CacheTable := zeroCluster
  CacheBuffer := zeroCluster

/-- A record layout whose table view has a record for each of the 512 indices
of a table: records of two words (checksum, flags), the record of index `i`
at words `2 (i mod 64)`, so that indices which differ by 64 share a record.
The directory view is that of `sampleLayout`. -/
def wrapLayout : Layout where
  Checksum := fun u32 i => u32.getD (2 * (i % 64)) 0
  FATEntries := sampleLayout.FATEntries

/-- The file made of the clusters `f 0`, ..., `f (n - 1)`, each given by its
bytes. -/
def clusterFile (f : Nat → List Nat) : Nat → List Nat
  | 0 => []
  | n + 1 => clusterFile f n ++ f n

/-- A root directory whose one entry is the folder `d` in cluster 513. -/
def deepRoot : List Nat :=
  sampleRecord 100 0x10 513 0 ++ List.replicate 112 0

/-- An empty directory: slot 0 has zero flags; the rest of the slot still
holds the record of a removed folder `g` with cluster index 513. -/
def deepSub : List Nat :=
  [0, 103, 0, 0, 0, 0, 0, 0, 0, 0x10 * 65536, 513, 0, 0, 0, 0, 0] ++ List.replicate 112 0

/-- The words 1 to 127 of table cluster 0 of the deep container: every record
from 1 to 63 holds the checksum of `deepRoot`. -/
def deepTableBody : List Nat :=
  0 :: (List.replicate 63 [Checksum deepRoot false, 0]).flatten

/-- Table cluster 0 of the deep container; word 0 is its own checksum. -/
def deepTable : List Nat :=
  Checksum (0 :: deepTableBody) true :: deepTableBody

/-- The data cluster stored at the indices 64, 128, ..., 448, whose record is
record 0 of the table: its `Checksum(false)` is the table's own checksum. -/
def deepPad : List Nat := 0 :: deepTableBody

/-- The words 1 to 127 of table cluster 512 of the deep container: record 1
holds the checksum of `deepSub`. -/
def deepTable2Body : List Nat :=
  [0, Checksum deepSub false] ++ List.replicate 125 0

/-- Table cluster 512 of the deep container. -/
def deepTable2 : List Nat :=
  Checksum (0 :: deepTable2Body) true :: deepTable2Body

/-- The bytes of cluster `i` of the deep container: the two tables at 0 and
512, the empty directory at 513, `deepPad` at the other multiples of 64 and a
copy of the root directory everywhere else, so also at index 2. -/
def deepCluster (i : Nat) : List Nat :=
  if i = 0 then wordsToBytes (encryptTable 0 deepTable)
  else if i = 512 then wordsToBytes (encryptTable 512 deepTable2)
  else if i = 513 then wordsToBytes (encryptData (Checksum deepSub false) deepSub)
  else if i % 64 = 0 then wordsToBytes (encryptData (Checksum deepPad false) deepPad)
  else wordsToBytes (encryptData (Checksum deepRoot false) deepRoot)

/-- A container of 514 clusters: the root directory holds the folder `d` in
cluster 513, an empty directory, which belongs to the second table. -/
def deepFile : List Nat := clusterFile deepCluster 514

/-! # Theorems -/

/-! ## The decryption table -/

theorem getD_flatten_rows (rows : List (List Nat)) (h : ∀ r ∈ rows, r.length = 8) :
    ∀ i, rows.flatten.getD i 0 = (rows.getD (i / 8) []).getD (i % 8) 0 := by
  induction rows with
  | nil => intro i; simp
  | cons r rs ih =>
    intro i
    have hr : r.length = 8 := h r (List.mem_cons_self _ _)
    have hrs : ∀ q ∈ rs, q.length = 8 := fun q hq => h q (List.mem_cons_of_mem _ hq)
    rw [List.flatten_cons]
    by_cases hi : i < 8
    · have e1 : i / 8 = 0 := by omega
      have e2 : i % 8 = i := by omega
      rw [List.getD_append _ _ _ _ (by omega), e1, e2]
      rfl
    · have e1 : i / 8 = (i - 8) / 8 + 1 := by omega
      have e2 : i % 8 = (i - 8) % 8 := by omega
      rw [List.getD_append_right _ _ _ _ (by omega), hr, ih hrs (i - 8), e1, e2]
      rfl

/-- The row form of the table reads as the flat array of 1024 words. -/
theorem keyAt_eq_flat (i : Nat) : keyAt i = DecryptionKey.flatten.getD i 0 :=
  (getD_flatten_rows DecryptionKey (by decide!) i).symm

theorem DecryptionKey_length : DecryptionKey.flatten.length = 1024 := by
  decide!

/-! ## Word arithmetic -/

theorem dataSum_lt (k : Nat) : dataSum k < 2 ^ 32 :=
  Nat.mod_lt _ (by norm_num)

theorem tableSum_lt (s : Nat) : tableSum s < 2 ^ 32 :=
  Nat.mod_lt _ (by norm_num)

theorem swap16_eq (X : Nat) (h : X < 2 ^ 32) :
    swap16 X = 2 ^ 16 * (X % 2 ^ 16) + X / 2 ^ 16 := by
  unfold swap16
  have h1 : (X <<< 16) % 2 ^ 32 = 2 ^ 16 * (X % 2 ^ 16) := by
    rw [Nat.shiftLeft_eq]; omega
  have h2 : X >>> 16 = X / 2 ^ 16 := Nat.shiftRight_eq_div_pow X 16
  have h3 : X / 2 ^ 16 < 2 ^ 16 := by omega
  rw [h1, h2, ← Nat.mul_add_lt_is_or h3]

theorem swap16_lt (X : Nat) (h : X < 2 ^ 32) : swap16 X < 2 ^ 32 := by
  rw [swap16_eq X h]; omega

theorem swap16_swap16 (X : Nat) (h : X < 2 ^ 32) : swap16 (swap16 X) = X := by
  rw [swap16_eq _ (swap16_lt X h), swap16_eq X h]; omega

theorem xor_cancel_mid (s a t : Nat) : s ^^^ (a ^^^ s ^^^ t) ^^^ t = a := by
  rw [Nat.xor_assoc a s t, Nat.xor_comm a (s ^^^ t), ← Nat.xor_assoc s (s ^^^ t) a,
    ← Nat.xor_assoc s s t, Nat.xor_self, Nat.zero_xor, Nat.xor_assoc, Nat.xor_comm a t,
    ← Nat.xor_assoc, Nat.xor_self, Nat.zero_xor]

theorem decryptDataLoop_encryptData (P : List Nat) :
    ∀ k, k < 2 ^ 32 → (∀ w ∈ P, w < 2 ^ 32) → decryptDataLoop k (encryptData k P) = P := by
  induction P with
  | nil => intro k _ _; rfl
  | cons p rest ih =>
    intro k hk hP
    have hp : p < 2 ^ 32 := hP p (List.mem_cons_self _ _)
    have hg : k ^^^ dataSum k < 2 ^ 32 := Nat.xor_lt_two_pow hk (dataSum_lt k)
    simp only [encryptData, decryptDataLoop]
    rw [ih _ (Nat.mod_lt _ (by norm_num)) (fun w hw => hP w (List.mem_cons_of_mem _ hw))]
    congr 1
    omega

theorem encryptData_decryptDataLoop (C : List Nat) :
    ∀ k, k < 2 ^ 32 → (∀ w ∈ C, w < 2 ^ 32) → encryptData k (decryptDataLoop k C) = C := by
  induction C with
  | nil => intro k _ _; rfl
  | cons c rest ih =>
    intro k hk hC
    have hc : c < 2 ^ 32 := hC c (List.mem_cons_self _ _)
    have hg : k ^^^ dataSum k < 2 ^ 32 := Nat.xor_lt_two_pow hk (dataSum_lt k)
    have e : ((c + 2 ^ 32 - (k ^^^ dataSum k)) % 2 ^ 32 + (k ^^^ dataSum k)) % 2 ^ 32 = c := by
      omega
    simp only [encryptData, decryptDataLoop, e]
    rw [ih _ hc (fun w hw => hC w (List.mem_cons_of_mem _ hw))]

theorem decryptDataLoop_length (C : List Nat) : ∀ k, (decryptDataLoop k C).length = C.length := by
  induction C with
  | nil => intro k; rfl
  | cons c rest ih => intro k; simp [decryptDataLoop, ih]

theorem decryptDataLoop_lt (C : List Nat) : ∀ k, ∀ w ∈ decryptDataLoop k C, w < 2 ^ 32 := by
  induction C with
  | nil => intro k w hw; simp [decryptDataLoop] at hw
  | cons c rest ih =>
    intro k w hw
    simp only [decryptDataLoop, List.mem_cons] at hw
    rcases hw with rfl | hw
    · exact Nat.mod_lt _ (by norm_num)
    · exact ih _ w hw

theorem encryptData_length (P : List Nat) : ∀ k, (encryptData k P).length = P.length := by
  induction P with
  | nil => intro k; rfl
  | cons p rest ih => intro k; simp [encryptData, ih]

theorem encryptData_lt (P : List Nat) : ∀ k, ∀ w ∈ encryptData k P, w < 2 ^ 32 := by
  induction P with
  | nil => intro k w hw; simp [encryptData] at hw
  | cons p rest ih =>
    intro k w hw
    simp only [encryptData, List.mem_cons] at hw
    rcases hw with rfl | hw
    · exact Nat.mod_lt _ (by norm_num)
    · exact ih _ w hw

theorem DecryptData_isCluster (Key : Nat) (C : List Nat) (h : IsCluster C) :
    IsCluster (DecryptData Key C) :=
  ⟨by rw [DecryptData, decryptDataLoop_length]; exact h.1, decryptDataLoop_lt C Key⟩

theorem encryptData_isCluster (Key : Nat) (P : List Nat) (h : IsCluster P) :
    IsCluster (encryptData Key P) :=
  ⟨by rw [encryptData_length]; exact h.1, encryptData_lt P Key⟩

theorem decryptTableLoop_encryptTableLoop (P : List Nat) :
    ∀ s, (∀ w ∈ P, w < 2 ^ 32) → decryptTableLoop s (encryptTableLoop s P) = P := by
  induction P with
  | nil => intro s _; rfl
  | cons p rest ih =>
    intro s hP
    have hp : p < 2 ^ 32 := hP p (List.mem_cons_self _ _)
    simp only [encryptTableLoop, decryptTableLoop]
    rw [ih _ (fun w hw => hP w (List.mem_cons_of_mem _ hw)), xor_cancel_mid,
      swap16_swap16 p hp]

theorem xor_cancel_out (s c t : Nat) : s ^^^ c ^^^ t ^^^ s ^^^ t = c := by
  rw [Nat.xor_comm s c, Nat.xor_assoc c s t, Nat.xor_assoc c (s ^^^ t) s,
    Nat.xor_assoc c _ t, Nat.xor_assoc (s ^^^ t) s t, Nat.xor_self, Nat.xor_zero]

theorem encryptTableLoop_decryptTableLoop (C : List Nat) :
    ∀ s, s < 2 ^ 32 → (∀ w ∈ C, w < 2 ^ 32) →
      encryptTableLoop s (decryptTableLoop s C) = C := by
  induction C with
  | nil => intro s _ _; rfl
  | cons c rest ih =>
    intro s hs hC
    have hc : c < 2 ^ 32 := hC c (List.mem_cons_self _ _)
    have hX : s ^^^ c ^^^ tableSum s < 2 ^ 32 :=
      Nat.xor_lt_two_pow (Nat.xor_lt_two_pow hs hc) (tableSum_lt s)
    have e : swap16 (swap16 (s ^^^ c ^^^ tableSum s)) ^^^ s ^^^ tableSum s = c := by
      rw [swap16_swap16 _ hX, xor_cancel_out]
    simp only [encryptTableLoop, decryptTableLoop, e]
    rw [ih _ hc (fun w hw => hC w (List.mem_cons_of_mem _ hw))]

theorem decryptTableLoop_length (C : List Nat) :
    ∀ s, (decryptTableLoop s C).length = C.length := by
  induction C with
  | nil => intro s; rfl
  | cons c rest ih => intro s; simp [decryptTableLoop, ih]

theorem decryptTableLoop_lt (C : List Nat) :
    ∀ s, s < 2 ^ 32 → (∀ w ∈ C, w < 2 ^ 32) → ∀ w ∈ decryptTableLoop s C, w < 2 ^ 32 := by
  induction C with
  | nil => intro s _ _ w hw; simp [decryptTableLoop] at hw
  | cons c rest ih =>
    intro s hs hC w hw
    have hc : c < 2 ^ 32 := hC c (List.mem_cons_self _ _)
    simp only [decryptTableLoop, List.mem_cons] at hw
    rcases hw with rfl | hw
    · exact swap16_lt _ (Nat.xor_lt_two_pow (Nat.xor_lt_two_pow hs hc) (tableSum_lt s))
    · exact ih _ hc (fun w hw => hC w (List.mem_cons_of_mem _ hw)) w hw

theorem encryptTableLoop_length (P : List Nat) :
    ∀ s, (encryptTableLoop s P).length = P.length := by
  induction P with
  | nil => intro s; rfl
  | cons p rest ih => intro s; simp [encryptTableLoop, ih]

theorem encryptTableLoop_lt (P : List Nat) :
    ∀ s, s < 2 ^ 32 → (∀ w ∈ P, w < 2 ^ 32) → ∀ w ∈ encryptTableLoop s P, w < 2 ^ 32 := by
  induction P with
  | nil => intro s _ _ w hw; simp [encryptTableLoop] at hw
  | cons p rest ih =>
    intro s hs hP w hw
    have hp : p < 2 ^ 32 := hP p (List.mem_cons_self _ _)
    have hc : swap16 p ^^^ s ^^^ tableSum s < 2 ^ 32 :=
      Nat.xor_lt_two_pow (Nat.xor_lt_two_pow (swap16_lt p hp) hs) (tableSum_lt s)
    simp only [encryptTableLoop, List.mem_cons] at hw
    rcases hw with rfl | hw
    · exact hc
    · exact ih _ hc (fun w hw => hP w (List.mem_cons_of_mem _ hw)) w hw

theorem tableSeed_lt (n : Nat) : (n % 2 ^ 32) &&& 0xFFFFFE00 < 2 ^ 32 :=
  Nat.and_lt_two_pow _ (by norm_num)

theorem DecryptTable_isCluster (n : Nat) (C : List Nat) (h : IsCluster C) :
    IsCluster (DecryptTable n C) :=
  ⟨by rw [DecryptTable, decryptTableLoop_length]; exact h.1,
    decryptTableLoop_lt C _ (tableSeed_lt n) h.2⟩

theorem encryptTable_isCluster (n : Nat) (P : List Nat) (h : IsCluster P) :
    IsCluster (encryptTable n P) :=
  ⟨by rw [encryptTable, encryptTableLoop_length]; exact h.1,
    encryptTableLoop_lt P _ (tableSeed_lt n) h.2⟩

/-! ## The ciphers are invertible (C2, C3) -/

/-- C2: for every 32-bit key and every cluster `P` of 128 words, `DecryptData key`
applied to `encryptData key P` returns `P`, and `DecryptData key` is a
bijection on the clusters. -/
theorem DecryptData_encryptData (Key : Nat) (P : List Nat) (hKey : Key < 2 ^ 32)
    (hP : IsCluster P) :
    DecryptData Key (encryptData Key P) = P ∧
      Set.BijOn (DecryptData Key) {C | IsCluster C} {C | IsCluster C} := by
  refine ⟨decryptDataLoop_encryptData P Key hKey hP.2, ?_, ?_, ?_⟩
  · intro C hC
    exact DecryptData_isCluster Key C hC
  · intro C hC D hD hCD
    have h1 := encryptData_decryptDataLoop C Key hKey hC.2
    have h2 := encryptData_decryptDataLoop D Key hKey hD.2
    simp only [DecryptData] at hCD
    rw [← h1, ← h2, hCD]
  · intro Q hQ
    exact ⟨encryptData Key Q, encryptData_isCluster Key Q hQ,
      decryptDataLoop_encryptData Q Key hKey hQ.2⟩

theorem zeroCluster_isCluster : IsCluster zeroCluster := by
  refine ⟨by simp [zeroCluster], ?_⟩
  intro w hw
  rw [zeroCluster, List.mem_replicate] at hw
  rw [hw.2]; norm_num

theorem DecryptData_encryptData_witness :
    DecryptData 1 (encryptData 1 zeroCluster) = zeroCluster ∧
      Set.BijOn (DecryptData 1) {C | IsCluster C} {C | IsCluster C} :=
  DecryptData_encryptData 1 zeroCluster (by norm_num) zeroCluster_isCluster

/-- C3: for every cluster index `n` and every cluster `P` of 128 words,
`DecryptTable n` applied to `encryptTable n P` returns `P`, and `DecryptTable n`
is a bijection on the clusters. -/
theorem DecryptTable_encryptTable (n : Nat) (P : List Nat) (hP : IsCluster P) :
    DecryptTable n (encryptTable n P) = P ∧
      Set.BijOn (DecryptTable n) {C | IsCluster C} {C | IsCluster C} := by
  refine ⟨decryptTableLoop_encryptTableLoop P _ hP.2, ?_, ?_, ?_⟩
  · intro C hC
    exact DecryptTable_isCluster n C hC
  · intro C hC D hD hCD
    have h1 := encryptTableLoop_decryptTableLoop C _ (tableSeed_lt n) hC.2
    have h2 := encryptTableLoop_decryptTableLoop D _ (tableSeed_lt n) hD.2
    simp only [DecryptTable] at hCD
    rw [← h1, ← h2, hCD]
  · intro Q hQ
    exact ⟨encryptTable n Q, encryptTable_isCluster n Q hQ,
      decryptTableLoop_encryptTableLoop Q _ hQ.2⟩

theorem DecryptTable_encryptTable_witness :
    DecryptTable 512 (encryptTable 512 zeroCluster) = zeroCluster ∧
      Set.BijOn (DecryptTable 512) {C | IsCluster C} {C | IsCluster C} :=
  DecryptTable_encryptTable 512 zeroCluster zeroCluster_isCluster

theorem and_0x1FF (n : Nat) : n &&& 0x1FF = n % 512 := by
  have h := Nat.and_pow_two_sub_one_eq_mod n 9
  norm_num at h
  exact h

theorem and_not_0x1FF (n : Nat) (h : n < 2 ^ 64) :
    n &&& 0xFFFFFFFFFFFFFE00 = n - n % 512 := by
  have e1 : (0xFFFFFFFFFFFFFE00 : Nat) = 2 ^ 9 * (2 ^ 55 - 1) := by norm_num
  have e2 : n - n % 512 = 2 ^ 9 * (n >>> 9) := by
    rw [Nat.shiftRight_eq_div_pow]; omega
  rw [e1, e2]
  apply Nat.eq_of_testBit_eq
  intro j
  rw [Nat.testBit_and, Nat.testBit_mul_pow_two, Nat.testBit_mul_pow_two,
    Nat.testBit_two_pow_sub_one, Nat.testBit_shiftRight]
  by_cases hj : j ≥ 9
  · have e3 : 9 + (j - 9) = j := by omega
    by_cases hk : j - 9 < 55
    · simp [hj, hk, e3]
    · have hlt : n < 2 ^ j :=
        lt_of_lt_of_le h (Nat.pow_le_pow_right (by norm_num) (by omega))
      simp [hj, hk, e3, Nat.testBit_lt_two_pow hlt]
  · simp [hj]


/-! ## Reading clusters of a mounted engine -/

theorem readCluster_full (s : IfStream) (n : Nat) (old : List Nat) (ho : s.isOpen = true)
    (hf : s.failbit = false) (hlen : (n + 1) * ClusterSize ≤ s.data.length)
    (hlt : s.data.length < 2 ^ 64) :
    s.readCluster (n * ClusterSize % 2 ^ 64) old = (s, rawCluster s.data n) := by
  have hmod : n * ClusterSize % 2 ^ 64 = n * ClusterSize := by
    apply Nat.mod_eq_of_lt
    have : n * ClusterSize ≤ (n + 1) * ClusterSize := by
      simp only [ClusterSize]; omega
    omega
  have hl : ((s.data.drop (n * ClusterSize)).take ClusterSize).length = ClusterSize := by
    rw [List.length_take, List.length_drop]
    simp only [ClusterSize] at hlen ⊢
    omega
  simp only [IfStream.readCluster, ho, hf, hmod, hl, rawCluster]
  simp

theorem GetCluster_mounted (L : Layout) (fs : VirtualFileSystem) (n : Nat) (buf : List Nat)
    (hm : Mounted fs) (hn : n < fs.ClusterCount) :
    GetCluster L fs n buf =
      if n % 512 ≠ 0 then
        if fs.CacheTableNum = n - n % 512 then
          (true, fs,
            DecryptData (L.Checksum fs.CacheTable (n % 512)) (rawCluster fs.FileStream.data n))
        else
          (true, { fs with CacheTable := refTable fs.FileStream.data (n - n % 512) },
            DecryptData (L.Checksum (refTable fs.FileStream.data (n - n % 512)) (n % 512))
              (rawCluster fs.FileStream.data n))
      else
        if n = fs.CacheTableNum then (true, fs, fs.CacheTable)
        else
          (true,
            { fs with CacheTable := refTable fs.FileStream.data n, CacheTableNum := n },
            refTable fs.FileStream.data n) := by
  obtain ⟨ho, hf, hlen, hlt⟩ := hm
  have hn64 : n < 2 ^ 64 := by
    simp only [ClusterSize] at hlt; omega
  have hdl : fs.FileStream.data.length < 2 ^ 64 := by rw [hlen]; exact hlt
  have hrn : ∀ old, fs.FileStream.readCluster (n * ClusterSize % 2 ^ 64) old
      = (fs.FileStream, rawCluster fs.FileStream.data n) := by
    intro old
    apply readCluster_full _ _ _ ho hf _ hdl
    rw [hlen]; simp only [ClusterSize]; omega
  have hrt : ∀ old, fs.FileStream.readCluster ((n - n % 512) * ClusterSize % 2 ^ 64) old
      = (fs.FileStream, rawCluster fs.FileStream.data (n - n % 512)) := by
    intro old
    apply readCluster_full _ _ _ ho hf _ hdl
    rw [hlen]; simp only [ClusterSize]; omega
  have hsub : n - (n - n % 512) = n % 512 := by omega
  simp only [GetCluster, hn, if_true, and_0x1FF, and_not_0x1FF n hn64, hrn, hrt, hsub, refTable]


theorem GetClusterBuf_data_hit (L : Layout) (fs : VirtualFileSystem) (n : Nat)
    (hm : Mounted fs) (hn : n < fs.ClusterCount) (hd : n % 512 ≠ 0)
    (hc : fs.CacheTableNum = n - n % 512) :
    GetClusterBuf L fs n =
      (true,
        { fs with
          CacheBuffer :=
            DecryptData (L.Checksum fs.CacheTable (n % 512))
              (rawCluster fs.FileStream.data n) }) := by
  simp only [GetClusterBuf, GetCluster_mounted L fs n _ hm hn, hd, hc, ne_eq, not_false_eq_true,
    if_true]

theorem GetClusterBuf_table_miss (L : Layout) (fs : VirtualFileSystem) (n : Nat)
    (hm : Mounted fs) (hn : n < fs.ClusterCount) (hd : n % 512 = 0)
    (hc : n ≠ fs.CacheTableNum) :
    GetClusterBuf L fs n =
      (true,
        { fs with
          CacheTable := refTable fs.FileStream.data n
          CacheTableNum := n
          CacheBuffer := refTable fs.FileStream.data n }) := by
  simp only [GetClusterBuf, GetCluster_mounted L fs n _ hm hn, hd, hc, ne_eq, not_true_eq_false,
    if_false]

theorem mountLoop_true_iff (L : Layout) (n : Nat) :
    ∀ (i : Nat) (fs : VirtualFileSystem), Mounted fs → i + n = fs.ClusterCount →
      (∀ t, i ≤ t → t < fs.ClusterCount → t % 512 = 0 → fs.CacheTableNum ≠ t) →
      (i % 512 ≠ 0 → fs.CacheTableNum = i - i % 512 ∧
        fs.CacheTable = refTable fs.FileStream.data (i - i % 512)) →
      ((mountLoop L n i fs).1 = true ↔
        ∀ j, i ≤ j → j < i + n → ClusterVerified L fs.FileStream.data j) := by
  induction n with
  | zero =>
    intro i fs _ _ _ _
    simp only [mountLoop, true_iff]
    intro j h1 h2
    omega
  | succ n ih =>
    intro i fs hm hcnt hfut hcur
    have hi : i < fs.ClusterCount := by omega
    have hsplit : (∀ j, i ≤ j → j < i + (n + 1) → ClusterVerified L fs.FileStream.data j) ↔
        (ClusterVerified L fs.FileStream.data i ∧
          ∀ j, i + 1 ≤ j → j < i + 1 + n → ClusterVerified L fs.FileStream.data j) := by
      constructor
      · intro h
        exact ⟨h i (le_refl _) (by omega), fun j h1 h2 => h j (by omega) (by omega)⟩
      · intro h j h1 h2
        rcases Nat.eq_or_lt_of_le h1 with rfl | h3
        · exact h.1
        · exact h.2 j h3 (by omega)
    rw [hsplit]
    by_cases hd : i % 512 = 0
    · -- table cluster: the cache misses and is refilled
      have hne : i ≠ fs.CacheTableNum := fun h => hfut i (le_refl _) hi hd h.symm
      have hv : ClusterVerified L fs.FileStream.data i ↔
          L.Checksum (refTable fs.FileStream.data i) 0
            = Checksum (refTable fs.FileStream.data i) true := by
        simp only [ClusterVerified, hd, ne_eq, not_true_eq_false, false_implies, true_and,
          true_implies]
      have hm1 : Mounted
          { fs with
            CacheTable := refTable fs.FileStream.data i
            CacheTableNum := i
            CacheBuffer := refTable fs.FileStream.data i } := hm
      have hnext := ih (i + 1) _ hm1 (by simpa using (by omega : i + 1 + n = fs.ClusterCount))
        (by intro t h1 _ _; simp only; omega)
        (by
          intro _
          have : i + 1 - (i + 1) % 512 = i := by omega
          simp only [this, and_self])
      simp only [mountLoop, GetClusterBuf_table_miss L fs i hm hi hd hne, and_0x1FF, hd, ne_eq,
        not_true_eq_false, if_false]
      rw [hv]
      by_cases hck : L.Checksum (refTable fs.FileStream.data i) 0
          = Checksum (refTable fs.FileStream.data i) true
      · simp only [hck, not_true_eq_false, if_false, true_and]
        exact hnext
      · simp only [hck, not_false_eq_true, if_true, false_and]
        simp
    · -- data cluster: the cache holds its table
      obtain ⟨hc1, hc2⟩ := hcur hd
      have hv : ClusterVerified L fs.FileStream.data i ↔
          Checksum (DecryptData (L.Checksum (refTable fs.FileStream.data (i - i % 512)) (i % 512))
            (rawCluster fs.FileStream.data i)) false
            = L.Checksum (refTable fs.FileStream.data (i - i % 512)) (i % 512) := by
        simp only [ClusterVerified, hd, ne_eq, not_false_eq_true, true_implies, false_implies,
          and_true]
      have hm1 : Mounted
          { fs with
            CacheBuffer :=
              DecryptData (L.Checksum fs.CacheTable (i % 512))
                (rawCluster fs.FileStream.data i) } := hm
      have hnext := ih (i + 1) _ hm1 (by simpa using (by omega : i + 1 + n = fs.ClusterCount))
        (by intro t h1 _ _; simp only; omega)
        (by
          intro h
          have : i + 1 - (i + 1) % 512 = i - i % 512 := by omega
          simp only [this]
          exact ⟨hc1, hc2⟩)
      simp only [mountLoop, GetClusterBuf_data_hit L fs i hm hi hd hc1, and_0x1FF, hd, ne_eq,
        not_false_eq_true, if_true]
      rw [hv, ← hc2]
      by_cases hck : Checksum (DecryptData (L.Checksum fs.CacheTable (i % 512))
              (rawCluster fs.FileStream.data i)) false = L.Checksum fs.CacheTable (i % 512)
      · rw [if_neg (fun h => h hck.symm)]
        simp only [hck, true_and]
        exact hnext
      · rw [if_pos (fun h => hck h.symm)]
        simp [hck]


theorem mountStream_of_opens (fs : VirtualFileSystem) (bytes : List Nat)
    (h : Opens fs (some bytes)) :
    mountStream fs.FileStream (some bytes) = ⟨true, false, bytes⟩ := by
  unfold Opens at h
  revert h
  rcases fs.FileStream with ⟨o, f, d⟩
  cases o <;> cases f <;>
    simp [mountStream, IfStream.good, IfStream.closeFile, IfStream.openFile]

theorem Mount_true_iff_verified (L : Layout) (fs : VirtualFileSystem) (bytes : List Nat)
    (hsize : bytes.length < 2 ^ 64) (hopen : Opens fs (some bytes))
    (hcache : ∀ t, t < bytes.length / 512 → t % 512 = 0 → fs.CacheTableNum ≠ t) :
    (Mount L fs (some bytes)).1 = true ↔
      bytes.length % 512 = 0 ∧ ∀ i, i < bytes.length / 512 → ClusterVerified L bytes i := by
  have hs := mountStream_of_opens fs bytes hopen
  simp only [Mount, hs, IfStream.good, and_0x1FF, Bool.not_false, if_true]
  by_cases hal : bytes.length % 512 = 0
  · have hm : Mounted
        { fs with
          FileStream := ⟨true, false, bytes⟩
          ClusterCount := bytes.length / ClusterSize } := by
      refine ⟨rfl, rfl, ?_, ?_⟩
      · simp only [ClusterSize]; omega
      · simp only [ClusterSize]; omega
    have h := mountLoop_true_iff L (bytes.length / ClusterSize) 0 _ hm (by simp)
      (by intro t _ h2 h3; exact hcache t h2 h3) (by intro h; simp at h)
    simp only [hal, ne_eq, not_true_eq_false, if_false, true_and]
    rw [h]
    simp only [ClusterSize, Nat.zero_le, true_implies, Nat.zero_add]
  · simp [hal]

/-! ## Mount verifies every cluster (C4) -/

/-- C4: for an engine whose cached table index is not the index of a table
cluster of the file, and a file that opens, `Mount` returns true exactly when
the file size is a multiple of 512 and every cluster `i < size / 512` passes its
check: a data cluster's `Checksum(false)` equals the checksum stored in slot
`i mod 512` of its decrypted table, a table cluster's entry-0 checksum equals
its `Checksum(true)`. -/
theorem Mount_true_iff (L : Layout) (fs : VirtualFileSystem) (bytes : List Nat)
    (hsize : bytes.length < 2 ^ 64) (hopen : Opens fs (some bytes))
    (hcache : ∀ t, t < bytes.length / 512 → t % 512 = 0 → fs.CacheTableNum ≠ t) :
    (Mount L fs (some bytes)).1 = true ↔
      bytes.length % 512 = 0 ∧
        ∀ i, i < bytes.length / 512 →
          (i % 512 ≠ 0 →
            Checksum (DecryptData
                (L.Checksum (DecryptTable (i - i % 512) (rawCluster bytes (i - i % 512)))
                  (i % 512))
                (rawCluster bytes i)) false
              = L.Checksum (DecryptTable (i - i % 512) (rawCluster bytes (i - i % 512)))
                  (i % 512)) ∧
          (i % 512 = 0 →
            L.Checksum (DecryptTable i (rawCluster bytes i)) 0
              = Checksum (DecryptTable i (rawCluster bytes i)) true) :=
  Mount_true_iff_verified L fs bytes hsize hopen hcache

/-! ## The sample container -/

theorem Mount_sample :
    Mount sampleLayout sampleEngine (some sampleFile) = (true, mountedEngine) := by
  decide!

theorem rawCluster_set_of_ne (bytes : List Nat) (pos v i : Nat) (h : i ≠ pos / 512) :
    rawCluster (bytes.set pos v) i = rawCluster bytes i := by
  unfold rawCluster
  congr 1
  apply List.ext_getElem?
  intro k
  by_cases hk : k < ClusterSize
  · have hne : pos ≠ i * ClusterSize + k := by
      simp only [ClusterSize] at hk ⊢
      omega
    simp [List.getElem?_take, hk, List.getElem?_set, hne]
  · simp [List.getElem?_take, hk]

theorem refTable_set_of_data (bytes : List Nat) (pos v t : Nat) (hd : pos / 512 % 512 ≠ 0)
    (ht : t % 512 = 0) : refTable (bytes.set pos v) t = refTable bytes t := by
  unfold refTable
  rw [rawCluster_set_of_ne]
  intro h
  rw [h] at ht
  exact hd ht

theorem clusterVerified_set_of_ne (L : Layout) (bytes : List Nat) (pos v i : Nat)
    (hd : pos / 512 % 512 ≠ 0) (h : i ≠ pos / 512) :
    ClusterVerified L (bytes.set pos v) i ↔ ClusterVerified L bytes i := by
  unfold ClusterVerified
  rw [rawCluster_set_of_ne bytes pos v i h,
    refTable_set_of_data bytes pos v (i - i % 512) hd (by omega)]
  by_cases hi : i % 512 = 0
  · rw [refTable_set_of_data bytes pos v i hd hi]
  · simp [hi]

theorem sampleFile_length : sampleFile.length = 2048 := by
  decide!

theorem opens_sampleEngine (bytes : List Nat) : Opens sampleEngine (some bytes) := by
  simp [Opens, mountStream, sampleEngine, IfStream.good, IfStream.closeFile, IfStream.openFile]

theorem Mount_true_iff_witness :
    sampleFile.length < 2 ^ 64 ∧ Opens sampleEngine (some sampleFile) ∧
      (∀ t, t < sampleFile.length / 512 → t % 512 = 0 → sampleEngine.CacheTableNum ≠ t) ∧
      ((Mount sampleLayout sampleEngine (some sampleFile)).1 = true ↔
        sampleFile.length % 512 = 0 ∧
          ∀ i, i < sampleFile.length / 512 →
            (i % 512 ≠ 0 →
              Checksum (DecryptData
                  (sampleLayout.Checksum
                    (DecryptTable (i - i % 512) (rawCluster sampleFile (i - i % 512))) (i % 512))
                  (rawCluster sampleFile i)) false
                = sampleLayout.Checksum
                    (DecryptTable (i - i % 512) (rawCluster sampleFile (i - i % 512)))
                    (i % 512)) ∧
            (i % 512 = 0 →
              sampleLayout.Checksum (DecryptTable i (rawCluster sampleFile i)) 0
                = Checksum (DecryptTable i (rawCluster sampleFile i)) true)) :=
  have h1 : sampleFile.length < 2 ^ 64 := by rw [sampleFile_length]; norm_num
  have h3 : ∀ t, t < sampleFile.length / 512 → t % 512 = 0 → sampleEngine.CacheTableNum ≠ t := by
    intro t h2 h3
    rw [sampleFile_length] at h2
    simp only [sampleEngine]
    omega
  ⟨h1, opens_sampleEngine sampleFile, h3,
    Mount_true_iff sampleLayout sampleEngine sampleFile h1 (opens_sampleEngine sampleFile) h3⟩


theorem opens_of_opens (fs : VirtualFileSystem) (a b : List Nat) (h : Opens fs (some a)) :
    Opens fs (some b) := by
  unfold Opens at h ⊢
  revert h
  rcases fs.FileStream with ⟨o, f, d⟩
  cases o <;> cases f <;>
    simp [mountStream, IfStream.good, IfStream.closeFile, IfStream.openFile]

theorem Mount_set_true_iff (L : Layout) (fs : VirtualFileSystem) (bytes : List Nat) (pos v : Nat)
    (hsize : bytes.length < 2 ^ 64) (hopen : Opens fs (some bytes))
    (hcache : ∀ t, t < bytes.length / 512 → t % 512 = 0 → fs.CacheTableNum ≠ t)
    (hmount : (Mount L fs (some bytes)).1 = true) (hpos : pos < bytes.length)
    (hdata : pos / 512 % 512 ≠ 0) :
    (Mount L fs (some (bytes.set pos v))).1 = true ↔
      Checksum (DecryptData
          (L.Checksum (refTable bytes (pos / 512 - pos / 512 % 512)) (pos / 512 % 512))
          (rawCluster (bytes.set pos v) (pos / 512))) false
        = L.Checksum (refTable bytes (pos / 512 - pos / 512 % 512)) (pos / 512 % 512) := by
  have hlen : (bytes.set pos v).length = bytes.length := List.length_set _ _ _
  have h0 := (Mount_true_iff_verified L fs bytes hsize hopen hcache).1 hmount
  have h1 := Mount_true_iff_verified L fs (bytes.set pos v) (by rw [hlen]; exact hsize)
    (opens_of_opens fs _ _ hopen) (by rw [hlen]; exact hcache)
  rw [h1, hlen]
  have hin : pos / 512 < bytes.length / 512 := by
    have := h0.1
    omega
  have hv : ClusterVerified L (bytes.set pos v) (pos / 512) ↔
      Checksum (DecryptData
          (L.Checksum (refTable bytes (pos / 512 - pos / 512 % 512)) (pos / 512 % 512))
          (rawCluster (bytes.set pos v) (pos / 512))) false
        = L.Checksum (refTable bytes (pos / 512 - pos / 512 % 512)) (pos / 512 % 512) := by
    unfold ClusterVerified
    rw [refTable_set_of_data bytes pos v (pos / 512 - pos / 512 % 512) hdata (by omega)]
    simp [hdata]
  rw [← hv]
  constructor
  · intro h
    exact h.2 _ hin
  · intro h
    refine ⟨h0.1, ?_⟩
    intro i hi
    by_cases hip : i = pos / 512
    · rw [hip]; exact h
    · exact (clusterVerified_set_of_ne L bytes pos v i hdata hip).2 (h0.2 i hi)

/-! ## One corrupted data byte (C5) -/

/-- C5, as amended: for a container on which `Mount` succeeds and a byte
position inside a data cluster, `Mount` of the file with that byte replaced
returns false exactly when `Checksum(false)` of the modified cluster, decrypted
with the stored checksum as key, differs from the stored checksum. -/
theorem Mount_corrupted_false_iff (L : Layout) (fs : VirtualFileSystem) (bytes : List Nat)
    (pos v : Nat) (hsize : bytes.length < 2 ^ 64) (hopen : Opens fs (some bytes))
    (hcache : ∀ t, t < bytes.length / 512 → t % 512 = 0 → fs.CacheTableNum ≠ t)
    (hmount : (Mount L fs (some bytes)).1 = true) (hpos : pos < bytes.length)
    (hdata : pos / 512 % 512 ≠ 0) :
    (Mount L fs (some (bytes.set pos v))).1 = false ↔
      Checksum (DecryptData
          (L.Checksum (refTable bytes (pos / 512 - pos / 512 % 512)) (pos / 512 % 512))
          (rawCluster (bytes.set pos v) (pos / 512))) false
        ≠ L.Checksum (refTable bytes (pos / 512 - pos / 512 % 512)) (pos / 512 % 512) := by
  rw [Ne, ← Mount_set_true_iff L fs bytes pos v hsize hopen hcache hmount hpos hdata]
  simp

theorem Mount_sample_true : (Mount sampleLayout sampleEngine (some sampleFile)).1 = true := by
  rw [Mount_sample]

theorem sampleEngine_cache (t : Nat) (h : t < sampleFile.length / 512) (h0 : t % 512 = 0) :
    sampleEngine.CacheTableNum ≠ t := by
  rw [sampleFile_length] at h
  simp only [sampleEngine]
  omega

theorem Mount_corrupted_false_iff_witness :
    sampleFile.length < 2 ^ 64 ∧ Opens sampleEngine (some sampleFile) ∧
      (∀ t, t < sampleFile.length / 512 → t % 512 = 0 → sampleEngine.CacheTableNum ≠ t) ∧
      (Mount sampleLayout sampleEngine (some sampleFile)).1 = true ∧
      600 < sampleFile.length ∧ 600 / 512 % 512 ≠ 0 ∧
      ((Mount sampleLayout sampleEngine (some (sampleFile.set 600 0))).1 = false ↔
        Checksum (DecryptData
            (sampleLayout.Checksum (refTable sampleFile (600 / 512 - 600 / 512 % 512))
              (600 / 512 % 512))
            (rawCluster (sampleFile.set 600 0) (600 / 512))) false
          ≠ sampleLayout.Checksum (refTable sampleFile (600 / 512 - 600 / 512 % 512))
              (600 / 512 % 512)) :=
  have h1 : sampleFile.length < 2 ^ 64 := by rw [sampleFile_length]; norm_num
  have h5 : 600 < sampleFile.length := by rw [sampleFile_length]; norm_num
  ⟨h1, opens_sampleEngine sampleFile, sampleEngine_cache, Mount_sample_true, h5, by norm_num,
    Mount_corrupted_false_iff sampleLayout sampleEngine sampleFile 600 0 h1
      (opens_sampleEngine sampleFile) sampleEngine_cache Mount_sample_true h5 (by norm_num)⟩

/-- C5, as stated, fails: in the sample container, on which `Mount` succeeds,
byte 1020 lies in data cluster 1 and holds 16; with 15 in its place `Mount`
still returns true. -/
theorem Mount_accepts_corrupted_byte :
    (Mount sampleLayout sampleEngine (some sampleFile)).1 = true ∧
      1020 < sampleFile.length ∧ 1020 / 512 % 512 ≠ 0 ∧ sampleFile.getD 1020 0 = 16 ∧
      (Mount sampleLayout sampleEngine (some (sampleFile.set 1020 15))).1 = true := by
  refine ⟨Mount_sample_true, by rw [sampleFile_length]; norm_num, by norm_num, ?_, ?_⟩
  · decide!
  · decide!

/-! ## GetCluster against the cache-less reference (C1) -/

/-- A data-cluster cache miss stores the table of the cluster in `CacheTable`
and leaves `CacheTableNum` as it was. -/
theorem GetCluster_data_miss_state (L : Layout) (fs : VirtualFileSystem) (n : Nat)
    (buf : List Nat) (hm : Mounted fs) (hn : n < fs.ClusterCount) (hd : n % 512 ≠ 0)
    (hc : fs.CacheTableNum ≠ n - n % 512) :
    (GetCluster L fs n buf).2.1.CacheTableNum = fs.CacheTableNum ∧
      (GetCluster L fs n buf).2.1.CacheTable = refTable fs.FileStream.data (n - n % 512) := by
  rw [GetCluster_mounted L fs n buf hm hn, if_pos hd, if_neg hc]
  exact ⟨rfl, rfl⟩

/-- C1 fails on the code: `Mount` keeps the cached table of the previous
container.  After the sample container, `Mount` of the file whose table
cluster is zeroed returns true, and in that mounted engine `GetCluster(0)`
yields the table of the previous container, not the table-decrypt of raw
cluster 0 of the open file. -/
theorem GetCluster_stale_after_remount :
    (Mount sampleLayout sampleEngine (some sampleFile)).1 = true ∧
      (Mount sampleLayout (Mount sampleLayout sampleEngine (some sampleFile)).2
        (some staleFile)).1 = true ∧
      0 < (Mount sampleLayout (Mount sampleLayout sampleEngine (some sampleFile)).2
        (some staleFile)).2.ClusterCount ∧
      (GetCluster sampleLayout
          (Mount sampleLayout (Mount sampleLayout sampleEngine (some sampleFile)).2
            (some staleFile)).2 0 zeroCluster).2.2
        ≠ refCluster sampleLayout staleFile 0 := by
  rw [Mount_sample]
  decide!

/-! ## A failed Mount (C6) -/

theorem readCluster_isOpen (s : IfStream) (pos : Nat) (old : List Nat) :
    (s.readCluster pos old).1.isOpen = s.isOpen := by
  unfold IfStream.readCluster
  split
  · split <;> rfl
  · rfl

theorem GetCluster_ClusterCount (L : Layout) (fs : VirtualFileSystem) (n : Nat)
    (buf : List Nat) : (GetCluster L fs n buf).2.1.ClusterCount = fs.ClusterCount := by
  unfold GetCluster
  split
  · split
    · dsimp only
      split <;> rfl
    · split <;> rfl
  · rfl

theorem GetClusterBuf_ClusterCount (L : Layout) (fs : VirtualFileSystem) (n : Nat) :
    (GetClusterBuf L fs n).2.ClusterCount = fs.ClusterCount := by
  simp only [GetClusterBuf, GetCluster_ClusterCount]

theorem closeFile_isOpen (s : IfStream) : s.closeFile.isOpen = false := by
  unfold IfStream.closeFile
  split
  · rfl
  · simp_all

theorem mountLoop_ClusterCount (L : Layout) (n : Nat) :
    ∀ i fs, (mountLoop L n i fs).2.ClusterCount = fs.ClusterCount := by
  induction n with
  | zero => intro i fs; rfl
  | succ n ih =>
    intro i fs
    simp only [mountLoop]
    split
    · split
      · simp only [GetClusterBuf_ClusterCount]
      · rw [ih, GetClusterBuf_ClusterCount]
    · split
      · simp only [GetClusterBuf_ClusterCount]
      · rw [ih, GetClusterBuf_ClusterCount]

theorem mountLoop_false_closed (L : Layout) (n : Nat) :
    ∀ i fs, (mountLoop L n i fs).1 = false → (mountLoop L n i fs).2.FileStream.isOpen = false := by
  induction n with
  | zero => intro i fs h; simp [mountLoop] at h
  | succ n ih =>
    intro i fs
    simp only [mountLoop]
    split
    · split
      · intro _; exact closeFile_isOpen _
      · exact ih _ _
    · split
      · intro _; exact closeFile_isOpen _
      · exact ih _ _


theorem opens_of_wellFormed (fs : VirtualFileSystem) (bytes : List Nat)
    (hwf : fs.FileStream.failbit = true → fs.FileStream.isOpen = false) :
    Opens fs (some bytes) := by
  unfold Opens
  revert hwf
  rcases fs.FileStream with ⟨o, f, d⟩
  cases o <;> cases f <;>
    simp [mountStream, IfStream.good, IfStream.closeFile, IfStream.openFile]

theorem Mount_none (L : Layout) (fs : VirtualFileSystem)
    (hwf : fs.FileStream.failbit = true → fs.FileStream.isOpen = false) :
    (Mount L fs none).2.FileStream.isOpen = false ∧
      (Mount L fs none).2.ClusterCount = fs.ClusterCount := by
  revert hwf
  rcases fs with ⟨⟨o, f, d⟩, cc, ctn, ct, cb⟩
  cases o <;> cases f <;>
    simp [Mount, mountStream, IfStream.good, IfStream.closeFile, IfStream.openFile]

theorem Mount_some (L : Layout) (fs : VirtualFileSystem) (bytes : List Nat)
    (hwf : fs.FileStream.failbit = true → fs.FileStream.isOpen = false) :
    Mount L fs (some bytes) =
      if bytes.length % 512 ≠ 0 then
        (false, { fs with FileStream := ⟨false, false, bytes⟩ })
      else
        mountLoop L (bytes.length / ClusterSize) 0
          { fs with
            FileStream := ⟨true, false, bytes⟩
            ClusterCount := bytes.length / ClusterSize } := by
  have hs := mountStream_of_opens fs bytes (opens_of_wellFormed fs bytes hwf)
  simp only [Mount, hs, IfStream.good, and_0x1FF, Bool.not_false, if_true, IfStream.closeFile]

/-- What a failed `Mount` leaves: whenever `Mount` returns false, on an engine
whose stream is not both failed and open, the stream is closed; when
the file cannot be opened or its size is not a multiple of 512,
`GetClusterCount` and `GetSize` return the same values as before the call;
when the size is a multiple of 512 (the failure is a checksum mismatch),
`GetClusterCount` returns the cluster count of the rejected file. -/
theorem Mount_false_effect (L : Layout) (fs : VirtualFileSystem) (file : Option (List Nat))
    (hwf : fs.FileStream.failbit = true → fs.FileStream.isOpen = false)
    (h : (Mount L fs file).1 = false) :
    (Mount L fs file).2.FileStream.isOpen = false ∧
      (file = none →
        GetClusterCount (Mount L fs file).2 = GetClusterCount fs ∧
          GetSize (Mount L fs file).2 = GetSize fs) ∧
      (∀ bytes, file = some bytes → bytes.length % 512 ≠ 0 →
        GetClusterCount (Mount L fs file).2 = GetClusterCount fs ∧
          GetSize (Mount L fs file).2 = GetSize fs) ∧
      (∀ bytes, file = some bytes → bytes.length % 512 = 0 →
        GetClusterCount (Mount L fs file).2 = bytes.length / 512) := by
  cases file with
  | none =>
    have hn := Mount_none L fs hwf
    refine ⟨hn.1, ?_, ?_, ?_⟩
    · intro _
      simp only [GetSize, GetClusterCount, hn.2, and_self]
    · intro bytes hb; cases hb
    · intro bytes hb; cases hb
  | some bytes =>
    rw [Mount_some L fs bytes hwf] at h ⊢
    by_cases hal : bytes.length % 512 = 0
    · simp only [hal, ne_eq, not_true_eq_false, if_false] at h ⊢
      refine ⟨mountLoop_false_closed L _ _ _ h, ?_, ?_, ?_⟩
      · intro hb; cases hb
      · intro b hb hb2
        cases hb
        exact absurd hal hb2
      · intro b hb _
        cases hb
        simp only [GetClusterCount, mountLoop_ClusterCount, ClusterSize]
    · rw [if_pos hal]
      refine ⟨rfl, ?_, ?_, ?_⟩
      · intro hb; cases hb
      · intro b _ _
        simp only [GetSize, GetClusterCount, and_self]
      · intro b hb hb2
        cases hb
        exact absurd hb2 hal

theorem Mount_zeroFile :
    (Mount sampleLayout sampleEngine (some zeroFile)).1 = false ∧
      GetClusterCount (Mount sampleLayout sampleEngine (some zeroFile)).2 = 1 := by
  decide!

theorem Mount_false_effect_witness :
    (sampleEngine.FileStream.failbit = true → sampleEngine.FileStream.isOpen = false) ∧
      (Mount sampleLayout sampleEngine (some zeroFile)).1 = false ∧
      ((Mount sampleLayout sampleEngine (some zeroFile)).2.FileStream.isOpen = false ∧
        (some zeroFile = none →
          GetClusterCount (Mount sampleLayout sampleEngine (some zeroFile)).2
              = GetClusterCount sampleEngine ∧
            GetSize (Mount sampleLayout sampleEngine (some zeroFile)).2 = GetSize sampleEngine) ∧
        (∀ bytes, some zeroFile = some bytes → bytes.length % 512 ≠ 0 →
          GetClusterCount (Mount sampleLayout sampleEngine (some zeroFile)).2
              = GetClusterCount sampleEngine ∧
            GetSize (Mount sampleLayout sampleEngine (some zeroFile)).2 = GetSize sampleEngine) ∧
        (∀ bytes, some zeroFile = some bytes → bytes.length % 512 = 0 →
          GetClusterCount (Mount sampleLayout sampleEngine (some zeroFile)).2
            = bytes.length / 512)) :=
  ⟨fun _ => rfl, Mount_zeroFile.1,
    Mount_false_effect sampleLayout sampleEngine (some zeroFile) (fun _ => rfl) Mount_zeroFile.1⟩

/-- In the engine that has mounted the sample container (4 clusters), `Mount`
of a two-cluster file of zero bytes returns false on a checksum mismatch, and
`GetClusterCount`, 4 before the call, is 2 after it. -/
theorem Mount_failure_leaves_count :
    Mount sampleLayout sampleEngine (some sampleFile) = (true, mountedEngine) ∧
      GetClusterCount mountedEngine = 4 ∧
      (Mount sampleLayout mountedEngine (some zeroFile2)).1 = false ∧
      GetClusterCount (Mount sampleLayout mountedEngine (some zeroFile2)).2 = 2 ∧
      GetClusterCount (Mount sampleLayout mountedEngine (some zeroFile2)).2
        ≠ GetClusterCount mountedEngine := by
  refine ⟨Mount_sample, ?_⟩
  decide!

/-- C6 fails on the code: `Mount` closes the stream when it rejects a file, but
`close()` leaves `failbit` clear, so the test `if( FileStream )` of `Read`,
`GetEntry` and `Iterate` still passes, and `ClusterCount` keeps the count of
the rejected file.  After the failed `Mount` of a one-cluster file of zero
bytes on a fresh engine the stream is closed and tests true,
`GetClusterCount` is 1 where it was 0, and `Read` of 8 bytes at cluster 0
returns true with bytes of the decrypted table of the rejected file. -/
theorem Mount_failure_not_unmounted :
    (Mount sampleLayout sampleEngine (some zeroFile)).1 = false ∧
      (Mount sampleLayout sampleEngine (some zeroFile)).2.FileStream.isOpen = false ∧
      (Mount sampleLayout sampleEngine (some zeroFile)).2.FileStream.good = true ∧
      GetClusterCount sampleEngine = 0 ∧
      GetClusterCount (Mount sampleLayout sampleEngine (some zeroFile)).2 = 1 ∧
      (Read sampleLayout (Mount sampleLayout sampleEngine (some zeroFile)).2 wideEntry 0 8
        (fun _ => 0)).1 = true ∧
      (List.range 8).map
          (Read sampleLayout (Mount sampleLayout sampleEngine (some zeroFile)).2 wideEntry 0 8
            (fun _ => 0)).2.2
        = (wordsToBytes (refTable zeroFile 0)).take 8 ∧
      (wordsToBytes (refTable zeroFile 0)).take 8 = [79, 100, 120, 74, 79, 100, 120, 74] := by
  decide!

/-! ## The state invariant -/

theorem sound_not_failed_open (fs : VirtualFileSystem) (h : Sound fs) :
    fs.FileStream.failbit = true → fs.FileStream.isOpen = false := by
  intro hf
  by_contra ho
  have hm := h (by simpa using ho)
  rw [hm.2.1] at hf
  cases hf

theorem sampleEngine_sound : Sound sampleEngine := by
  intro h
  cases h

theorem GetCluster_sound (L : Layout) (fs : VirtualFileSystem) (n : Nat) (buf : List Nat)
    (h : Sound fs) : Sound (GetCluster L fs n buf).2.1 := by
  by_cases ho : fs.FileStream.isOpen = true
  · have hm := h ho
    by_cases hn : n < fs.ClusterCount
    · rw [GetCluster_mounted L fs n buf hm hn]
      intro _
      split
      · split <;> exact hm
      · split <;> exact hm
    · unfold GetCluster
      rw [if_neg hn]
      exact h
  · intro ho2
    exfalso
    apply ho
    rw [← ho2]
    unfold GetCluster
    split
    · split
      · dsimp only
        split
        · simp only [readCluster_isOpen]
        · simp only [readCluster_isOpen]
      · split
        · rfl
        · simp only [readCluster_isOpen]
    · rfl

theorem GetClusterBuf_sound (L : Layout) (fs : VirtualFileSystem) (n : Nat) (h : Sound fs) :
    Sound (GetClusterBuf L fs n).2 :=
  GetCluster_sound L fs n fs.CacheBuffer h

theorem mountLoop_sound (L : Layout) (n : Nat) :
    ∀ i fs, Sound fs → Sound (mountLoop L n i fs).2 := by
  induction n with
  | zero => intro i fs h; exact h
  | succ n ih =>
    intro i fs h
    have h1 := GetClusterBuf_sound L fs i h
    simp only [mountLoop]
    split
    · split
      · intro ho
        rw [closeFile_isOpen] at ho
        cases ho
      · exact ih _ _ h1
    · split
      · intro ho
        rw [closeFile_isOpen] at ho
        cases ho
      · exact ih _ _ h1

/-- `Mount` keeps the state invariant, for a file of fewer than `2^64` bytes. -/
theorem Mount_sound (L : Layout) (fs : VirtualFileSystem) (file : Option (List Nat))
    (hsize : ∀ bytes, file = some bytes → bytes.length < 2 ^ 64) (h : Sound fs) :
    Sound (Mount L fs file).2 := by
  have hwf := sound_not_failed_open fs h
  cases file with
  | none =>
    intro ho
    rw [(Mount_none L fs hwf).1] at ho
    cases ho
  | some bytes =>
    rw [Mount_some L fs bytes hwf]
    split
    · intro ho
      cases ho
    · rename_i hal
      apply mountLoop_sound
      intro _
      have hb := hsize bytes rfl
      refine ⟨rfl, rfl, ?_, ?_⟩
      · simp only [ClusterSize]; omega
      · simp only [ClusterSize]; omega

/-! ## Read -/

theorem Read_true_iff_checks (L : Layout) (fs : VirtualFileSystem) (Entry : FATEntry)
    (Offset Size : Nat) (Destination : Nat → Nat) :
    (Read L fs Entry Offset Size Destination).1 = true ↔
      (fs.FileStream.good = true ∧ Entry.Cluster < fs.ClusterCount ∧
        Entry.Type_ = EntryType.File ∧ (Offset + Size) % 2 ^ 64 ≤ Entry.Size) := by
  unfold Read
  split
  · simp_all
  · simp_all

theorem readState_shift (L : Layout) (fs : VirtualFileSystem) (first : Nat) :
    ∀ k, readState L (GetClusterBuf L fs first).2 (first + 1) k
      = readState L fs first (k + 1) := by
  intro k
  induction k with
  | zero => rfl
  | succ k ih =>
    have e : first + 1 + k = first + (k + 1) := by omega
    rw [readState, ih, e]
    rfl

theorem readYield_shift (L : Layout) (fs : VirtualFileSystem) (first k : Nat) :
    readYield L (GetClusterBuf L fs first).2 (first + 1) k = readYield L fs first (k + 1) := by
  unfold readYield
  rw [readState_shift]

/-- The contents `readYield` names are the output of the `GetCluster` call on
cluster `first + k`. -/
theorem readYield_eq_GetCluster (L : Layout) (fs : VirtualFileSystem) (first k : Nat) :
    readYield L fs first k
      = (GetCluster L (readState L fs first k) (first + k)
          (readState L fs first k).CacheBuffer).2.2 :=
  rfl

theorem readLoop_spec (L : Layout) (Entry : FATEntry) (n : Nat) :
    ∀ (fs : VirtualFileSystem) (Offset Size WritePoint : Nat) (mem : Nat → Nat),
      Size ≤ n → Offset + Size < 2 ^ 64 →
      (∀ j, j < Size → Entry.Cluster + (Offset + j) / 512 < 2 ^ 64) →
      ∀ a, (readLoop L Entry n fs Offset Size WritePoint mem).2 a =
        if WritePoint ≤ a ∧ a < WritePoint + Size then
          u8 (readYield L fs (Entry.Cluster + Offset / 512)
              ((Offset + (a - WritePoint)) / 512 - Offset / 512))
            ((Offset + (a - WritePoint)) % 512)
        else mem a := by
  induction n with
  | zero =>
    intro fs Offset Size wp mem hn _ _ a
    have h0 : ¬ (wp ≤ a ∧ a < wp + Size) := by omega
    simp only [readLoop, h0, if_false]
  | succ n ih =>
    intro fs Offset Size wp mem hn hsum hidx a
    by_cases hz : Size = 0
    · have h0 : ¬ (wp ≤ a ∧ a < wp + Size) := by omega
      simp only [readLoop, hz, if_true, h0, if_false]
      rw [if_neg (by omega)]
    · have hlen : min Size (ClusterSize - Offset % ClusterSize) ≤ Size := Nat.min_le_left _ _
      have hpos : 0 < min Size (ClusterSize - Offset % ClusterSize) := by
        simp only [ClusterSize]; omega
      have hcl : (Entry.Cluster + Offset / ClusterSize) % 2 ^ 64 = Entry.Cluster + Offset / 512 := by
        apply Nat.mod_eq_of_lt
        have := hidx 0 (by omega)
        simpa [ClusterSize] using this
      have hoff : (Offset + min Size (ClusterSize - Offset % ClusterSize)) % 2 ^ 64
          = Offset + min Size (ClusterSize - Offset % ClusterSize) := by
        apply Nat.mod_eq_of_lt; omega
      simp only [readLoop, hz, if_false, hcl, hoff]
      rw [ih _ _ _ _ _ (by omega) (by omega)
        (by
          intro j hj
          have := hidx (min Size (ClusterSize - Offset % ClusterSize) + j) (by omega)
          have e : Offset + (min Size (ClusterSize - Offset % ClusterSize) + j)
              = Offset + min Size (ClusterSize - Offset % ClusterSize) + j := by omega
          rw [← e]; exact this)]
      by_cases h1 : wp ≤ a ∧ a < wp + Size
      · by_cases h2 : a < wp + min Size (ClusterSize - Offset % ClusterSize)
        · -- copied in this pass
          have hn2 : ¬ (wp + min Size (ClusterSize - Offset % ClusterSize) ≤ a ∧
              a < wp + min Size (ClusterSize - Offset % ClusterSize)
                + (Size - min Size (ClusterSize - Offset % ClusterSize))) := by omega
          rw [if_neg hn2, if_pos h1]
          simp only [memcpy, ClusterSize] at h2 ⊢
          rw [if_pos ⟨h1.1, h2⟩]
          have e1 : (Offset + (a - wp)) / 512 - Offset / 512 = 0 := by omega
          have e2 : (Offset + (a - wp)) % 512 = Offset % 512 + (a - wp) := by omega
          rw [e1, e2]
          rfl
        · -- copied in a later pass
          have hp2 : wp + min Size (ClusterSize - Offset % ClusterSize) ≤ a ∧
              a < wp + min Size (ClusterSize - Offset % ClusterSize)
                + (Size - min Size (ClusterSize - Offset % ClusterSize)) := by omega
          rw [if_pos hp2, if_pos h1]
          simp only [ClusterSize] at h2 hp2 ⊢
          have hm : min Size (512 - Offset % 512) = 512 - Offset % 512 := by omega
          have e0 : (Offset + min Size (512 - Offset % 512)) / 512 = Offset / 512 + 1 := by
            omega
          have e1 : (Offset + min Size (512 - Offset % 512)
                + (a - (wp + min Size (512 - Offset % 512)))) = Offset + (a - wp) := by omega
          have e2 : (Offset + (a - wp)) / 512 - Offset / 512
              = ((Offset + (a - wp)) / 512 - (Offset / 512 + 1)) + 1 := by omega
          rw [e0, e1, e2, ← readYield_shift]
          rfl
      · have hn2 : ¬ (wp + min Size (ClusterSize - Offset % ClusterSize) ≤ a ∧
            a < wp + min Size (ClusterSize - Offset % ClusterSize)
              + (Size - min Size (ClusterSize - Offset % ClusterSize))) := by omega
        rw [if_neg hn2, if_neg h1]
        simp only [memcpy]
        rw [if_neg (by omega)]

/-! ## The range check of Read (C7) -/

/-- C7 fails on the code: the sum `Offset + Size` is a `size_t` sum.  For the
mounted sample engine and the file entry `a` of 512 bytes, `Offset = 2^64 - 1`
and `Size = 1` wrap to 0, so `Read` returns true although
`Offset + Size > Entry.Size`. -/
theorem Read_accepts_wrapped_sum :
    mountedEngine.FileStream.good = true ∧ sampleEntry.Cluster < mountedEngine.ClusterCount ∧
      sampleEntry.Type_ = EntryType.File ∧ ¬ (2 ^ 64 - 1 + 1 ≤ sampleEntry.Size) ∧
      (Read sampleLayout mountedEngine sampleEntry (2 ^ 64 - 1) 1 (fun _ => 0)).1 = true := by
  decide

/-! ## The bytes Read copies (C8) -/

/-- C8: for a `Read` on a mounted engine that passes its entry checks and
whose touched clusters `Entry.Cluster + k` are all in range, destination byte
`j < Size` is byte `(Offset + j) mod 512` of the contents `GetCluster` yields
for cluster `Entry.Cluster + (Offset + j) / 512`, and every destination byte
at an index `≥ Size` is left as it was. -/
theorem Read_copies_span (L : Layout) (fs : VirtualFileSystem) (Entry : FATEntry)
    (Offset Size : Nat) (Destination : Nat → Nat) (hm : Mounted fs)
    (hread : (Read L fs Entry Offset Size Destination).1 = true)
    (hrange : ∀ j, j < Size → Entry.Cluster + (Offset + j) / 512 < fs.ClusterCount) :
    ∀ j,
      (j < Size →
        (Read L fs Entry Offset Size Destination).2.2 j
          = u8 (readYield L fs (Entry.Cluster + Offset / 512)
              ((Offset + j) / 512 - Offset / 512)) ((Offset + j) % 512)) ∧
      (Size ≤ j → (Read L fs Entry Offset Size Destination).2.2 j = Destination j) := by
  have hchk := (Read_true_iff_checks L fs Entry Offset Size Destination).1 hread
  have hcc : fs.ClusterCount * 512 < 2 ^ 64 := hm.2.2.2
  have hR : (Read L fs Entry Offset Size Destination).2.2
      = (readLoop L Entry Size fs Offset Size 0 Destination).2 := by
    unfold Read
    rw [if_pos hchk]
  intro j
  rw [hR]
  by_cases hz : Size = 0
  · subst hz
    refine ⟨fun h => absurd h (Nat.not_lt_zero _), fun _ => ?_⟩
    cases hs : (0 : Nat) with
    | zero => simp [readLoop]
    | succ n => omega
  · have hlast := hrange (Size - 1) (by omega)
    have hsum : Offset + Size < 2 ^ 64 := by omega
    have hidx : ∀ j, j < Size → Entry.Cluster + (Offset + j) / 512 < 2 ^ 64 := by
      intro i hi
      have := hrange i hi
      omega
    have hs := readLoop_spec L Entry Size fs Offset Size 0 Destination (le_refl _) hsum hidx j
    rw [hs]
    constructor
    · intro hj
      rw [if_pos ⟨Nat.zero_le _, by omega⟩]
      rfl
    · intro hj
      rw [if_neg (by omega)]


theorem mountedEngine_mounted : Mounted mountedEngine := by
  refine ⟨rfl, rfl, ?_, ?_⟩
  · show sampleFile.length = 4 * ClusterSize
    rw [sampleFile_length]; rfl
  · show 4 * ClusterSize < 2 ^ 64
    simp only [ClusterSize]; norm_num

theorem Read_copies_span_witness :
    Mounted mountedEngine ∧
      (Read sampleLayout mountedEngine wideEntry 500 20 (fun _ => 0)).1 = true ∧
      (∀ j, j < 20 → wideEntry.Cluster + (500 + j) / 512 < mountedEngine.ClusterCount) ∧
      ∀ j,
        (j < 20 →
          (Read sampleLayout mountedEngine wideEntry 500 20 (fun _ => 0)).2.2 j
            = u8 (readYield sampleLayout mountedEngine (wideEntry.Cluster + 500 / 512)
                ((500 + j) / 512 - 500 / 512)) ((500 + j) % 512)) ∧
        (20 ≤ j →
          (Read sampleLayout mountedEngine wideEntry 500 20 (fun _ => 0)).2.2 j
            = (fun _ => 0) j) :=
  have h2 : (Read sampleLayout mountedEngine wideEntry 500 20 (fun _ => 0)).1 = true := by
    decide
  have h3 : ∀ j, j < 20 → wideEntry.Cluster + (500 + j) / 512 < mountedEngine.ClusterCount := by
    intro j hj
    simp only [wideEntry, mountedEngine]
    omega
  ⟨mountedEngine_mounted, h2, h3,
    Read_copies_span sampleLayout mountedEngine wideEntry 500 20 (fun _ => 0)
      mountedEngine_mounted h2 h3⟩

/-! ## Read past the last cluster (C9) -/

/-- C9 fails on the code: `Read` ignores the flag `GetCluster` returns.  In the
mounted sample engine of 4 clusters, the file entry starting at cluster 3 with
1024 bytes passes the checks for `Offset = 0`, `Size = 1024`; the second
cluster touched is 4, which `GetCluster` rejects, and `Read` still returns
true, having copied the bytes of cluster 3 a second time. -/
theorem Read_ignores_rejected_cluster :
    mountedEngine.FileStream.good = true ∧ mountedEngine.ClusterCount = 4 ∧
      lastEntry.Type_ = EntryType.File ∧ lastEntry.Cluster < mountedEngine.ClusterCount ∧
      0 + 1024 ≤ lastEntry.Size ∧ 0 < 1024 ∧
      ¬ (lastEntry.Cluster + (0 + 1023) / 512 < mountedEngine.ClusterCount) ∧
      (GetCluster sampleLayout mountedEngine (lastEntry.Cluster + (0 + 1023) / 512)
        zeroCluster).1 = false ∧
      (Read sampleLayout mountedEngine lastEntry 0 1024 (fun _ => 0)).1 = true ∧
      (Read sampleLayout mountedEngine lastEntry 0 1024 (fun _ => 0)).2.2 516
        = (Read sampleLayout mountedEngine lastEntry 0 1024 (fun _ => 0)).2.2 4 ∧
      (Read sampleLayout mountedEngine lastEntry 0 1024 (fun _ => 0)).2.2 4 = 98 := by
  decide!

/-! ## GetEntry against the reference resolution (C10) -/

theorem scanSlots_eq_find (L : Layout) (u32 : List Nat) (tok : List Char) (n : Nat) :
    ∀ i, (scanSlots L u32 tok n i).map (L.FATEntries u32)
      = (((List.range' i n).map (L.FATEntries u32)).takeWhile (fun e => e.Flags ≠ 0)).find?
          (fun e => e.Name = tok) := by
  induction n with
  | zero => intro i; rfl
  | succ n ih =>
    intro i
    simp only [scanSlots, List.range', List.map_cons]
    by_cases hf : (L.FATEntries u32 i).Flags = 0
    · simp [hf, List.takeWhile_cons]
    · by_cases hn : tok = (L.FATEntries u32 i).Name
      · simp [hf, List.takeWhile_cons, hn]
      · have hn2 : ¬ (L.FATEntries u32 i).Name = tok := fun h => hn h.symm
        simp only [hf, if_false, hn, List.takeWhile_cons, ne_eq, not_false_eq_true,
          decide_True, if_true, List.find?_cons, hn2, decide_False]
        exact ih (i + 1)

theorem scanSlots_dirSlots (L : Layout) (u32 : List Nat) (tok : List Char) :
    (scanSlots L u32 tok 64 0).map (L.FATEntries u32)
      = (dirSlots L u32).find? (fun e => e.Name = tok) := by
  rw [scanSlots_eq_find, dirSlots, List.range_eq_range']

theorem getEntryLoop_reads_mono (L : Layout) (Entry : FATEntry) (later : List (List Char)) :
    ∀ (tok : List Char) (fs : VirtualFileSystem) (reads : List (Nat × List Nat)),
      ∀ p ∈ reads, p ∈ (getEntryLoop L Entry later tok fs reads).reads := by
  induction later with
  | nil =>
    intro tok fs reads p hp
    unfold getEntryLoop
    split <;> exact hp
  | cons next later1 ih =>
    intro tok fs reads p hp
    unfold getEntryLoop
    split
    · exact hp
    · dsimp only
      split
      · exact hp
      · exact ih _ _ _ p (List.mem_append_left _ hp)

theorem getEntryLoop_spec (L : Layout) (Entry : FATEntry) (ref : Nat → List Nat)
    (later : List (List Char)) :
    ∀ (tok : List Char) (fs : VirtualFileSystem) (reads : List (Nat × List Nat)) (c : Nat),
      fs.CacheBuffer = ref c →
      (∀ p ∈ (getEntryLoop L Entry later tok fs reads).reads, p.2 = ref p.1) →
      ∀ e, ((getEntryLoop L Entry later tok fs reads).found = true ∧
          (getEntryLoop L Entry later tok fs reads).Entry = e)
        ↔ resolve L ref c (tok :: later) = some e := by
  induction later with
  | nil =>
    intro tok fs reads c hbuf _ e
    have hs := scanSlots_dirSlots L fs.CacheBuffer tok
    rw [hbuf] at hs
    unfold getEntryLoop
    simp only [resolve, ← hs, hbuf]
    cases hsc : scanSlots L (ref c) tok 64 0 with
    | none => simp
    | some i => simp
  | cons next later1 ih =>
    intro tok fs reads c hbuf hreads e
    have hs := scanSlots_dirSlots L fs.CacheBuffer tok
    rw [hbuf] at hs
    unfold getEntryLoop at hreads ⊢
    simp only [resolve, ← hs]
    rw [hbuf] at hreads ⊢
    cases hsc : scanSlots L (ref c) tok 64 0 with
    | none => simp
    | some i =>
      simp only [hsc] at hreads
      simp only [Option.map_some', List.cons_ne_nil, if_false]
      by_cases hty : (L.FATEntries (ref c) i).Type_ = EntryType.Folder
      · simp only [hty, ne_eq, not_true_eq_false, if_false, if_true] at hreads ⊢
        apply ih
        · exact hreads _ (getEntryLoop_reads_mono L Entry later1 next _ _ _
            (List.mem_append_right _ (List.mem_singleton_self _)))
        · exact hreads
      · simp [hty]

/-- C10: for a mounted engine and a path with at least one name token, when
every directory cluster read of `GetEntry` is in range and leaves the
correctly decrypted cluster in `CacheBuffer`, `GetEntry` returns true with
entry `e` exactly when the reference resolution from cluster 2 yields `e`. -/
theorem GetEntry_resolves (L : Layout) (fs : VirtualFileSystem) (Path : List Char)
    (Entry : FATEntry) (hm : Mounted fs) (htok : tokens Path ≠ [])
    (hreads : ∀ r ∈ GetEntry L fs Path Entry, ∀ p ∈ r.reads,
      p.1 < fs.ClusterCount ∧ p.2 = refCluster L fs.FileStream.data p.1) :
    ∃ r, GetEntry L fs Path Entry = some r ∧
      ∀ e, (r.found = true ∧ r.Entry = e) ↔
        resolve L (refCluster L fs.FileStream.data) 2 (tokens Path) = some e := by
  have hgood : fs.FileStream.good = true := by
    simp only [IfStream.good, hm.2.1, Bool.not_false]
  cases htk : tokens Path with
  | nil => exact absurd htk htok
  | cons tok later =>
    have hG : GetEntry L fs Path Entry
        = some (getEntryLoop L Entry later tok (GetClusterBuf L fs 2).2
            [(2, (GetClusterBuf L fs 2).2.CacheBuffer)]) := by
      unfold GetEntry
      rw [if_pos hgood]
      simp only [htk]
    refine ⟨_, hG, ?_⟩
    have hr := hreads _ (by rw [hG]; rfl)
    apply getEntryLoop_spec L Entry (refCluster L fs.FileStream.data) later tok _ _ 2
    · exact (hr _ (getEntryLoop_reads_mono L Entry later tok _ _ _
        (List.mem_singleton_self _))).2
    · intro p hp
      exact (hr p hp).2

theorem GetEntry_resolves_witness :
    Mounted mountedEngine ∧ tokens ['d', '/', 'b'] ≠ [] ∧
      (∀ r ∈ GetEntry sampleLayout mountedEngine ['d', '/', 'b'] sampleEntry, ∀ p ∈ r.reads,
        p.1 < mountedEngine.ClusterCount ∧
          p.2 = refCluster sampleLayout mountedEngine.FileStream.data p.1) ∧
      ∃ r, GetEntry sampleLayout mountedEngine ['d', '/', 'b'] sampleEntry = some r ∧
        ∀ e, (r.found = true ∧ r.Entry = e) ↔
          resolve sampleLayout (refCluster sampleLayout mountedEngine.FileStream.data) 2
            (tokens ['d', '/', 'b']) = some e :=
  have h2 : tokens ['d', '/', 'b'] ≠ [] := by decide
  have h3 : ∀ r ∈ GetEntry sampleLayout mountedEngine ['d', '/', 'b'] sampleEntry,
      ∀ p ∈ r.reads, p.1 < mountedEngine.ClusterCount ∧
        p.2 = refCluster sampleLayout mountedEngine.FileStream.data p.1 := by
    decide!
  ⟨mountedEngine_mounted, h2, h3,
    GetEntry_resolves sampleLayout mountedEngine ['d', '/', 'b'] sampleEntry
      mountedEngine_mounted h2 h3⟩

theorem GetEntry_sample_found :
    (GetEntry sampleLayout mountedEngine ['d', '/', 'b'] sampleEntry).map
        (fun r => (r.found, r.Entry))
      = some (true, ⟨1, ['b'], EntryType.File, 1, 512, 0⟩) := by
  decide!

/-! ## The checksum (C14, C15) -/

theorem testBit_rotateLeft1 (x j : Nat) :
    (rotateLeft1 x).testBit j = (decide (j < 32) && x.testBit ((j + 31) % 32)) := by
  have hb : x / 2 ^ 31 % 2 < 2 ^ 1 := by omega
  unfold rotateLeft1
  rw [Nat.testBit_mul_pow_two_add _ hb]
  by_cases h0 : j < 1
  · have hj : j = 0 := by omega
    subst hj
    simp only [h0, if_true, Nat.testBit_zero, Nat.mod_mod]
    simp [Nat.testBit_to_div_mod]
  · rw [if_neg h0, Nat.testBit_mod_two_pow]
    by_cases h32 : j < 32
    · have e : (j + 31) % 32 = j - 1 := by omega
      have h31 : j - 1 < 31 := by omega
      simp [h32, e, h31]
    · have h31 : ¬ j - 1 < 31 := by omega
      simp [h32, h31]

theorem rotateLeft1_lt (x : Nat) : rotateLeft1 x < 2 ^ 32 := by
  unfold rotateLeft1; omega

theorem code_rotate_eq (acc : Nat) (h : acc < 2 ^ 32) :
    ((2 * acc) % 2 ^ 32) ||| (acc >>> 31) = rotateLeft1 acc := by
  have h1 : (2 * acc) % 2 ^ 32 = 2 ^ 1 * (acc % 2 ^ 31) := by omega
  have h2 : acc >>> 31 = acc / 2 ^ 31 % 2 := by
    rw [Nat.shiftRight_eq_div_pow]; omega
  have hb : acc / 2 ^ 31 % 2 < 2 ^ 1 := by omega
  rw [h1, h2, ← Nat.mul_add_lt_is_or hb]
  rfl

theorem checksumLoop_eq_fold (ws : List Nat) :
    ∀ acc, acc < 2 ^ 32 → (∀ w ∈ ws, w < 2 ^ 32) → checksumLoop acc ws = rotXorFold acc ws := by
  induction ws with
  | nil => intro acc _ _; rfl
  | cons w rest ih =>
    intro acc hacc hws
    have hw : w < 2 ^ 32 := hws w (List.mem_cons_self _ _)
    simp only [checksumLoop, rotXorFold, List.foldl_cons]
    rw [code_rotate_eq acc hacc]
    exact ih _ (Nat.xor_lt_two_pow (rotateLeft1_lt acc) hw)
      (fun v hv => hws v (List.mem_cons_of_mem _ hv))

theorem Checksum_eq_foldChecksum (u32 : List Nat) (Table : Bool) (h : ∀ w ∈ u32, w < 2 ^ 32) :
    Checksum u32 Table = foldChecksum u32 Table := by
  unfold Checksum foldChecksum
  rw [checksumLoop_eq_fold _ 0 (by norm_num) (fun w hw => h w (List.mem_of_mem_drop hw))]

theorem or_one_odd (x : Nat) : (x ||| 1) % 2 = 1 := by
  rw [Nat.or_mod_two_eq_one]; right; rfl

/-- C14: for every 128-word cluster and either flag, `Checksum` is the
rotate-xor fold over the words from index 1 (table) or 0 (data), started at 0,
with bit 0 set; the code's `(2 * acc | acc >> 31)` is the 32-bit rotation by
one bit; the result is odd, hence nonzero, and `Checksum(true)` does not
depend on word 0. -/
theorem Checksum_is_fold (u32 : List Nat) (Table : Bool) (h : IsCluster u32) :
    Checksum u32 Table = foldChecksum u32 Table ∧
      (∀ acc, acc < 2 ^ 32 →
        ((2 * acc) % 2 ^ 32) ||| (acc >>> 31) = rotateLeft1 acc ∧
        rotateLeft1 acc < 2 ^ 32 ∧
        ∀ j, j < 32 → (rotateLeft1 acc).testBit j = acc.testBit ((j + 31) % 32)) ∧
      Checksum u32 Table % 2 = 1 ∧ Checksum u32 Table ≠ 0 ∧
      ∀ w, Checksum (u32.set 0 w) true = Checksum u32 true := by
  refine ⟨Checksum_eq_foldChecksum u32 Table h.2, ?_, ?_, ?_, ?_⟩
  · intro acc hacc
    refine ⟨code_rotate_eq acc hacc, rotateLeft1_lt acc, ?_⟩
    intro j hj
    rw [testBit_rotateLeft1]
    simp [hj]
  · exact or_one_odd _
  · intro h0
    have := or_one_odd (checksumLoop 0 (u32.drop (if Table then 1 else 0)))
    unfold Checksum at h0
    rw [h0] at this
    cases this
  · intro w
    unfold Checksum
    cases u32 with
    | nil => rfl
    | cons a rest => rfl

theorem Checksum_is_fold_witness :
    IsCluster sampleData ∧
      (Checksum sampleData true = foldChecksum sampleData true ∧
        (∀ acc, acc < 2 ^ 32 →
          ((2 * acc) % 2 ^ 32) ||| (acc >>> 31) = rotateLeft1 acc ∧
          rotateLeft1 acc < 2 ^ 32 ∧
          ∀ j, j < 32 → (rotateLeft1 acc).testBit j = acc.testBit ((j + 31) % 32)) ∧
        Checksum sampleData true % 2 = 1 ∧ Checksum sampleData true ≠ 0 ∧
        ∀ w, Checksum (sampleData.set 0 w) true = Checksum sampleData true) :=
  have h : IsCluster sampleData := by decide!
  ⟨h, Checksum_is_fold sampleData true h⟩


theorem rotateLeft1_xor (a b : Nat) :
    rotateLeft1 (a ^^^ b) = rotateLeft1 a ^^^ rotateLeft1 b := by
  apply Nat.eq_of_testBit_eq
  intro j
  simp only [testBit_rotateLeft1, Nat.testBit_xor]
  cases decide (j < 32) <;> simp

theorem rotateLeft1_two_pow (b : Nat) (hb : b < 32) :
    rotateLeft1 (2 ^ b) = 2 ^ ((b + 1) % 32) := by
  apply Nat.eq_of_testBit_eq
  intro j
  simp only [testBit_rotateLeft1, Nat.testBit_two_pow]
  by_cases hj : j < 32
  · by_cases h1 : b = (j + 31) % 32
    · have h2 : (b + 1) % 32 = j := by omega
      rw [h2]
      simp [hj, h1]
    · have h2 : ¬ (b + 1) % 32 = j := by omega
      simp [hj, h1, h2]
  · have h2 : ¬ (b + 1) % 32 = j := by omega
    simp [hj, h2]

theorem iterate_rotateLeft1_two_pow (k : Nat) :
    ∀ b, b < 32 → rotateLeft1^[k] (2 ^ b) = 2 ^ ((b + k) % 32) := by
  induction k with
  | zero =>
    intro b hb
    simp [Nat.mod_eq_of_lt hb]
  | succ k ih =>
    intro b hb
    rw [Function.iterate_succ_apply, rotateLeft1_two_pow b hb, ih _ (Nat.mod_lt _ (by norm_num))]
    congr 1
    omega

theorem rotXorFold_xor (ws : List Nat) :
    ∀ acc δ, rotXorFold (acc ^^^ δ) ws = rotXorFold acc ws ^^^ rotateLeft1^[ws.length] δ := by
  induction ws with
  | nil => intro acc δ; rfl
  | cons w rest ih =>
    intro acc δ
    simp only [rotXorFold, List.foldl_cons, List.length_cons, Function.iterate_succ_apply]
    have e : rotateLeft1 (acc ^^^ δ) ^^^ w = (rotateLeft1 acc ^^^ w) ^^^ rotateLeft1 δ := by
      rw [rotateLeft1_xor, Nat.xor_assoc, Nat.xor_comm (rotateLeft1 δ) w, ← Nat.xor_assoc]
    rw [e]
    exact ih _ _

theorem rotXorFold_set (ws : List Nat) :
    ∀ acc i δ, i < ws.length →
      rotXorFold acc (ws.set i (ws.getD i 0 ^^^ δ))
        = rotXorFold acc ws ^^^ rotateLeft1^[ws.length - 1 - i] δ := by
  induction ws with
  | nil => intro acc i δ hi; simp at hi
  | cons w rest ih =>
    intro acc i δ hi
    cases i with
    | zero =>
      simp only [List.set_cons_zero, List.getD_cons_zero, rotXorFold, List.foldl_cons,
        List.length_cons, Nat.add_sub_cancel, Nat.sub_zero]
      rw [← Nat.xor_assoc]
      exact rotXorFold_xor rest _ _
    | succ i =>
      simp only [List.set_cons_succ, List.getD_cons_succ, rotXorFold, List.foldl_cons,
        List.length_cons]
      have hi2 : i < rest.length := by simpa using hi
      have e : rest.length + 1 - 1 - (i + 1) = rest.length - 1 - i := by omega
      rw [e]
      exact ih _ i δ hi2

theorem xor_two_pow_or_one (A m : Nat) : (A ^^^ 2 ^ m) ||| 1 = A ||| 1 ↔ m = 0 := by
  constructor
  · intro h
    by_contra hm
    have hb := congrArg (fun x => x.testBit m) h
    simp only [Nat.testBit_or, Nat.testBit_xor, Nat.testBit_two_pow_self] at hb
    have h1 : Nat.testBit 1 m = false := by
      have : (1 : Nat) = 2 ^ 0 := rfl
      rw [this, Nat.testBit_two_pow]
      simp
      omega
    rw [h1] at hb
    cases hA : A.testBit m <;> simp [hA] at hb
  · intro hm
    subst hm
    apply Nat.eq_of_testBit_eq
    intro j
    simp only [Nat.testBit_or, Nat.testBit_xor]
    have h1 : Nat.testBit (2 ^ 0) j = decide (0 = j) := Nat.testBit_two_pow
    have h2 : Nat.testBit 1 j = decide (0 = j) := h1
    rw [h1, h2]
    by_cases hj : 0 = j
    · simp [hj]
    · simp [hj]

theorem foldChecksum_flip (u32 : List Nat) (Table : Bool) (i b : Nat)
    (hi : i < u32.length) (hT : Table = true → 1 ≤ i) (hb : b < 32) :
    (foldChecksum (u32.set i (u32.getD i 0 ^^^ 2 ^ b)) Table ≠ foldChecksum u32 Table ↔
      (b + (u32.length - 1 - i)) % 32 ≠ 0) := by
  have key : ∀ ws : List Nat, ∀ k, k < ws.length →
      (rotXorFold 0 (ws.set k (ws.getD k 0 ^^^ 2 ^ b)) ||| 1 ≠ rotXorFold 0 ws ||| 1 ↔
        (b + (ws.length - 1 - k)) % 32 ≠ 0) := by
    intro ws k hk
    rw [rotXorFold_set ws 0 k _ hk, iterate_rotateLeft1_two_pow _ b hb, Ne, Ne,
      xor_two_pow_or_one]
  cases Table with
  | false =>
    simp only [foldChecksum, Bool.false_eq_true, if_false, List.drop_zero]
    exact key u32 i hi
  | true =>
    cases u32 with
    | nil => simp at hi
    | cons w rest =>
      have h1 := hT rfl
      obtain ⟨k, rfl⟩ : ∃ k, i = k + 1 := ⟨i - 1, by omega⟩
      have hk : k < rest.length := by simpa using hi
      simp only [foldChecksum, if_true, List.set_cons_succ, List.getD_cons_succ, List.drop_succ_cons,
        List.drop_zero, List.length_cons]
      have e : rest.length + 1 - 1 - (k + 1) = rest.length - 1 - k := by omega
      rw [e]
      exact key rest k hk

/-- C15, as amended: for every 128-word cluster, either flag, and every bit `b`
of every word `i` of the checksummed region, flipping that bit changes
`Checksum` exactly when `(b + 127 - i) mod 32 ≠ 0`; a flipped bit that the
rotations carry to bit 0 of the accumulator is hidden by the final `| 1`. -/
theorem Checksum_flip_iff (u32 : List Nat) (Table : Bool) (i b : Nat) (h : IsCluster u32)
    (hi : i < 128) (hT : Table = true → 1 ≤ i) (hb : b < 32) :
    (Checksum (u32.set i (u32.getD i 0 ^^^ 2 ^ b)) Table ≠ Checksum u32 Table ↔
      (b + (127 - i)) % 32 ≠ 0) := by
  have hlen : u32.length = 128 := h.1
  have hflip : ∀ w ∈ u32.set i (u32.getD i 0 ^^^ 2 ^ b), w < 2 ^ 32 := by
    intro w hw
    rcases List.mem_or_eq_of_mem_set hw with hw | hw
    · exact h.2 w hw
    · rw [hw]
      apply Nat.xor_lt_two_pow
      · rw [List.getD_eq_getElem _ _ (by omega)]
        exact h.2 _ (List.getElem_mem _)
      · exact Nat.pow_lt_pow_right (by norm_num) hb
  rw [Checksum_eq_foldChecksum _ _ hflip, Checksum_eq_foldChecksum _ _ h.2,
    foldChecksum_flip u32 Table i b (by omega) hT hb, hlen]

theorem Checksum_flip_iff_witness :
    IsCluster sampleData ∧ 5 < 128 ∧ (false = true → 1 ≤ 5) ∧ 3 < 32 ∧
      (Checksum (sampleData.set 5 (sampleData.getD 5 0 ^^^ 2 ^ 3)) false
          ≠ Checksum sampleData false ↔
        (3 + (127 - 5)) % 32 ≠ 0) :=
  have h : IsCluster sampleData := by decide!
  ⟨h, by norm_num, by simp, by norm_num,
    Checksum_flip_iff sampleData false 5 3 h (by norm_num) (by simp) (by norm_num)⟩

/-- C15, as stated, fails: in the cluster of 128 zero words, flipping bit 0 of
word 127 leaves `Checksum(false)` at 1. -/
theorem Checksum_flip_unseen :
    IsCluster zeroCluster ∧ 127 < 128 ∧
      zeroCluster.set 127 (zeroCluster.getD 127 0 ^^^ 2 ^ 0) ≠ zeroCluster ∧
      Checksum (zeroCluster.set 127 (zeroCluster.getD 127 0 ^^^ 2 ^ 0)) false
        = Checksum zeroCluster false := by
  decide!



/-! ## Time stamps (C16) -/

/-- C16: for every raw 64-bit time stamp `t`, `GetTimeStamp` returns, as a
signed 64-bit value, `t / 10000000 - 11644473600` computed in the integers;
it is negative before 1970 and `t = 116444736000000000` gives 0. -/
theorem GetTimeStamp_eq (Entry : FATEntry) (h : Entry.TimeStamp < 2 ^ 64) :
    GetTimeStamp Entry = ((Entry.TimeStamp / 10000000 : Nat) : Int) - 11644473600 ∧
      (Entry.TimeStamp = 116444736000000000 → GetTimeStamp Entry = 0) ∧
      (Entry.TimeStamp < 116444736000000000 → GetTimeStamp Entry < 0) := by
  have main : GetTimeStamp Entry = ((Entry.TimeStamp / 10000000 : Nat) : Int) - 11644473600 := by
    unfold GetTimeStamp toTimeT
    split <;> omega
  refine ⟨main, ?_, ?_⟩
  · intro ht
    rw [main, ht]
    norm_num
  · intro ht
    rw [main]
    omega

theorem GetTimeStamp_eq_witness :
    epochEntry.TimeStamp < 2 ^ 64 ∧
      (GetTimeStamp epochEntry = ((epochEntry.TimeStamp / 10000000 : Nat) : Int) - 11644473600 ∧
        (epochEntry.TimeStamp = 116444736000000000 → GetTimeStamp epochEntry = 0) ∧
        (epochEntry.TimeStamp < 116444736000000000 → GetTimeStamp epochEntry < 0)) :=
  ⟨by decide, GetTimeStamp_eq epochEntry (by decide)⟩

theorem GetTimeStamp_epoch : GetTimeStamp epochEntry = -11644473600 := by
  decide

/-! ## GetEntry and rejected cluster reads (C11) -/

theorem Mount_short :
    Mount sampleLayout sampleEngine (some shortFile) = (true, shortEngine) := by
  decide!

theorem Mount_trunc :
    Mount sampleLayout sampleEngine (some truncFile) = (true, truncEngine) := by
  decide!

/-- C11 fails on the code: `GetEntry` ignores the flag `GetCluster` returns and
scans what `CacheBuffer` already holds.  In the mounted two-cluster container
the root index 2 is out of range, and `GetEntry("a")` returns true with an
entry found in the stale buffer.  In the mounted three-cluster container the
folder `d` points to cluster 3, out of range, and `GetEntry("d/a")` returns
true with the file `a` of the root directory. -/
theorem GetEntry_ignores_rejected_cluster :
    Mount sampleLayout sampleEngine (some shortFile) = (true, shortEngine) ∧
      ¬ (2 < shortEngine.ClusterCount) ∧
      (GetCluster sampleLayout shortEngine 2 shortEngine.CacheBuffer).1 = false ∧
      (GetEntry sampleLayout shortEngine ['a'] epochEntry).map (fun r => (r.found, r.Entry))
        = some (true, sampleEntry) ∧
      Mount sampleLayout sampleEngine (some truncFile) = (true, truncEngine) ∧
      (sampleLayout.FATEntries (refCluster sampleLayout truncFile 2) 1).Name = ['d'] ∧
      (sampleLayout.FATEntries (refCluster sampleLayout truncFile 2) 1).Type_ = EntryType.Folder ∧
      ¬ ((sampleLayout.FATEntries (refCluster sampleLayout truncFile 2) 1).Cluster
          < truncEngine.ClusterCount) ∧
      (GetEntry sampleLayout truncEngine ['d', '/', 'a'] epochEntry).map
          (fun r => (r.found, r.Entry))
        = some (true, sampleEntry) := by
  refine ⟨Mount_short, ?_, ?_, ?_, Mount_trunc, ?_⟩
  · decide
  · decide
  · decide!
  · decide!

/-! ## GetEntry on a path without a name token (C12) -/

/-- C12 fails on the code: for the empty path and for the path `"./"`, `strtok`
yields no token, `CurToken` is null, and in the mounted sample container slot
0 of the root directory is populated, so the loop body is entered and `strcmp`
is called on the null token: `GetEntry` has no defined result. -/
theorem GetEntry_null_token :
    tokens [] = [] ∧ tokens ['.', '/'] = [] ∧
      (sampleLayout.FATEntries (refCluster sampleLayout sampleFile 2) 0).Flags ≠ 0 ∧
      (GetEntry sampleLayout mountedEngine [] epochEntry).isNone = true ∧
      (GetEntry sampleLayout mountedEngine ['.', '/'] epochEntry).isNone = true := by
  decide!

/-! ## The directory walk -/

theorem GetCluster_mounted_keeps (L : Layout) (fs : VirtualFileSystem) (n : Nat)
    (buf : List Nat) (hm : Mounted fs) (hn : n < fs.ClusterCount) :
    (GetCluster L fs n buf).1 = true ∧ Mounted (GetCluster L fs n buf).2.1 ∧
      (GetCluster L fs n buf).2.1.ClusterCount = fs.ClusterCount ∧
      (GetCluster L fs n buf).2.1.FileStream = fs.FileStream := by
  rw [GetCluster_mounted L fs n buf hm hn]
  split
  · split <;> exact ⟨rfl, hm, rfl, rfl⟩
  · split <;> exact ⟨rfl, hm, rfl, rfl⟩

theorem visitSlots_reads_mono (L : Layout) (visit : VirtualFileSystem → Nat → Walk)
    (X : List Nat) (n : Nat) :
    ∀ (i : Nat) (acc : Walk), ∀ p ∈ acc.reads, p ∈ (visitSlots L visit X n i acc).reads := by
  induction n with
  | zero => intro i acc p hp; exact hp
  | succ n ih =>
    intro i acc p hp
    simp only [visitSlots]
    split
    · exact hp
    · split
      · exact ih _ _ p hp
      · split
        · exact ih _ _ p (List.mem_append_left _ hp)
        · exact List.mem_append_left _ hp
      · exact ih _ _ p hp

theorem visitSlots_inner_reads (L : Layout) (visit : VirtualFileSystem → Nat → Walk)
    (X : List Nat) (n i : Nat) (acc : Walk) (hf : (L.FATEntries X i).Flags ≠ 0)
    (hT : (L.FATEntries X i).Type_ = EntryType.Folder) :
    ∀ p ∈ (visit acc.fs (L.FATEntries X i).Cluster).reads,
      p ∈ (visitSlots L visit X (n + 1) i acc).reads := by
  intro p hp
  simp only [visitSlots, hf, if_false, hT]
  split
  · exact visitSlots_reads_mono L visit X n _ _ p (List.mem_append_right _ hp)
  · exact List.mem_append_right _ hp

/-- The populated slots of a cluster from slot `i`, among `n` slots. -/
theorem slots_cons (L : Layout) (X : List Nat) (i n : Nat) :
    ((List.range' i (n + 1)).map (L.FATEntries X)).takeWhile (fun e => e.Flags ≠ 0)
      = if (L.FATEntries X i).Flags = 0 then []
        else L.FATEntries X i ::
          ((List.range' (i + 1) n).map (L.FATEntries X)).takeWhile (fun e => e.Flags ≠ 0) := by
  simp only [List.range', List.map_cons, List.takeWhile_cons]
  by_cases hf : (L.FATEntries X i).Flags = 0
  · simp [hf]
  · simp [hf]

theorem visitSlots_spec (L : Layout) (visit : VirtualFileSystem → Nat → Walk)
    (D : Nat → List Nat) (count d : Nat) (X : List Nat)
    (hvisit : ∀ fs c, Mounted fs → fs.ClusterCount = count →
      treeWithin L D count d c = true → (∀ p ∈ (visit fs c).reads, p.2 = D p.1) →
      (visit fs c).ending = WalkEnd.returned ∧ (visit fs c).calls = trace L D d c ∧
        Mounted (visit fs c).fs ∧ (visit fs c).fs.ClusterCount = count)
    (n : Nat) :
    ∀ (i : Nat) (acc : Walk), acc.ending = WalkEnd.returned → Mounted acc.fs →
      acc.fs.ClusterCount = count →
      (((List.range' i n).map (L.FATEntries X)).takeWhile (fun e => e.Flags ≠ 0)).length < n →
      (∀ e ∈ ((List.range' i n).map (L.FATEntries X)).takeWhile (fun e => e.Flags ≠ 0),
        e.Type_ = EntryType.Folder → treeWithin L D count d e.Cluster = true) →
      (∀ p ∈ (visitSlots L visit X n i acc).reads, p.2 = D p.1) →
      (visitSlots L visit X n i acc).ending = WalkEnd.returned ∧
        (visitSlots L visit X n i acc).calls
          = acc.calls ++ (((List.range' i n).map (L.FATEntries X)).takeWhile
              (fun e => e.Flags ≠ 0)).flatMap (entryCalls (trace L D d)) ∧
        Mounted (visitSlots L visit X n i acc).fs ∧
        (visitSlots L visit X n i acc).fs.ClusterCount = count := by
  induction n with
  | zero =>
    intro i acc _ _ _ hlen
    simp at hlen
  | succ n ih =>
    intro i acc hend hm hcnt hlen htree hreads
    rw [slots_cons] at hlen htree ⊢
    by_cases hf : (L.FATEntries X i).Flags = 0
    · simp only [visitSlots, hf, if_true, List.flatMap_nil, List.append_nil]
      exact ⟨hend, trivial, hm, hcnt⟩
    · rw [if_neg hf] at hlen htree ⊢
      have hlen2 : (((List.range' (i + 1) n).map (L.FATEntries X)).takeWhile
          (fun e => e.Flags ≠ 0)).length < n := by
        simpa using hlen
      have htree2 : ∀ e ∈ ((List.range' (i + 1) n).map (L.FATEntries X)).takeWhile
          (fun e => e.Flags ≠ 0),
          e.Type_ = EntryType.Folder → treeWithin L D count d e.Cluster = true :=
        fun e he => htree e (List.mem_cons_of_mem _ he)
      cases hT : (L.FATEntries X i).Type_ with
      | File =>
        simp only [visitSlots, hf, if_false, hT] at hreads ⊢
        have h := ih (i + 1)
          { acc with calls := acc.calls ++ [Callback.VisitFile (L.FATEntries X i)] }
          hend hm hcnt hlen2 htree2 hreads
        refine ⟨h.1, ?_, h.2.2⟩
        rw [h.2.1, List.flatMap_cons, entryCalls, hT]
        simp
      | Other t =>
        simp only [visitSlots, hf, if_false, hT] at hreads ⊢
        have h := ih (i + 1) acc hend hm hcnt hlen2 htree2 hreads
        refine ⟨h.1, ?_, h.2.2⟩
        rw [h.2.1, List.flatMap_cons, entryCalls, hT]
        simp
      | Folder =>
        have hsub := htree _ (List.mem_cons_self _ _) hT
        have hinner := visitSlots_inner_reads L visit X n i acc hf hT
        have hv := hvisit acc.fs (L.FATEntries X i).Cluster hm hcnt hsub
          (fun p hp => hreads p (hinner p hp))
        simp only [visitSlots, hf, if_false, hT, hv.1, if_true] at hreads ⊢
        have h := ih (i + 1)
          { ending := WalkEnd.returned
            fs := (visit acc.fs (L.FATEntries X i).Cluster).fs
            calls := acc.calls ++ [Callback.VisitFolderBegin (L.FATEntries X i)]
              ++ (visit acc.fs (L.FATEntries X i).Cluster).calls
              ++ [Callback.VisitFolderEnd]
            reads := acc.reads ++ (visit acc.fs (L.FATEntries X i).Cluster).reads }
          rfl hv.2.2.1 hv.2.2.2 hlen2 htree2 hreads
        refine ⟨h.1, ?_, h.2.2⟩
        rw [h.2.1, List.flatMap_cons, entryCalls, hT, hv.2.1]
        simp


theorem treeWithin_succ (L : Layout) (D : Nat → List Nat) (count d c : Nat)
    (h : treeWithin L D count (d + 1) c = true) :
    c < count ∧ (dirSlots L (D c)).length < 64 ∧
      ∀ e ∈ dirSlots L (D c), e.Type_ = EntryType.Folder →
        treeWithin L D count d e.Cluster = true := by
  simp only [treeWithin, Bool.and_eq_true, decide_eq_true_eq, List.all_eq_true,
    Bool.or_eq_true] at h
  refine ⟨h.1.1, h.1.2, ?_⟩
  intro e he hT
  rcases h.2 e he with h1 | h1
  · exact absurd hT h1
  · exact h1

theorem VisitCluster_spec (L : Layout) (D : Nat → List Nat) (count : Nat) (depth : Nat) :
    ∀ (d : Nat) (fs : VirtualFileSystem) (c : Nat), d ≤ depth → Mounted fs →
      fs.ClusterCount = count → treeWithin L D count d c = true →
      (∀ p ∈ (VisitCluster L depth fs c).reads, p.2 = D p.1) →
      (VisitCluster L depth fs c).ending = WalkEnd.returned ∧
        (VisitCluster L depth fs c).calls = trace L D d c ∧
        Mounted (VisitCluster L depth fs c).fs ∧
        (VisitCluster L depth fs c).fs.ClusterCount = count := by
  induction depth with
  | zero =>
    intro d fs c hd _ _ ht
    have hd0 : d = 0 := by omega
    subst hd0
    simp [treeWithin] at ht
  | succ depth ih =>
    intro d fs c hd hm hcnt ht hreads
    cases d with
    | zero => simp [treeWithin] at ht
    | succ d =>
      obtain ⟨hc, hlen, hsub⟩ := treeWithin_succ L D count d c ht
      have hk := GetCluster_mounted_keeps L fs c [] hm (by rw [hcnt]; exact hc)
      have hfb : (GetCluster L fs c []).2.1.FileStream.failbit = false := hk.2.1.2.1
      have hcond : (GetCluster L fs c []).1 = true
          ∧ (GetCluster L fs c []).2.1.FileStream.failbit = false := ⟨hk.1, hfb⟩
      simp only [VisitCluster, hcond, and_self, if_true] at hreads ⊢
      have hX : (GetCluster L fs c []).2.2 = D c :=
        hreads _ (visitSlots_reads_mono L _ _ 64 0 _ _ (List.mem_singleton_self _))
      rw [hX] at hreads ⊢
      have hs := visitSlots_spec L (VisitCluster L depth) D count d (D c)
        (fun fs' c' hm' hc' ht' hr' => ih d fs' c' (by omega) hm' hc' ht' hr')
        64 0
        { ending := WalkEnd.returned
          fs := (GetCluster L fs c []).2.1
          calls := []
          reads := [(c, D c)] }
        rfl hk.2.1 (by rw [hk.2.2.1]; exact hcnt)
        (by rw [← List.range_eq_range']; exact hlen)
        (by rw [← List.range_eq_range']; exact hsub)
        hreads
      refine ⟨hs.1, ?_, hs.2.2⟩
      rw [hs.2.1, ← List.range_eq_range']
      rfl

/-! ## The clusters the walk reads -/

theorem GetCluster_first_table (L : Layout) (fs : VirtualFileSystem) (c : Nat) (buf : List Nat)
    (hm : Mounted fs) (hj : FirstTableCoherent fs) (hc : c < fs.ClusterCount) (h512 : c < 512) :
    (GetCluster L fs c buf).2.2 = refCluster L fs.FileStream.data c ∧
      FirstTableCoherent (GetCluster L fs c buf).2.1 := by
  have hmod : c % 512 = c := Nat.mod_eq_of_lt h512
  rw [GetCluster_mounted L fs c buf hm hc, refCluster, hmod, Nat.sub_self]
  by_cases h0 : c = 0
  · subst h0
    simp only [ne_eq, not_true_eq_false, if_false, if_true]
    by_cases hn : 0 = fs.CacheTableNum
    · rw [if_pos hn]
      exact ⟨hj hn.symm, hj⟩
    · rw [if_neg hn]
      exact ⟨rfl, fun _ => rfl⟩
  · simp only [ne_eq, h0, not_false_eq_true, if_true, if_false]
    by_cases hn : fs.CacheTableNum = 0
    · rw [if_pos hn]
      refine ⟨?_, hj⟩
      rw [hj hn]
    · rw [if_neg hn]
      exact ⟨rfl, fun h => absurd h hn⟩

theorem treeWithin_mono (L : Layout) (D : Nat → List Nat) (count count2 : Nat)
    (hle : count ≤ count2) :
    ∀ d c, treeWithin L D count d c = true → treeWithin L D count2 d c = true := by
  intro d
  induction d with
  | zero => intro c h; simp [treeWithin] at h
  | succ d ih =>
    intro c h
    simp only [treeWithin, Bool.and_eq_true, decide_eq_true_eq, List.all_eq_true,
      Bool.or_eq_true] at h ⊢
    refine ⟨⟨lt_of_lt_of_le h.1.1 hle, h.1.2⟩, ?_⟩
    intro e he
    rcases h.2 e he with h1 | h1
    · exact Or.inl h1
    · exact Or.inr (ih _ h1)

theorem visitSlots_invariant (L : Layout) (visit : VirtualFileSystem → Nat → Walk)
    (Good : VirtualFileSystem → Prop) (Ok : Nat × List Nat → Prop) (T : Nat → Prop)
    (X : List Nat)
    (hvisit : ∀ fs c, Good fs → T c →
      (∀ p ∈ (visit fs c).reads, Ok p) ∧ Good (visit fs c).fs)
    (n : Nat) :
    ∀ (i : Nat) (acc : Walk), Good acc.fs →
      (∀ e ∈ ((List.range' i n).map (L.FATEntries X)).takeWhile (fun e => e.Flags ≠ 0),
        e.Type_ = EntryType.Folder → T e.Cluster) →
      (∀ p ∈ acc.reads, Ok p) →
      (∀ p ∈ (visitSlots L visit X n i acc).reads, Ok p) ∧
        Good (visitSlots L visit X n i acc).fs := by
  induction n with
  | zero =>
    intro i acc hg _ hr
    exact ⟨hr, hg⟩
  | succ n ih =>
    intro i acc hg htree hr
    rw [slots_cons] at htree
    by_cases hf : (L.FATEntries X i).Flags = 0
    · simp only [visitSlots, hf, if_true]
      exact ⟨hr, hg⟩
    · rw [if_neg hf] at htree
      have htree2 : ∀ e ∈ ((List.range' (i + 1) n).map (L.FATEntries X)).takeWhile
          (fun e => e.Flags ≠ 0), e.Type_ = EntryType.Folder → T e.Cluster :=
        fun e he => htree e (List.mem_cons_of_mem _ he)
      cases hT : (L.FATEntries X i).Type_ with
      | File =>
        simp only [visitSlots, hf, if_false, hT]
        exact ih (i + 1)
          { acc with calls := acc.calls ++ [Callback.VisitFile (L.FATEntries X i)] }
          hg htree2 hr
      | Other t =>
        simp only [visitSlots, hf, if_false, hT]
        exact ih (i + 1) acc hg htree2 hr
      | Folder =>
        have hv := hvisit acc.fs (L.FATEntries X i).Cluster hg
          (htree _ (List.mem_cons_self _ _) hT)
        have hr2 : ∀ p ∈ acc.reads ++ (visit acc.fs (L.FATEntries X i).Cluster).reads,
            Ok p := by
          intro p hp
          rcases List.mem_append.mp hp with h | h
          · exact hr p h
          · exact hv.1 p h
        simp only [visitSlots, hf, if_false, hT]
        split
        · exact ih (i + 1)
            { ending := WalkEnd.returned
              fs := (visit acc.fs (L.FATEntries X i).Cluster).fs
              calls := acc.calls ++ [Callback.VisitFolderBegin (L.FATEntries X i)]
                ++ (visit acc.fs (L.FATEntries X i).Cluster).calls
                ++ [Callback.VisitFolderEnd]
              reads := acc.reads ++ (visit acc.fs (L.FATEntries X i).Cluster).reads }
            hv.2 htree2 hr2
        · exact ⟨hr2, hv.2⟩

theorem VisitCluster_reads_ref (L : Layout) (bytes : List Nat) (count : Nat) (depth : Nat) :
    ∀ (d : Nat) (fs : VirtualFileSystem) (c : Nat),
      (Mounted fs ∧ FirstTableCoherent fs ∧ fs.FileStream.data = bytes ∧
        fs.ClusterCount = count) →
      treeWithin L (refCluster L bytes) (min count 512) d c = true →
      (∀ p ∈ (VisitCluster L depth fs c).reads, p.2 = refCluster L bytes p.1) ∧
        (Mounted (VisitCluster L depth fs c).fs ∧
          FirstTableCoherent (VisitCluster L depth fs c).fs ∧
          (VisitCluster L depth fs c).fs.FileStream.data = bytes ∧
          (VisitCluster L depth fs c).fs.ClusterCount = count) := by
  induction depth with
  | zero =>
    intro d fs c hg _
    simp only [VisitCluster]
    exact ⟨fun p hp => absurd hp (List.not_mem_nil p), hg⟩
  | succ depth ih =>
    intro d fs c hg ht
    obtain ⟨hm, hj, hb, hcnt⟩ := hg
    cases d with
    | zero => simp [treeWithin] at ht
    | succ d =>
      obtain ⟨hc, _, hsub⟩ := treeWithin_succ L _ _ d c ht
      have hc1 : c < fs.ClusterCount := by
        rw [hcnt]; exact lt_of_lt_of_le hc (Nat.min_le_left _ _)
      have hc2 : c < 512 := lt_of_lt_of_le hc (Nat.min_le_right _ _)
      have hk := GetCluster_mounted_keeps L fs c [] hm hc1
      have hg1 := GetCluster_first_table L fs c [] hm hj hc1 hc2
      have hfb : (GetCluster L fs c []).2.1.FileStream.failbit = false := hk.2.1.2.1
      have hcond : (GetCluster L fs c []).1 = true
          ∧ (GetCluster L fs c []).2.1.FileStream.failbit = false := ⟨hk.1, hfb⟩
      have hb1 : (GetCluster L fs c []).2.1.FileStream.data = bytes := by rw [hk.2.2.2, hb]
      simp only [VisitCluster, hcond, and_self, if_true]
      rw [hg1.1, hb]
      exact visitSlots_invariant L (VisitCluster L depth)
        (fun s => Mounted s ∧ FirstTableCoherent s ∧ s.FileStream.data = bytes ∧
          s.ClusterCount = count)
        (fun p => p.2 = refCluster L bytes p.1)
        (fun c' => treeWithin L (refCluster L bytes) (min count 512) d c' = true)
        (refCluster L bytes c)
        (fun fs' c' hg' ht' => ih d fs' c' hg' ht')
        64 0
        { ending := WalkEnd.returned
          fs := (GetCluster L fs c []).2.1
          calls := []
          reads := [(c, refCluster L bytes c)] }
        ⟨hk.2.1, hg1.2, hb1, by rw [hk.2.2.1, hcnt]⟩
        (by
          rw [← List.range_eq_range']
          exact hsub)
        (by
          intro p hp
          rw [List.mem_singleton] at hp
          subst hp
          rfl)

theorem Iterate_walk_spec (L : Layout) (fs : VirtualFileSystem) (d depth : Nat)
    (hm : Mounted fs) (hj : FirstTableCoherent fs) (hd : d ≤ depth)
    (htree : treeWithin L (refCluster L fs.FileStream.data) (min fs.ClusterCount 512) d 2
      = true) :
    (Iterate L depth fs).ending = WalkEnd.returned ∧
      (Iterate L depth fs).calls = trace L (refCluster L fs.FileStream.data) d 2 := by
  have hgood : fs.FileStream.good = true := by
    simp only [IfStream.good, hm.2.1, Bool.not_false]
  have hr := (VisitCluster_reads_ref L fs.FileStream.data fs.ClusterCount depth d fs 2
    ⟨hm, hj, rfl, rfl⟩ htree).1
  have ht2 := treeWithin_mono L (refCluster L fs.FileStream.data) _ fs.ClusterCount
    (Nat.min_le_left _ _) d 2 htree
  unfold Iterate
  rw [if_pos hgood]
  have h := VisitCluster_spec L (refCluster L fs.FileStream.data) fs.ClusterCount depth d fs 2
    hd hm rfl ht2 hr
  exact ⟨h.1, h.2.1⟩

/-! ## The callbacks of Iterate -/

/-- For a mounted engine whose cache serves the first table, when the folder
entries reachable from cluster 2 form a tree of depth at most `d` over the
decrypted clusters of the file, each directory cluster lying below index 512
and having a zero-flags slot, `Iterate` returns and its sequence of visitor
callbacks is `trace(2)`, for every recursion budget from `d` on. -/
theorem Iterate_calls_eq_trace (L : Layout) (fs : VirtualFileSystem) (d depth : Nat)
    (hm : Mounted fs) (hj : FirstTableCoherent fs) (hd : d ≤ depth)
    (htree : treeWithin L (refCluster L fs.FileStream.data) (min fs.ClusterCount 512) d 2
      = true) :
    (Iterate L depth fs).ending = WalkEnd.returned ∧
      (Iterate L depth fs).calls = trace L (refCluster L fs.FileStream.data) d 2 :=
  Iterate_walk_spec L fs d depth hm hj hd htree

theorem mountedEngine_firstTable : FirstTableCoherent mountedEngine := by
  intro _
  decide!

theorem treeWithin_sample :
    treeWithin sampleLayout (refCluster sampleLayout mountedEngine.FileStream.data)
      (min mountedEngine.ClusterCount 512) 2 2 = true := by
  decide!

theorem Iterate_calls_eq_trace_witness :
    Mounted mountedEngine ∧ FirstTableCoherent mountedEngine ∧ 2 ≤ 2 ∧
      treeWithin sampleLayout (refCluster sampleLayout mountedEngine.FileStream.data)
        (min mountedEngine.ClusterCount 512) 2 2 = true ∧
      ((Iterate sampleLayout 2 mountedEngine).ending = WalkEnd.returned ∧
        (Iterate sampleLayout 2 mountedEngine).calls
          = trace sampleLayout (refCluster sampleLayout mountedEngine.FileStream.data) 2 2) :=
  ⟨mountedEngine_mounted, mountedEngine_firstTable, le_refl 2, treeWithin_sample,
    Iterate_calls_eq_trace sampleLayout mountedEngine 2 2 mountedEngine_mounted
      mountedEngine_firstTable (le_refl 2) treeWithin_sample⟩

theorem Iterate_sample_calls :
    (Iterate sampleLayout 2 mountedEngine).calls
      = [Callback.VisitFile ⟨1, ['a'], EntryType.File, 1, 512, 0⟩,
          Callback.VisitFolderBegin ⟨1, ['d'], EntryType.Folder, 3, 0, 0⟩,
          Callback.VisitFile ⟨1, ['b'], EntryType.File, 1, 512, 0⟩,
          Callback.VisitFolderEnd] := by
  decide!


theorem entryCalls_empty_folder (L : Layout) (D : Nat → List Nat) (d : Nat) (e : FATEntry)
    (hT : e.Type_ = EntryType.Folder) (hempty : dirSlots L (D e.Cluster) = []) :
    entryCalls (trace L D (d + 1)) e
      = [Callback.VisitFolderBegin e, Callback.VisitFolderEnd] := by
  simp [entryCalls, hT, trace, hempty]

/-! ## Termination of Iterate (C18) -/

theorem visitSlots_folder_stuck (L : Layout) (visit : VirtualFileSystem → Nat → Walk)
    (X : List Nat) (n i : Nat) (acc : Walk) (hf : (L.FATEntries X i).Flags ≠ 0)
    (hT : (L.FATEntries X i).Type_ = EntryType.Folder)
    (hv : (visit acc.fs (L.FATEntries X i).Cluster).ending ≠ WalkEnd.returned) :
    (visitSlots L visit X (n + 1) i acc).ending
      = (visit acc.fs (L.FATEntries X i).Cluster).ending := by
  simp only [visitSlots, hf, if_false, hT]
  rw [if_neg hv]

theorem rawCluster_bigFile_0 : rawCluster bigFile 0 = List.replicate 128 0 := by
  have h : ((bigFile.drop (0 * ClusterSize)).take ClusterSize) = List.replicate 512 0 := by
    rw [bigFile, Nat.zero_mul, List.drop_zero, ClusterSize,
      List.take_append_of_le_length (by rw [List.length_replicate]; norm_num),
      List.take_replicate]
    rfl
  rw [rawCluster, h]
  decide!

theorem rawCluster_bigFile_512 : rawCluster bigFile 512 = 1 :: List.replicate 127 0 := by
  have h : ((bigFile.drop (512 * ClusterSize)).take ClusterSize) = 1 :: List.replicate 511 0 := by
    rw [bigFile, ClusterSize, List.drop_left' (by rw [List.length_replicate])]
    decide!
  rw [rawCluster, h]
  decide!

theorem bigEngine_mounted : Mounted bigEngine := by
  unfold Mounted
  simp only [bigEngine]
  refine ⟨trivial, trivial, ?_, ?_⟩
  · rw [bigFile, List.length_append, List.length_replicate, List.length_cons,
      List.length_replicate, ClusterSize]
  · rw [ClusterSize]; norm_num

theorem bigEngine_coherent : CacheCoherent bigEngine := by
  unfold CacheCoherent
  simp only [bigEngine]

theorem decryptTable_bigFile_ne :
    DecryptTable 0 (rawCluster bigFile 0) ≠ DecryptTable 512 (rawCluster bigFile 512) := by
  rw [rawCluster_bigFile_0, rawCluster_bigFile_512]
  decide!

/-- C17 fails on the code: the data-cluster cache miss stores the table of the
requested cluster in `CacheTable` and leaves `CacheTableNum` as it was.  On a
file of 513 clusters with the cache holding table cluster 512, the invariant
holds before `GetCluster(1)`; after it `CacheTableNum` is still 512 and
`CacheTable` is the decrypted table cluster 0, so the invariant is broken. -/
theorem GetCluster_breaks_cache_invariant :
    CacheCoherent bigEngine ∧ 1 < bigEngine.ClusterCount ∧
      (GetCluster sampleLayout bigEngine 1 zeroCluster).1 = true ∧
      (GetCluster sampleLayout bigEngine 1 zeroCluster).2.1.CacheTableNum = 512 ∧
      (GetCluster sampleLayout bigEngine 1 zeroCluster).2.1.CacheTable
        = DecryptTable 0 (rawCluster bigFile 0) ∧
      ¬ CacheCoherent (GetCluster sampleLayout bigEngine 1 zeroCluster).2.1 := by
  have hn : 1 < bigEngine.ClusterCount := by
    simp only [bigEngine]; norm_num
  have hd : 1 % 512 ≠ 0 := by norm_num
  have hc : bigEngine.CacheTableNum ≠ 1 - 1 % 512 := by
    simp only [bigEngine]; norm_num
  have hs := GetCluster_data_miss_state sampleLayout bigEngine 1 zeroCluster
    bigEngine_mounted hn hd hc
  have hk := GetCluster_mounted_keeps sampleLayout bigEngine 1 zeroCluster bigEngine_mounted hn
  have hnum : (GetCluster sampleLayout bigEngine 1 zeroCluster).2.1.CacheTableNum = 512 := by
    rw [hs.1]; simp only [bigEngine]
  have htab : (GetCluster sampleLayout bigEngine 1 zeroCluster).2.1.CacheTable
      = DecryptTable 0 (rawCluster bigFile 0) := by
    rw [hs.2, refTable]; simp only [bigEngine]
  have hdat : (GetCluster sampleLayout bigEngine 1 zeroCluster).2.1.FileStream.data = bigFile := by
    rw [hk.2.2.2]; simp only [bigEngine]
  refine ⟨bigEngine_coherent, hn, hk.1, hnum, htab, ?_⟩
  unfold CacheCoherent
  rw [hnum, htab, hdat]
  exact decryptTable_bigFile_ne

/-! ## The slot loop of VisitCluster (C19) -/

theorem Mount_full :
    Mount denseLayout sampleEngine (some fullFile) = (true, fullEngine) := by
  decide!

/-- C19 fails on the code: the slot loop of `VisitCluster` has no bound.  In the
mounted container whose root directory has nonzero flags in all 64 slots,
`Iterate` makes 64 `VisitFile` callbacks and then reads `FATEntries[64]`, past
the end of the cluster, while the scan of `GetEntry` over the same cluster
ends after slot 63. -/
theorem VisitCluster_reads_slot_64 :
    Mount denseLayout sampleEngine (some fullFile) = (true, fullEngine) ∧
      refCluster denseLayout fullFile 2 = fullRoot ∧
      (∀ i, i < 64 → (denseLayout.FATEntries fullRoot i).Flags ≠ 0) ∧
      (Iterate denseLayout 1 fullEngine).ending = WalkEnd.overrun ∧
      (Iterate denseLayout 1 fullEngine).calls.length = 64 ∧
      (Iterate denseLayout 9 fullEngine).ending = WalkEnd.overrun ∧
      scanSlots denseLayout fullRoot ['b'] 64 0 = none ∧
      (GetEntry denseLayout fullEngine ['b'] epochEntry).map (fun r => r.found) = some false := by
  refine ⟨Mount_full, ?_, ?_, ?_, ?_, ?_, ?_, ?_⟩ <;> decide!

/-! ## Mount and the earlier engine state (C20) -/

/-- C20 fails on the code: `Mount` never resets `CacheTableNum`, so its first
`GetCluster(0)` can answer from the table cached before.  The file whose table
cluster is zeroed is refused by the engine whose cached index is 1 and
accepted by the engine that mounted the sample container; the sample
container itself is accepted by the former and refused by an engine whose
cached index is 0 over a zero table. -/
theorem Mount_depends_on_prior_state :
    Mount sampleLayout sampleEngine (some sampleFile) = (true, mountedEngine) ∧
      (Mount sampleLayout sampleEngine (some staleFile)).1 = false ∧
      (Mount sampleLayout mountedEngine (some staleFile)).1 = true ∧
      (Mount sampleLayout zeroNumEngine (some sampleFile)).1 = false := by
  refine ⟨Mount_sample, ?_, ?_, ?_⟩ <;> decide!

/-! ## The name GetEntry returns (C21) -/

theorem tokensFrom_clean :
    ∀ (Path cur : List Char), '.' ∉ cur → '/' ∉ cur →
      ∀ t ∈ tokensFrom Path cur, t ≠ [] ∧ '.' ∉ t ∧ '/' ∉ t := by
  intro Path
  induction Path with
  | nil =>
    intro cur h1 h2 t ht
    unfold tokensFrom at ht
    by_cases hc : cur = []
    · simp [hc] at ht
    · simp only [hc, if_false, List.mem_singleton] at ht
      subst ht
      refine ⟨?_, ?_, ?_⟩
      · simpa using hc
      · simpa using h1
      · simpa using h2
  | cons c rest ih =>
    intro cur h1 h2 t ht
    unfold tokensFrom at ht
    by_cases hd : c = '.' ∨ c = '/'
    · rw [if_pos hd] at ht
      by_cases hc : cur = []
      · rw [if_pos hc] at ht
        exact ih [] (by simp) (by simp) t ht
      · rw [if_neg hc, List.mem_cons] at ht
        rcases ht with ht | ht
        · subst ht
          refine ⟨?_, ?_, ?_⟩
          · simpa using hc
          · simpa using h1
          · simpa using h2
        · exact ih [] (by simp) (by simp) t ht
    · rw [if_neg hd] at ht
      have hd1 : ¬ '.' = c := fun h => hd (Or.inl h.symm)
      have hd2 : ¬ '/' = c := fun h => hd (Or.inr h.symm)
      exact ih (c :: cur) (by simp [hd1, h1]) (by simp [hd2, h2]) t ht

theorem tokens_clean (Path : List Char) :
    ∀ t ∈ tokens Path, t ≠ [] ∧ '.' ∉ t ∧ '/' ∉ t :=
  tokensFrom_clean Path [] (by simp) (by simp)

theorem scanSlots_some_name (L : Layout) (u32 : List Nat) (tok : List Char) (n : Nat) :
    ∀ i k, scanSlots L u32 tok n i = some k → (L.FATEntries u32 k).Name = tok := by
  induction n with
  | zero => intro i k h; simp [scanSlots] at h
  | succ n ih =>
    intro i k h
    unfold scanSlots at h
    by_cases hf : (L.FATEntries u32 i).Flags = 0
    · simp [hf] at h
    · rw [if_neg hf] at h
      by_cases hn : tok = (L.FATEntries u32 i).Name
      · rw [if_pos hn] at h
        cases h
        exact hn.symm
      · rw [if_neg hn] at h
        exact ih (i + 1) k h

theorem getEntryLoop_found_name (L : Layout) (Entry : FATEntry) (later : List (List Char)) :
    ∀ (tok : List Char) (fs : VirtualFileSystem) (reads : List (Nat × List Nat)),
      (getEntryLoop L Entry later tok fs reads).found = true →
      (tok :: later).getLast? = some (getEntryLoop L Entry later tok fs reads).Entry.Name := by
  induction later with
  | nil =>
    intro tok fs reads h
    unfold getEntryLoop at h ⊢
    cases hs : scanSlots L fs.CacheBuffer tok 64 0 with
    | none => simp [hs] at h
    | some k =>
      simp only [hs]
      rw [scanSlots_some_name L _ tok 64 0 k hs]
      rfl
  | cons next later1 ih =>
    intro tok fs reads h
    unfold getEntryLoop at h ⊢
    cases hs : scanSlots L fs.CacheBuffer tok 64 0 with
    | none => simp [hs] at h
    | some k =>
      simp only [hs] at h ⊢
      by_cases hty : (L.FATEntries fs.CacheBuffer k).Type_ = EntryType.Folder
      · simp only [hty, ne_eq, not_true_eq_false, if_false] at h ⊢
        rw [List.getLast?_cons_cons]
        exact ih next _ _ h
      · simp [hty] at h

/-- C21: whenever `GetEntry` returns true, in any engine state and for any
path, the name of the returned entry is the last name token of the path; it
is therefore non-empty and contains neither `.` nor `/`, so an entry whose
name contains one of them is never returned. -/
theorem GetEntry_name_is_last_token (L : Layout) (fs : VirtualFileSystem) (Path : List Char)
    (Entry : FATEntry) (r : EntryResult) (hr : GetEntry L fs Path Entry = some r)
    (hf : r.found = true) :
    (tokens Path).getLast? = some r.Entry.Name ∧
      r.Entry.Name ≠ [] ∧ '.' ∉ r.Entry.Name ∧ '/' ∉ r.Entry.Name := by
  have hlast : (tokens Path).getLast? = some r.Entry.Name := by
    unfold GetEntry at hr
    by_cases hgood : fs.FileStream.good = true
    · rw [if_pos hgood] at hr
      cases htk : tokens Path with
      | nil =>
        simp only [htk] at hr
        by_cases h0 : (L.FATEntries (GetClusterBuf L fs 2).2.CacheBuffer 0).Flags ≠ 0
        · rw [if_pos h0] at hr
          cases hr
        · rw [if_neg h0] at hr
          cases hr
          cases hf
      | cons tok later =>
        simp only [htk] at hr
        cases hr
        exact getEntryLoop_found_name L Entry later tok _ _ hf
    · rw [if_neg hgood] at hr
      cases hr
      cases hf
  exact ⟨hlast, tokens_clean Path _ (List.mem_of_getLast?_eq_some hlast)⟩

theorem GetEntry_sample_flag :
    (GetEntry sampleLayout mountedEngine ['d', '/', 'b'] sampleEntry).map (fun r => r.found)
      = some true := by
  decide!

theorem GetEntry_name_is_last_token_witness :
    ∃ r, GetEntry sampleLayout mountedEngine ['d', '/', 'b'] sampleEntry = some r ∧
      r.found = true ∧
      ((tokens ['d', '/', 'b']).getLast? = some r.Entry.Name ∧
        r.Entry.Name ≠ [] ∧ '.' ∉ r.Entry.Name ∧ '/' ∉ r.Entry.Name) := by
  obtain ⟨r, hr, hf⟩ := Option.map_eq_some'.mp GetEntry_sample_flag
  exact ⟨r, hr, hf,
    GetEntry_name_is_last_token sampleLayout mountedEngine ['d', '/', 'b'] sampleEntry r hr hf⟩

/-! ## A container of more than 512 clusters -/

theorem clusterFile_length (f : Nat → List Nat) (hf : ∀ i, (f i).length = ClusterSize) :
    ∀ n, (clusterFile f n).length = n * ClusterSize := by
  intro n
  induction n with
  | zero => simp [clusterFile]
  | succ n ih => rw [clusterFile, List.length_append, ih, hf, Nat.succ_mul]

theorem clusterFile_cluster (f : Nat → List Nat) (hf : ∀ i, (f i).length = ClusterSize) :
    ∀ n i, i < n → ((clusterFile f n).drop (i * ClusterSize)).take ClusterSize = f i := by
  intro n
  induction n with
  | zero => intro i hi; omega
  | succ n ih =>
    intro i hi
    rw [clusterFile]
    rcases Nat.lt_succ_iff_lt_or_eq.mp hi with h | h
    · have hle : i * ClusterSize ≤ (clusterFile f n).length := by
        rw [clusterFile_length f hf]
        exact Nat.mul_le_mul_right _ (Nat.le_of_lt h)
      rw [List.drop_append_of_le_length hle]
      have hlen : ClusterSize ≤ ((clusterFile f n).drop (i * ClusterSize)).length := by
        rw [List.length_drop, clusterFile_length f hf, ← Nat.sub_mul]
        have : 1 ≤ n - i := by omega
        calc ClusterSize = 1 * ClusterSize := (Nat.one_mul _).symm
          _ ≤ (n - i) * ClusterSize := Nat.mul_le_mul_right _ this
      rw [List.take_append_of_le_length hlen]
      exact ih i h
    · subst h
      rw [List.drop_left' (clusterFile_length f hf i)]
      exact List.take_of_length_le (le_of_eq (hf i))

theorem rawCluster_clusterFile (f : Nat → List Nat) (hf : ∀ i, (f i).length = ClusterSize)
    (n i : Nat) (hi : i < n) : rawCluster (clusterFile f n) i = bytesToWords (f i) := by
  rw [rawCluster, clusterFile_cluster f hf n i hi]

theorem deepCluster_length (i : Nat) : (deepCluster i).length = ClusterSize := by
  unfold deepCluster
  split
  · decide!
  · split
    · decide!
    · split
      · decide!
      · split
        · decide!
        · decide!

theorem deepFile_length : deepFile.length = 514 * ClusterSize :=
  clusterFile_length deepCluster deepCluster_length 514

theorem rawCluster_deepFile (i : Nat) (hi : i < 514) :
    rawCluster deepFile i = bytesToWords (deepCluster i) :=
  rawCluster_clusterFile deepCluster deepCluster_length 514 i hi

theorem refTable_deepFile_0 : refTable deepFile 0 = deepTable := by
  rw [refTable, rawCluster_deepFile 0 (by norm_num)]
  decide!

theorem refTable_deepFile_512 : refTable deepFile 512 = deepTable2 := by
  rw [refTable, rawCluster_deepFile 512 (by norm_num)]
  decide!

theorem deepTable_record (i : Nat) (h64 : i % 64 ≠ 0) :
    wrapLayout.Checksum deepTable i = Checksum deepRoot false := by
  have h : ∀ k, k < 64 → k ≠ 0 → deepTable.getD (2 * k) 0 = Checksum deepRoot false := by
    decide!
  exact h (i % 64) (Nat.mod_lt _ (by norm_num)) h64

theorem deepTable_record_pad (i : Nat) (h64 : i % 64 = 0) :
    wrapLayout.Checksum deepTable i = Checksum deepPad false := by
  show deepTable.getD (2 * (i % 64)) 0 = Checksum deepPad false
  rw [h64]
  decide!


theorem rawCluster_deepFile_data (i : Nat) (hi : i < 512) (h64 : i % 64 ≠ 0) :
    rawCluster deepFile i
      = bytesToWords (wordsToBytes (encryptData (Checksum deepRoot false) deepRoot)) := by
  have h0 : i ≠ 0 := by omega
  have h1 : i ≠ 512 := by omega
  have h2 : i ≠ 513 := by omega
  rw [rawCluster_deepFile i (by omega), deepCluster, if_neg h0, if_neg h1, if_neg h2, if_neg h64]

theorem rawCluster_deepFile_pad (i : Nat) (hi : i < 512) (h0 : i ≠ 0) (h64 : i % 64 = 0) :
    rawCluster deepFile i
      = bytesToWords (wordsToBytes (encryptData (Checksum deepPad false) deepPad)) := by
  have h1 : i ≠ 512 := by omega
  have h2 : i ≠ 513 := by omega
  rw [rawCluster_deepFile i (by omega), deepCluster, if_neg h0, if_neg h1, if_neg h2, if_pos h64]

theorem deepFile_verified (i : Nat) (hi : i < 514) : ClusterVerified wrapLayout deepFile i := by
  unfold ClusterVerified
  by_cases h512 : i < 512
  · by_cases h0 : i = 0
    · subst h0
      refine ⟨fun h => absurd rfl h, fun _ => ?_⟩
      rw [refTable_deepFile_0]
      decide!
    · have hmod : i % 512 = i := Nat.mod_eq_of_lt h512
      refine ⟨fun _ => ?_, fun h => absurd (hmod ▸ h) h0⟩
      rw [hmod, Nat.sub_self, refTable_deepFile_0]
      by_cases h64 : i % 64 = 0
      · rw [rawCluster_deepFile_pad i h512 h0 h64]
        rw [deepTable_record_pad i h64]
        decide!
      · rw [rawCluster_deepFile_data i h512 h64]
        rw [deepTable_record i h64]
        decide!
  · have hi2 : i = 512 ∨ i = 513 := by omega
    rcases hi2 with rfl | rfl
    · refine ⟨fun h => absurd rfl h, fun _ => ?_⟩
      rw [refTable_deepFile_512]
      decide!
    · refine ⟨fun _ => ?_, fun h => absurd h (by norm_num)⟩
      have e1 : 513 - 513 % 512 = 512 := by norm_num
      have e2 : 513 % 512 = 1 := by norm_num
      rw [e1, e2, refTable_deepFile_512, rawCluster_deepFile 513 (by norm_num)]
      decide!

theorem Mount_deepFile_true : (Mount wrapLayout sampleEngine (some deepFile)).1 = true := by
  have hlen : deepFile.length = 263168 := by rw [deepFile_length, ClusterSize]
  rw [Mount_true_iff_verified wrapLayout sampleEngine deepFile (by rw [hlen]; norm_num)
    (opens_sampleEngine deepFile)
    (by
      intro t ht h0
      rw [hlen] at ht
      simp only [sampleEngine]
      omega)]
  rw [hlen]
  refine ⟨by norm_num, fun i hi => deepFile_verified i (by omega)⟩


/-! ## The engine a successful Mount leaves -/

theorem mountLoop_step (L : Layout) (n i : Nat) (fs : VirtualFileSystem) (hm : Mounted fs)
    (hcnt : i + (n + 1) = fs.ClusterCount)
    (hfut : ∀ t, i ≤ t → t < fs.ClusterCount → t % 512 = 0 → fs.CacheTableNum ≠ t)
    (hcur : i % 512 ≠ 0 → fs.CacheTableNum = i - i % 512 ∧
      fs.CacheTable = refTable fs.FileStream.data (i - i % 512))
    (h : (mountLoop L (n + 1) i fs).1 = true) :
    ∃ fs1, mountLoop L (n + 1) i fs = mountLoop L n (i + 1) fs1 ∧ Mounted fs1 ∧
      fs1.FileStream = fs.FileStream ∧ fs1.ClusterCount = fs.ClusterCount ∧
      fs1.CacheTableNum = i - i % 512 ∧
      fs1.CacheTable = refTable fs.FileStream.data (i - i % 512) := by
  have hi : i < fs.ClusterCount := by omega
  by_cases hd : i % 512 = 0
  · have hne : i ≠ fs.CacheTableNum := fun e => hfut i (le_refl _) hi hd e.symm
    have hsub : i - i % 512 = i := by omega
    simp only [mountLoop, GetClusterBuf_table_miss L fs i hm hi hd hne, and_0x1FF, hd, ne_eq,
      not_true_eq_false, if_false] at h ⊢
    by_cases hck : L.Checksum (refTable fs.FileStream.data i) 0
        = Checksum (refTable fs.FileStream.data i) true
    · simp only [hck, not_true_eq_false, if_false] at h ⊢
      refine ⟨_, rfl, hm, rfl, rfl, ?_, ?_⟩
      · simp
      · simp
    · simp [hck] at h
  · obtain ⟨hc1, hc2⟩ := hcur hd
    simp only [mountLoop, GetClusterBuf_data_hit L fs i hm hi hd hc1, and_0x1FF, hd, ne_eq,
      not_false_eq_true, if_true] at h ⊢
    by_cases hck : L.Checksum fs.CacheTable (i % 512)
        = Checksum (DecryptData (L.Checksum fs.CacheTable (i % 512))
            (rawCluster fs.FileStream.data i)) false
    · simp only [hck.symm, not_true_eq_false, if_false] at h ⊢
      exact ⟨_, rfl, hm, rfl, rfl, hc1, hc2⟩
    · rw [if_pos hck] at h
      simp at h

theorem mountLoop_true_state (L : Layout) (n : Nat) :
    ∀ (i : Nat) (fs : VirtualFileSystem), Mounted fs → i + (n + 1) = fs.ClusterCount →
      (∀ t, i ≤ t → t < fs.ClusterCount → t % 512 = 0 → fs.CacheTableNum ≠ t) →
      (i % 512 ≠ 0 → fs.CacheTableNum = i - i % 512 ∧
        fs.CacheTable = refTable fs.FileStream.data (i - i % 512)) →
      (mountLoop L (n + 1) i fs).1 = true →
      (mountLoop L (n + 1) i fs).2.FileStream = fs.FileStream ∧
        (mountLoop L (n + 1) i fs).2.ClusterCount = fs.ClusterCount ∧
        (mountLoop L (n + 1) i fs).2.CacheTableNum = (i + n) - (i + n) % 512 ∧
        (mountLoop L (n + 1) i fs).2.CacheTable
          = refTable fs.FileStream.data ((i + n) - (i + n) % 512) := by
  induction n with
  | zero =>
    intro i fs hm hcnt hfut hcur h
    obtain ⟨fs1, he, _, h1, h2, h3, h4⟩ := mountLoop_step L 0 i fs hm hcnt hfut hcur h
    rw [he]
    exact ⟨h1, h2, h3, h4⟩
  | succ n ih =>
    intro i fs hm hcnt hfut hcur h
    obtain ⟨fs1, he, hm1, h1, h2, h3, h4⟩ := mountLoop_step L (n + 1) i fs hm hcnt hfut hcur h
    rw [he] at h ⊢
    have hr := ih (i + 1) fs1 hm1 (by rw [h2]; omega)
      (by intro t ht _ _; rw [h3]; omega)
      (by
        intro hd
        have e : i + 1 - (i + 1) % 512 = i - i % 512 := by omega
        rw [e, h1]
        exact ⟨h3, h4⟩)
      h
    have e2 : i + 1 + n = i + (n + 1) := by omega
    rw [e2, h1, h2] at hr
    exact hr

theorem Mount_true_state (L : Layout) (fs : VirtualFileSystem) (bytes : List Nat) (n : Nat)
    (hlen : bytes.length = (n + 1) * 512) (hsize : bytes.length < 2 ^ 64)
    (hopen : Opens fs (some bytes))
    (hcache : ∀ t, t < bytes.length / 512 → t % 512 = 0 → fs.CacheTableNum ≠ t)
    (h : (Mount L fs (some bytes)).1 = true) :
    (Mount L fs (some bytes)).2.FileStream = ⟨true, false, bytes⟩ ∧
      (Mount L fs (some bytes)).2.ClusterCount = n + 1 ∧
      (Mount L fs (some bytes)).2.CacheTableNum = n - n % 512 ∧
      (Mount L fs (some bytes)).2.CacheTable = refTable bytes (n - n % 512) := by
  have hs := mountStream_of_opens fs bytes hopen
  have hal : bytes.length % 512 = 0 := by omega
  have hdiv : bytes.length / ClusterSize = n + 1 := by
    simp only [ClusterSize]; omega
  simp only [Mount, hs, IfStream.good, and_0x1FF, Bool.not_false, if_true, hal, ne_eq,
    not_true_eq_false, if_false, hdiv] at h ⊢
  have hm : Mounted
      { fs with
        FileStream := ⟨true, false, bytes⟩
        ClusterCount := n + 1 } := by
    refine ⟨rfl, rfl, ?_, ?_⟩
    · simp only [ClusterSize]; omega
    · simp only [ClusterSize]; omega
  have hr := mountLoop_true_state L n 0 _ hm (by simp)
    (by intro t _ h2 h3; exact hcache t (by simp only at h2; omega) h3)
    (by intro h0; simp at h0) h
  simpa using hr


theorem Mount_firstTableCoherent (L : Layout) (fs : VirtualFileSystem) (bytes : List Nat)
    (n : Nat) (hlen : bytes.length = (n + 1) * 512) (hsize : bytes.length < 2 ^ 64)
    (hopen : Opens fs (some bytes))
    (hcache : ∀ t, t < bytes.length / 512 → t % 512 = 0 → fs.CacheTableNum ≠ t)
    (h : (Mount L fs (some bytes)).1 = true) :
    FirstTableCoherent (Mount L fs (some bytes)).2 := by
  obtain ⟨h1, _, h3, h4⟩ := Mount_true_state L fs bytes n hlen hsize hopen hcache h
  intro h0
  rw [h3] at h0
  rw [h4, h1, h0]

/-! ## The walk over a directory of the second table (C13) -/

theorem refCluster_deepFile_2 : refCluster wrapLayout deepFile 2 = deepRoot := by
  have e1 : (2 : Nat) % 512 = 2 := by norm_num
  rw [refCluster, if_neg (by norm_num), e1, refTable_deepFile_0,
    rawCluster_deepFile_data 2 (by norm_num) (by norm_num)]
  decide!

theorem refCluster_deepFile_513 : refCluster wrapLayout deepFile 513 = deepSub := by
  have e1 : (513 : Nat) % 512 = 1 := by norm_num
  rw [refCluster, if_neg (by norm_num), e1, refTable_deepFile_512,
    rawCluster_deepFile 513 (by norm_num)]
  decide!

theorem dirSlots_deepRoot :
    dirSlots wrapLayout deepRoot = [⟨1, ['d'], EntryType.Folder, 513, 0, 0⟩] := by
  decide!

theorem dirSlots_deepSub : dirSlots wrapLayout deepSub = [] := by
  decide!

theorem treeWithin_deepFile :
    treeWithin wrapLayout (refCluster wrapLayout deepFile) 514 2 2 = true := by
  simp [treeWithin, refCluster_deepFile_2, refCluster_deepFile_513, dirSlots_deepRoot,
    dirSlots_deepSub]

theorem trace_deepFile :
    trace wrapLayout (refCluster wrapLayout deepFile) 2 2
      = [Callback.VisitFolderBegin ⟨1, ['d'], EntryType.Folder, 513, 0, 0⟩,
          Callback.VisitFolderEnd] := by
  simp [trace, entryCalls, refCluster_deepFile_2, refCluster_deepFile_513, dirSlots_deepRoot,
    dirSlots_deepSub]

theorem mounted_deepFile (fs : VirtualFileSystem) (hs : fs.FileStream = ⟨true, false, deepFile⟩)
    (hc : fs.ClusterCount = 514) : Mounted fs := by
  unfold Mounted
  rw [hs, hc]
  refine ⟨rfl, rfl, deepFile_length, ?_⟩
  rw [ClusterSize]; norm_num

theorem VisitCluster_deepSub (depth : Nat) :
    ∀ fs : VirtualFileSystem, fs.FileStream = ⟨true, false, deepFile⟩ → fs.ClusterCount = 514 →
      fs.CacheTableNum = 512 → fs.CacheTable = deepTable →
      (VisitCluster wrapLayout depth fs 513).ending = WalkEnd.unfinished := by
  induction depth with
  | zero => intro fs _ _ _ _; rfl
  | succ depth ih =>
    intro fs hs hc hn ht
    have hm := mounted_deepFile fs hs hc
    have hG : GetCluster wrapLayout fs 513 []
        = (true, fs, DecryptData (wrapLayout.Checksum deepTable 1)
            (bytesToWords (deepCluster 513))) := by
      rw [GetCluster_mounted wrapLayout fs 513 [] hm (by rw [hc]; norm_num),
        if_pos (by norm_num), if_pos (by rw [hn])]
      have e1 : (513 : Nat) % 512 = 1 := by norm_num
      rw [e1, ht, hs, rawCluster_deepFile 513 (by norm_num)]
    have hfb : fs.FileStream.failbit = false := by rw [hs]
    have hf : (wrapLayout.FATEntries (DecryptData (wrapLayout.Checksum deepTable 1)
        (bytesToWords (deepCluster 513))) 0).Flags ≠ 0 := by decide!
    have hT : (wrapLayout.FATEntries (DecryptData (wrapLayout.Checksum deepTable 1)
        (bytesToWords (deepCluster 513))) 0).Type_ = EntryType.Folder := by decide!
    have hC : (wrapLayout.FATEntries (DecryptData (wrapLayout.Checksum deepTable 1)
        (bytesToWords (deepCluster 513))) 0).Cluster = 513 := by decide!
    simp only [VisitCluster, hG, hfb, and_self, if_true]
    rw [visitSlots_folder_stuck wrapLayout _ _ 63 0 _ hf hT]
    · rw [hC]; exact ih fs hs hc hn ht
    · rw [hC, ih fs hs hc hn ht]; decide

theorem VisitCluster_deepRoot (depth : Nat) (fs : VirtualFileSystem)
    (hs : fs.FileStream = ⟨true, false, deepFile⟩) (hc : fs.ClusterCount = 514)
    (hn : fs.CacheTableNum = 512) :
    (VisitCluster wrapLayout depth fs 2).ending = WalkEnd.unfinished := by
  cases depth with
  | zero => rfl
  | succ depth =>
    have hm := mounted_deepFile fs hs hc
    have hG : GetCluster wrapLayout fs 2 []
        = (true, { fs with CacheTable := deepTable }, deepRoot) := by
      rw [GetCluster_mounted wrapLayout fs 2 [] hm (by rw [hc]; norm_num),
        if_pos (by norm_num), if_neg (by rw [hn]; norm_num)]
      have e1 : (2 : Nat) % 512 = 2 := by norm_num
      have e2 : (2 : Nat) - 2 = 0 := by norm_num
      rw [e1, e2, hs, refTable_deepFile_0,
        rawCluster_deepFile_data 2 (by norm_num) (by norm_num)]
      have e3 : DecryptData (wrapLayout.Checksum deepTable 2)
          (bytesToWords (wordsToBytes (encryptData (Checksum deepRoot false) deepRoot)))
          = deepRoot := by decide!
      rw [e3]
    have hf : (wrapLayout.FATEntries deepRoot 0).Flags ≠ 0 := by decide
    have hT : (wrapLayout.FATEntries deepRoot 0).Type_ = EntryType.Folder := by decide
    have hC : (wrapLayout.FATEntries deepRoot 0).Cluster = 513 := by decide
    have hsub := VisitCluster_deepSub depth { fs with CacheTable := deepTable } hs hc hn rfl
    have hfb : fs.FileStream.failbit = false := by rw [hs]
    simp only [VisitCluster, hG, hfb, and_self, if_true]
    rw [visitSlots_folder_stuck wrapLayout _ _ 63 0 _ hf hT]
    · rw [hC]; exact hsub
    · rw [hC, hsub]; decide

/-- C13 fails on the code: the cache-miss branch for a data cluster leaves
`CacheTableNum` as it was, so a later cluster of another table is keyed from
the wrong table.  `Mount` accepts the container of 514 clusters whose root
directory holds the folder `d` in cluster 513, an empty directory; over its
decrypted clusters the folder entries form a tree and `trace(2)` is the begin
and the end of `d`.  In the engine `Mount` leaves, `Iterate` reads cluster 513
with the key of cluster 1, finds a populated slot 0 there, a folder in cluster
513, and walks into it without end: it returns for no recursion budget. -/
theorem Iterate_misses_second_table :
    (Mount wrapLayout sampleEngine (some deepFile)).1 = true ∧
      (Mount wrapLayout sampleEngine (some deepFile)).2.ClusterCount = 514 ∧
      (Mount wrapLayout sampleEngine (some deepFile)).2.FileStream = ⟨true, false, deepFile⟩ ∧
      (Mount wrapLayout sampleEngine (some deepFile)).2.CacheTableNum = 512 ∧
      treeWithin wrapLayout (refCluster wrapLayout deepFile) 514 2 2 = true ∧
      trace wrapLayout (refCluster wrapLayout deepFile) 2 2
        = [Callback.VisitFolderBegin ⟨1, ['d'], EntryType.Folder, 513, 0, 0⟩,
            Callback.VisitFolderEnd] ∧
      ∀ depth,
        (Iterate wrapLayout depth (Mount wrapLayout sampleEngine (some deepFile)).2).ending
          ≠ WalkEnd.returned := by
  have hlen : deepFile.length = (513 + 1) * 512 := by rw [deepFile_length, ClusterSize]
  have hst := Mount_true_state wrapLayout sampleEngine deepFile 513 hlen
    (by rw [hlen]; norm_num) (opens_sampleEngine deepFile)
    (by
      intro t ht h0
      rw [hlen] at ht
      simp only [sampleEngine]
      omega)
    Mount_deepFile_true
  refine ⟨Mount_deepFile_true, hst.2.1, hst.1, hst.2.2.1, treeWithin_deepFile, trace_deepFile,
    ?_⟩
  intro depth
  have hgood : (Mount wrapLayout sampleEngine (some deepFile)).2.FileStream.good = true := by
    rw [hst.1]; rfl
  unfold Iterate
  rw [if_pos hgood, VisitCluster_deepRoot depth _ hst.1 hst.2.1 (by rw [hst.2.2.1])]
  decide

end sai
